import Mathlib

/-!
# Read-ahead stream cache (`stream/cache.c`)

A shallow embedding of the cache of `stream/cache.c` and theorems about it.

Conventions of the embedding.

* C integers (`int`, `int64_t`, `uint64_t`) are `Int`; the arithmetic of the
  cache stays far from the 64-bit limits for every file position a stream can
  have, and the theorems that talk about "64-bit" values state the range
  explicitly.  The product `8 * sector` of `cache_init`, formed in `int` from a
  parameter of the call, is embedded with its 32-bit wraparound (`int_wrap`).
  The product `4 * s->sector_size` of `cache_fill`, an `int` product as well, is
  embedded as the exact product, which it is for every sector size below
  `2^29`, hence in every state whose fill limit is 8 sectors.
* `double` values are `Rat`; they are stored, copied and compared, and the one
  arithmetic operation on them, the subtraction of cache.c:287, is embedded
  with its rounding (`refresh_threshold`).
* A byte is a `Nat`; bytes are only copied.
* The shared buffer is a map from the index relative to `s->buffer` to the
  byte stored there, so that a copy past either end of the allocation is
  visible as a write to an index outside `[0, buffer_size)`.
* The two `stream_t` objects a cache refers to (`s->cache`, the wrapper handed
  to the demuxer, and `s->stream`, the source) are fields of the state.
* The cache runs in two processes.  Each C function is embedded as the
  sequential code it is; where the Reader sleeps in `stream_check_interrupt`,
  the embedding takes what happened during that sleep as an argument: the
  iterations the Filler completed (of `cache_fill` for a sleep of `cache_read`,
  of `cache_mainloop` for a sleep of `cache_control` or `stream_cache_init`)
  and whether the caller's interruption fired.
* Calls into code that is not part of `stream/cache.c` (the source stream's
  read, seek and control, the clock, `getppid`) take their outcome from an
  explicit argument.
-/

namespace Cache

/-- The fields of `stream_t` (`stream/stream.h`) that `stream/cache.c` uses.
`control` records whether the `control` callback pointer is set. -/
structure stream_t where
  pos : Int
  eof : Bool
  read_chunk : Int
  sector_size : Int
  cache_size : Int
  control : Bool

/-- The shared cache state, `cache_vars_t` (cache.c:55-88).  The last field, `last`,
is the `static double last` of `cache_execute_control` (cache.c:276), which lives
as long as the Filler does and is kept with the state. -/
structure cache_vars_t where
  cache : stream_t
  stream : stream_t
  cache_pid : Int
  buffer : Int → Nat
  buffer_size : Int
  sector_size : Int
  back_size : Int
  fill_limit : Int
  seek_limit : Int
  ppid : Int
  eof : Bool
  min_filepos : Int
  max_filepos : Int
  offset : Int
  read_filepos : Int
  control : Int
  control_uint_arg : Int
  control_double_arg : Rat
  control_lang_arg : Int
  control_dvd_info_arg : Int
  control_res : Int
  stream_time_length : Rat
  stream_time_pos : Rat
  stream_start_time : Rat
  idle : Bool
  last : Rat

/-- The effect of `memcpy(dst + dpos, src + spos, n)` on the destination: the
`n` indices from `dpos` on receive the source bytes, every other index keeps
its byte. -/
def memcpy (dst : Int → Nat) (dpos : Int) (src : Int → Nat) (spos n : Int) : Int → Nat :=
  fun i => if dpos ≤ i ∧ i < dpos + n then src (spos + (i - dpos)) else dst i

/-- Modelled from the spec: `stream_read_unbuffered` of `stream/stream.c`, which is
not among the sources ("read(buf, maxLen) -> bytesRead").  The medium holds byte
`d q` at logical position `q`; a read of `len` bytes at position `pos` returns a
count `rd len` chosen by the source, delivers the bytes `d pos, d (pos+1), ...`,
advances the position by the count and sets `eof` exactly when the count is 0.
The result is the count, the delivered bytes (indexed from 0) and the stream. -/
def stream_read_unbuffered (st : stream_t) (d : Int → Nat) (rd : Int → Int) (len : Int) :
    Int × (Int → Nat) × stream_t :=
  (rd len, (fun i => d (st.pos + i)),
    { st with pos := st.pos + rd len, eof := decide (rd len = 0) })

/-- Modelled from the spec: `stream_seek_unbuffered` of `stream/stream.c`, which is
not among the sources ("seek(pos) -> bool"): the source is positioned at `newpos`. -/
def stream_seek_unbuffered (st : stream_t) (newpos : Int) : stream_t :=
  { st with pos := newpos }

/-- Modelled from the spec: `stream_reset` of `stream/stream.c`, which is not among
the sources: the end-of-file condition of the source is cleared. -/
def stream_reset (st : stream_t) : stream_t :=
  { st with eof := false }

/-- A source read returns between 0 and the requested number of bytes (and
nothing for a request that is not positive). -/
def short_read (rd : Int → Int) : Prop :=
  ∀ n : Int, 0 ≤ rd n ∧ rd n ≤ max n 0

/-- The function `cache_flush` (cache.c:98-101). -/
def cache_flush (s : cache_vars_t) : cache_vars_t :=
  { s with offset := s.read_filepos, min_filepos := s.read_filepos,
           max_filepos := s.read_filepos }

/-- What one call of `cache_fill` did: the return value and the state, and, for
stating properties, whether the flush-and-seek branch ran, the size of the
source read that was issued (`none` when the call returned before reading),
the physical write position and whether the wraparound copy was used. -/
structure fill_result where
  ret : Int
  s : cache_vars_t
  flushed : Bool
  request : Option Int
  pos : Int
  wraparound_copy : Bool

/-- The function `cache_fill` (cache.c:173-267).  `d` is the content of the medium
and `rd` the count the source read returns for a requested size. -/
def cache_fill (s : cache_vars_t) (d : Int → Nat) (rd : Int → Int) : fill_result :=
  let read := s.read_filepos
  let flushed : Bool :=
    decide (read < s.min_filepos ∨ read > s.max_filepos) &&
      decide (read < s.min_filepos ∨ read ≥ s.max_filepos + s.seek_limit)
  let s : cache_vars_t :=
    if flushed then
      let s := cache_flush s
      let st := if s.stream.eof then stream_reset s.stream else s.stream
      { s with stream := stream_seek_unbuffered st read }
    else s
  -- calc number of back-bytes:
  let back := read - s.min_filepos
  let back := if back < 0 then 0 else back
  let back := if back > s.back_size then s.back_size else back
  -- calc number of new bytes:
  let newb := s.max_filepos - read
  let newb := if newb < 0 then 0 else newb
  -- calc free buffer space:
  let space := s.buffer_size - (newb + back)
  -- calc bufferpos:
  let pos := s.max_filepos - s.offset
  let pos := if pos ≥ s.buffer_size then pos - s.buffer_size else pos
  if space < s.fill_limit then
    { ret := 0, s := s, flushed := flushed, request := none, pos := pos,
      wraparound_copy := false }
  else
    let wraparound_copy : Bool :=
      decide (space > s.buffer_size - pos) && !decide (s.buffer_size - pos ≥ s.sector_size)
    let space :=
      if space > s.buffer_size - pos then
        if s.buffer_size - pos ≥ s.sector_size then s.buffer_size - pos else s.sector_size
      else space
    -- limit one-time block size
    let read_chunk := s.stream.read_chunk
    let read_chunk := if read_chunk = 0 then 4 * s.sector_size else read_chunk
    let space := min space read_chunk
    -- back+newb+space <= buffer_size
    let back2 := s.buffer_size - (space + newb) -- max back size
    let min_filepos := if s.min_filepos < read - back2 then read - back2 else s.min_filepos
    let r := stream_read_unbuffered s.stream d rd space
    let len := r.1
    let buffer : Int → Nat :=
      if wraparound_copy then
        let to_copy := min len (s.buffer_size - pos)
        memcpy (memcpy s.buffer pos r.2.1 0 to_copy) 0 r.2.1 to_copy (len - to_copy)
      else memcpy s.buffer pos r.2.1 0 len
    let offset := if pos + len ≥ s.buffer_size then s.offset + s.buffer_size else s.offset -- wrap...
    { ret := len,
      s := { s with min_filepos := min_filepos, stream := r.2.2, buffer := buffer,
                    eof := decide (len = 0), max_filepos := s.max_filepos + len,
                    offset := offset },
      flushed := flushed, request := some space, pos := pos,
      wraparound_copy := wraparound_copy }

/-- The Filler completes the `cache_fill` iterations whose source reads are
described by `rds`, in order. -/
def run_fills (d : Int → Nat) (s : cache_vars_t) : List (Int → Int) → cache_vars_t
  | [] => s
  | rd :: rds => run_fills d (cache_fill s d rd).s rds

/-- One `stream_check_interrupt(READ_SLEEP_TIME)` of the Reader: the `cache_fill`
iterations the Filler completed while the Reader slept, and the value the call
returned (whether the caller's interruption fired).  The calls of
`cache_execute_control` between the fills are left out: unless a request that
changes the position is pending, they change no field that `cache_read`
reads. -/
structure read_wait where
  fills : List (Int → Int)
  interrupted : Bool

/-- The loop of `cache_read` (cache.c:109-168), with `n` bounding the number of
iterations.  `out` collects the bytes copied to the caller's buffer.  The
result is `none` when the loop has not ended: the Reader is still waiting after
the last sleep described by `env`, the bound was reached, or `memcpy` was called
with a negative size, from which the call does not return.  The counters
`sleep_count` and `last_max` only decide whether a warning is logged and are
left out. -/
def cache_read_loop (d : Int → Nat) :
    Nat → cache_vars_t → Int → Int → List Nat → List read_wait →
      Option (Int × List Nat × cache_vars_t)
  | 0, _, _, _, _, _ => none
  | n + 1, s, size, total, out, env =>
    if size > 0 then
      if s.read_filepos ≥ s.max_filepos ∨ s.read_filepos < s.min_filepos then
        -- eof?
        if s.eof then some (total, out, s)
        else
          -- waiting for buffer fill...
          match env with
          | [] => none
          | w :: env =>
            let s := run_fills d s w.fills
            if w.interrupted then some (total, out, { s with eof := true })
            else cache_read_loop d n s size total out env
      else
        let newb := s.max_filepos - s.read_filepos
        let pos := s.read_filepos - s.offset
        let pos :=
          if pos < 0 then pos + s.buffer_size
          else if pos ≥ s.buffer_size then pos - s.buffer_size else pos
        let newb := if newb > s.buffer_size - pos then s.buffer_size - pos else newb -- handle wrap...
        let newb := if newb > size then size else newb
        if newb < 0 then none
        else
          let out := out ++ (List.range newb.toNat).map (fun (i : Nat) => s.buffer (pos + (i : Int)))
          let len := newb
          cache_read_loop d n { s with read_filepos := s.read_filepos + len }
            (size - len) (total + len) out env
    else some (total, out, s)

/-- The function `cache_read` (cache.c:104-170): the number of bytes returned, the
bytes written to the caller's buffer and the state, or `none` when the call
has not returned (see `cache_read_loop`).  Every iteration that copies takes at
least one byte off `size` in a state where data is available, and every other
one ends the loop or takes one sleep off `env`, which gives the bound; a larger
bound gives the same result (`cache_read_fuel`). -/
def cache_read (d : Int → Nat) (s : cache_vars_t) (size : Int) (env : List read_wait) :
    Option (Int × List Nat × cache_vars_t) :=
  cache_read_loop d (size.toNat + env.length + 1) s size 0 [] env

/-- The function `cache_seek` (cache.c:478-496): the return value and the state.
The C division truncates toward zero.  The `assert` on `cache_pid` holds for
every cache that `stream_cache_init` hands out; the wake-up signal changes no
field. -/
def cache_seek (s : cache_vars_t) (pos : Int) : Int × cache_vars_t :=
  let newpos := Int.tdiv pos s.sector_size
  let newpos := newpos * s.sector_size
  (1, { s with cache := { s.cache with pos := newpos }, read_filepos := newpos, eof := false })

/-- The constants that `stream/cache.c` takes from `stream/stream.h`,
`core/mp_common.h` and `<stdint.h>`.  The headers are not among the sources, so
the constants are a parameter of the functions that name them. -/
structure cache_consts where
  STREAM_BUFFER_SIZE : Int
  SIZE_MAX : Int
  MP_NOPTS_VALUE : Rat
  STREAM_UNSUPPORTED : Int
  STREAM_OK : Int
  STREAM_CTRL_GET_TIME_LENGTH : Int
  STREAM_CTRL_SEEK_TO_CHAPTER : Int
  STREAM_CTRL_GET_CURRENT_CHAPTER : Int
  STREAM_CTRL_GET_NUM_CHAPTERS : Int
  STREAM_CTRL_GET_CURRENT_TIME : Int
  STREAM_CTRL_SEEK_TO_TIME : Int
  STREAM_CTRL_GET_SIZE : Int
  STREAM_CTRL_GET_ASPECT_RATIO : Int
  STREAM_CTRL_GET_NUM_ANGLES : Int
  STREAM_CTRL_GET_ANGLE : Int
  STREAM_CTRL_SET_ANGLE : Int
  STREAM_CTRL_GET_NUM_TITLES : Int
  STREAM_CTRL_GET_LANG : Int
  STREAM_CTRL_GET_CURRENT_TITLE : Int
  STREAM_CTRL_GET_CACHE_SIZE : Int
  STREAM_CTRL_GET_CACHE_FILL : Int
  STREAM_CTRL_GET_CACHE_IDLE : Int
  STREAM_CTRL_MANAGES_TIMELINE : Int
  STREAM_CTRL_GET_START_TIME : Int
  STREAM_CTRL_GET_CHAPTER_TIME : Int
  STREAM_CTRL_GET_DVD_INFO : Int

/-- The object a control call's `void *arg` points to, seen at each of the types
the cache casts the pointer to. -/
structure ctrl_arg where
  dbl : Rat
  uint : Int
  lang : Int
  dvd_info : Int

/-- The `double` constant `0.099` of cache.c:287: the binary64 number nearest to
99/1000.  It is `7133701809754866 * 2^-56`, a little above 99/1000. -/
def DOUBLE_0_099 : Rat := 7133701809754866 / 2 ^ 56

/-- The binary64 number that follows `DOUBLE_0_099`, one unit in the last place
(`2^-56`) above it. -/
def DOUBLE_0_099_succ : Rat := 7133701809754867 / 2 ^ 56

/-- The comparison `mp_time_sec() - last > 0.099` of cache.c:287, stated on the
exact difference of its two `double` operands.  In binary64 arithmetic the
subtraction yields the binary64 number nearest to the exact difference, a tie
going to the even significand, and this rounding is monotone.  The rounded difference is
therefore greater than `DOUBLE_0_099` exactly when the exact difference is
greater than the midpoint of `DOUBLE_0_099` and its successor: the midpoint
itself rounds to `DOUBLE_0_099`, whose significand is even, and everything above
it rounds to the successor or higher.  The midpoint is the threshold. -/
def refresh_threshold : Rat := (DOUBLE_0_099 + DOUBLE_0_099_succ) / 2

/-- What one call of `cache_execute_control` obtains from outside the cache: the
two clock readings `mp_time_sec()` (cache.c:287 and cache.c:310), the value of
`getppid()`, and the source stream's `control` callback, which maps the stream,
the command and the argument to the result code, the argument as the callback
leaves it, and the stream. -/
structure exec_env where
  now : Rat
  now2 : Rat
  ppid : Int
  control : stream_t → Int → ctrl_arg → Int × ctrl_arg × stream_t

/-- The function `cache_execute_control` (cache.c:270-368): the return value and the
state.  The `switch` is written as the chain of comparisons it stands for, its
fall-through groups merged.  `uint_res` is a 32-bit `unsigned`; where the C code
passes the address of an uninitialised local, the callback receives the value
0.  The error message of cache.c:361-365 changes no field. -/
def cache_execute_control (k : cache_consts) (s : cache_vars_t) (e : exec_env) :
    Int × cache_vars_t :=
  let quit : Bool := decide (s.control = -2)
  if quit ∨ s.stream.control = false then
    ((if quit then 0 else 1),
      { s with stream_time_length := 0, stream_time_pos := k.MP_NOPTS_VALUE,
               control_res := k.STREAM_UNSUPPORTED, control := -1 })
  else
    let nul : ctrl_arg := { dbl := 0, uint := 0, lang := 0, dvd_info := 0 }
    let refresh : Bool := decide (e.now - s.last > refresh_threshold)
    let r1 := e.control s.stream k.STREAM_CTRL_GET_TIME_LENGTH nul
    let r2 := e.control r1.2.2 k.STREAM_CTRL_GET_CURRENT_TIME nul
    let r3 := e.control r2.2.2 k.STREAM_CTRL_GET_START_TIME nul
    let s : cache_vars_t :=
      if refresh then
        { s with
          stream := r3.2.2
          stream_time_length := if r1.1 = k.STREAM_OK then r1.2.1.dbl else 0
          stream_time_pos := if r2.1 = k.STREAM_OK then r2.2.1.dbl else k.MP_NOPTS_VALUE
          stream_start_time := if r3.1 = k.STREAM_OK then r3.2.1.dbl else k.MP_NOPTS_VALUE }
      else s
    -- if parent PID changed, main process was killed -> exit
    if refresh ∧ s.ppid ≠ e.ppid then (0, s)
    else
      let s : cache_vars_t := if refresh then { s with last := e.now2 } else s
      if s.control = -1 then (1, s)
      else
        let cmd := s.control
        let needs_flush : Bool :=
          decide (cmd = k.STREAM_CTRL_SEEK_TO_TIME ∨ cmd = k.STREAM_CTRL_SEEK_TO_CHAPTER ∨
            cmd = k.STREAM_CTRL_SET_ANGLE)
        let s : cache_vars_t :=
          if cmd = k.STREAM_CTRL_SEEK_TO_TIME ∨ cmd = k.STREAM_CTRL_GET_CURRENT_TIME ∨
              cmd = k.STREAM_CTRL_GET_ASPECT_RATIO ∨ cmd = k.STREAM_CTRL_GET_START_TIME ∨
              cmd = k.STREAM_CTRL_GET_CHAPTER_TIME then
            let r := e.control s.stream cmd { nul with dbl := s.control_double_arg }
            { s with stream := r.2.2, control_res := r.1, control_double_arg := r.2.1.dbl }
          else if cmd = k.STREAM_CTRL_SEEK_TO_CHAPTER ∨ cmd = k.STREAM_CTRL_SET_ANGLE then
            let r := e.control s.stream cmd { nul with uint := s.control_uint_arg % 2 ^ 32 }
            { s with stream := r.2.2, control_res := r.1, control_uint_arg := r.2.1.uint }
          else if cmd = k.STREAM_CTRL_GET_NUM_TITLES ∨ cmd = k.STREAM_CTRL_GET_NUM_CHAPTERS ∨
              cmd = k.STREAM_CTRL_GET_CURRENT_TITLE ∨
              cmd = k.STREAM_CTRL_GET_CURRENT_CHAPTER ∨
              cmd = k.STREAM_CTRL_GET_NUM_ANGLES ∨ cmd = k.STREAM_CTRL_GET_ANGLE then
            let r := e.control s.stream cmd nul
            { s with stream := r.2.2, control_res := r.1, control_uint_arg := r.2.1.uint }
          else if cmd = k.STREAM_CTRL_GET_SIZE then
            let r := e.control s.stream cmd nul
            { s with stream := r.2.2, control_res := r.1, control_uint_arg := r.2.1.uint }
          else if cmd = k.STREAM_CTRL_GET_LANG then
            let r := e.control s.stream cmd { nul with lang := s.control_lang_arg }
            { s with stream := r.2.2, control_res := r.1, control_lang_arg := r.2.1.lang }
          else if cmd = k.STREAM_CTRL_GET_DVD_INFO then
            let r := e.control s.stream cmd { nul with dvd_info := s.control_dvd_info_arg }
            { s with stream := r.2.2, control_res := r.1,
                     control_dvd_info_arg := r.2.1.dvd_info }
          else if cmd = k.STREAM_CTRL_MANAGES_TIMELINE then
            let r := e.control s.stream cmd nul
            { s with stream := r.2.2, control_res := r.1 }
          else { s with control_res := k.STREAM_UNSUPPORTED }
        let s : cache_vars_t :=
          if s.control_res = k.STREAM_OK ∧ needs_flush then
            cache_flush { s with read_filepos := s.stream.pos, eof := s.stream.eof }
          else s
        (1, { s with control := -1 })

/-- What one iteration of `cache_mainloop` obtains from outside the cache: the
count the source read of `cache_fill` returns for a requested size, and what
`cache_execute_control` obtains. -/
structure filler_iter where
  rd : Int → Int
  exec : exec_env

/-- One iteration of the `do ... while` loop of `cache_mainloop` (cache.c:444-463):
the value of the loop condition and the state.  The sleeps and the signal
handlers change no field. -/
def cache_mainloop_iter (k : cache_consts) (d : Int → Nat) (s : cache_vars_t)
    (it : filler_iter) : Int × cache_vars_t :=
  let r := cache_fill s d it.rd
  let s : cache_vars_t := if r.ret = 0 then { r.s with idle := true } else { r.s with idle := false }
  cache_execute_control k s it.exec

/-- The loop of `cache_mainloop` (cache.c:444-463) run over the iterations `its`; it
stops at the first iteration whose `cache_execute_control` returns 0.  The
result tells whether the Filler is still running, and the state. -/
def cache_mainloop (k : cache_consts) (d : Int → Nat) :
    cache_vars_t → List filler_iter → Bool × cache_vars_t
  | s, [] => (true, s)
  | s, it :: its =>
    let r := cache_mainloop_iter k d s it
    if r.1 = 0 then (false, r.2) else cache_mainloop k d r.2 its

/-- One `stream_check_interrupt` of the Reader while it waits for the Filler in
`cache_control` or in `stream_cache_init`: the iterations of `cache_mainloop`
the Filler completed while the Reader slept, and the value the call returned
(whether the caller's interruption fired). -/
structure control_wait where
  iters : List filler_iter
  interrupted : Bool

/-- The loop `while (s->control != -1)` of `cache_control` (cache.c:560-568):
`some (true, s)` when the interruption fired (eof is set), `some (false, s)` when
the slot has become free, `none` when the Reader is still waiting after the last
sleep described by `env`. -/
def cache_control_wait (k : cache_consts) (d : Int → Nat) :
    cache_vars_t → List control_wait → Option (Bool × cache_vars_t)
  | s, [] => if s.control ≠ -1 then none else some (false, s)
  | s, w :: env =>
    if s.control ≠ -1 then
      let s := (cache_mainloop k d s w.iters).2
      if w.interrupted then some (true, { s with eof := true })
      else cache_control_wait k d s env
    else some (false, s)

/-- The function `cache_control` (cache.c:498-611): the return value, the object
`arg` points to and the state, or `none` when the call has not returned.  The
`switch` statements are written as the chains of comparisons they stand for;
a fall-through is written out (`STREAM_CTRL_GET_LANG` also stores the
`stream_dvd_info_req` view of the argument). -/
def cache_control (k : cache_consts) (d : Int → Nat) (s : cache_vars_t) (cmd : Int)
    (arg : ctrl_arg) (env : List control_wait) : Option (Int × ctrl_arg × cache_vars_t) :=
  if cmd = k.STREAM_CTRL_GET_CACHE_SIZE then
    some (k.STREAM_OK, { arg with uint := s.buffer_size }, s)
  else if cmd = k.STREAM_CTRL_GET_CACHE_FILL then
    some (k.STREAM_OK, { arg with uint := s.max_filepos - s.read_filepos }, s)
  else if cmd = k.STREAM_CTRL_GET_CACHE_IDLE then
    some (k.STREAM_OK, { arg with uint := if s.idle then 1 else 0 }, s)
  else if cmd = k.STREAM_CTRL_GET_TIME_LENGTH then
    some ((if s.stream_time_length ≠ 0 then k.STREAM_OK else k.STREAM_UNSUPPORTED),
      { arg with dbl := s.stream_time_length }, s)
  else if cmd = k.STREAM_CTRL_GET_CURRENT_TIME then
    some ((if s.stream_time_pos ≠ k.MP_NOPTS_VALUE then k.STREAM_OK
        else k.STREAM_UNSUPPORTED),
      { arg with dbl := s.stream_time_pos }, s)
  else if cmd = k.STREAM_CTRL_GET_START_TIME then
    some ((if s.stream_start_time ≠ k.MP_NOPTS_VALUE then k.STREAM_OK
        else k.STREAM_UNSUPPORTED),
      { arg with dbl := s.stream_start_time }, s)
  else
    let pos_change : Bool :=
      decide (cmd = k.STREAM_CTRL_SEEK_TO_TIME ∨ cmd = k.STREAM_CTRL_SEEK_TO_CHAPTER ∨
        cmd = k.STREAM_CTRL_SET_ANGLE)
    let posted : Option cache_vars_t :=
      if cmd = k.STREAM_CTRL_SEEK_TO_TIME then
        some { s with control_double_arg := arg.dbl, control := cmd }
      else if cmd = k.STREAM_CTRL_SEEK_TO_CHAPTER ∨ cmd = k.STREAM_CTRL_SET_ANGLE then
        some { s with control_uint_arg := arg.uint % 2 ^ 32, control := cmd }
      else if cmd = k.STREAM_CTRL_GET_CHAPTER_TIME then
        some { s with control_double_arg := arg.dbl, control := cmd }
      else if cmd = k.STREAM_CTRL_GET_LANG then
        some { s with control_lang_arg := arg.lang, control_dvd_info_arg := arg.dvd_info,
                      control := cmd }
      else if cmd = k.STREAM_CTRL_GET_DVD_INFO then
        some { s with control_dvd_info_arg := arg.dvd_info, control := cmd }
      else if cmd = k.STREAM_CTRL_GET_NUM_TITLES ∨ cmd = k.STREAM_CTRL_GET_NUM_CHAPTERS ∨
          cmd = k.STREAM_CTRL_GET_CURRENT_TITLE ∨ cmd = k.STREAM_CTRL_GET_CURRENT_CHAPTER ∨
          cmd = k.STREAM_CTRL_GET_ASPECT_RATIO ∨ cmd = k.STREAM_CTRL_GET_NUM_ANGLES ∨
          cmd = k.STREAM_CTRL_GET_ANGLE ∨ cmd = k.STREAM_CTRL_GET_SIZE ∨
          cmd = k.STREAM_CTRL_MANAGES_TIMELINE ∨ cmd = -2 then
        some { s with control := cmd }
      else none
    match posted with
    | none => some (k.STREAM_UNSUPPORTED, arg, s)
    | some s =>
      match cache_control_wait k d s env with
      | none => none
      | some (true, s) => some (k.STREAM_UNSUPPORTED, arg, s)
      | some (false, s) =>
        if s.control_res ≠ k.STREAM_OK then some (s.control_res, arg, s)
        else
          let s : cache_vars_t :=
            if pos_change then
              { s with cache := { s.cache with pos := s.read_filepos, eof := s.eof } }
            else s
          let arg : ctrl_arg :=
            if cmd = k.STREAM_CTRL_GET_TIME_LENGTH ∨ cmd = k.STREAM_CTRL_GET_CURRENT_TIME ∨
                cmd = k.STREAM_CTRL_GET_ASPECT_RATIO ∨ cmd = k.STREAM_CTRL_GET_START_TIME ∨
                cmd = k.STREAM_CTRL_GET_CHAPTER_TIME then
              { arg with dbl := s.control_double_arg }
            else if cmd = k.STREAM_CTRL_GET_NUM_TITLES ∨
                cmd = k.STREAM_CTRL_GET_NUM_CHAPTERS ∨
                cmd = k.STREAM_CTRL_GET_CURRENT_TITLE ∨
                cmd = k.STREAM_CTRL_GET_CURRENT_CHAPTER ∨
                cmd = k.STREAM_CTRL_GET_NUM_ANGLES ∨ cmd = k.STREAM_CTRL_GET_ANGLE then
              { arg with uint := s.control_uint_arg % 2 ^ 32 }
            else if cmd = k.STREAM_CTRL_GET_SIZE then { arg with uint := s.control_uint_arg }
            else if cmd = k.STREAM_CTRL_GET_LANG then { arg with lang := s.control_lang_arg }
            else if cmd = k.STREAM_CTRL_GET_DVD_INFO then
              { arg with dvd_info := s.control_dvd_info_arg }
            else arg
          some (s.control_res, arg, s)

/-- The value of an `int` expression whose mathematical value is `x`: the 32-bit
two's-complement number congruent to `x` modulo `2^32`, which is `x` itself when
`x` fits an `int`. -/
def int_wrap (x : Int) : Int := (x + 2 ^ 31) % 2 ^ 32 - 2 ^ 31

/-- The function `cache_init` (cache.c:380-405).  `alloc_vars` and `alloc_buffer` tell
whether the two `shared_alloc` calls succeed, `pid` is the value of `getpid()`;
the result is `none` for the C `NULL`.  `memset` clears every field; the two
stream pointers, cleared as well, are set by the caller before they are used.
The divisions are C divisions.  `sector` is an `int`, and so is the product
`8 * sector` of cache.c:401, which wraps around when `sector` is `2^28` or more;
`num * sector` is a product of 64-bit numbers.  The shared memory is handed out
zero-filled. -/
def cache_init (size sector : Int) (alloc_vars alloc_buffer : Bool) (pid : Int) :
    Option cache_vars_t :=
  if alloc_vars = false then none
  else
    let nul : stream_t :=
      { pos := 0, eof := false, read_chunk := 0, sector_size := 0, cache_size := 0,
        control := false }
    let num := Int.tdiv size sector
    let num := if num < 32 then 32 else num
    -- 64kb min_size
    let buffer_size := num * sector
    if alloc_buffer = false then none
    else
      some
        { cache := nul, stream := nul, cache_pid := 0, buffer := fun _ => 0,
          buffer_size := buffer_size, sector_size := sector,
          back_size := Int.tdiv buffer_size 2, fill_limit := int_wrap (8 * sector),
          seek_limit := 0,
          ppid := pid, eof := false, min_filepos := 0, max_filepos := 0, offset := 0,
          read_filepos := 0, control := 0, control_uint_arg := 0, control_double_arg := 0,
          control_lang_arg := 0, control_dvd_info_arg := 0, control_res := 0,
          stream_time_length := 0, stream_time_pos := 0, stream_start_time := 0,
          idle := false, last := 0 }

/-- What `stream_cache_init` obtains from outside the cache: whether the two
allocations succeed, the values of `getpid()` and `fork()`, and the sleeps of the
prefill loop. -/
structure init_env where
  alloc_vars : Bool
  alloc_buffer : Bool
  pid : Int
  child_pid : Int
  waits : List control_wait

/-- The first part of `stream_cache_init` (cache.c:618-656), up to the `fork`: the
cache state the Filler starts from and the clamped prefill threshold `min`, or
`none` when the function has returned -1 before. -/
def stream_cache_init_vars (k : cache_consts) (cache stream : stream_t)
    (size min seek_limit : Int) (e : init_env) : Option (cache_vars_t × Int) :=
  let size := if size < 0 then stream.cache_size * 1024 else size
  if size = 0 then none
  else
    let ss := if stream.sector_size ≠ 0 then stream.sector_size else k.STREAM_BUFFER_SIZE
    if size > k.SIZE_MAX then none
    else
      match cache_init size ss e.alloc_vars e.alloc_buffer e.pid with
      | none => none
      | some s =>
        let s : cache_vars_t := { s with cache := cache, stream := stream, seek_limit := seek_limit }
        -- make sure that we won't wait from cache_fill
        -- more data than it is allowed to fill
        let s : cache_vars_t :=
          if s.seek_limit > s.buffer_size - s.fill_limit then
            { s with seek_limit := s.buffer_size - s.fill_limit }
          else s
        let min := if min > s.buffer_size - s.fill_limit then s.buffer_size - s.fill_limit else min
        let min := if min ≤ 0 then 1 else min
        some (s, min)

/-- The prefill loop of `stream_cache_init` (cache.c:673-685): `some (0, s)` when the
interruption fired, `some (1, s)` when the loop has ended, `none` when the caller
is still waiting after the last sleep described by `env`. -/
def stream_cache_init_wait (k : cache_consts) (d : Int → Nat) (min : Int) :
    cache_vars_t → List control_wait → Option (Int × cache_vars_t)
  | s, [] =>
    if s.read_filepos < s.min_filepos ∨ s.max_filepos - s.read_filepos < min then
      if s.eof then some (1, s) else none
    else some (1, s)
  | s, w :: env =>
    if s.read_filepos < s.min_filepos ∨ s.max_filepos - s.read_filepos < min then
      if s.eof then some (1, s) -- file is smaller than prefill size
      else
        let s := (cache_mainloop k d s w.iters).2
        if w.interrupted then some (0, s)
        else stream_cache_init_wait k d min s env
    else some (1, s)

/-- The function `stream_cache_init` (cache.c:615-694) as the parent process sees
it: the return value and the cache state (`none` when no cache is attached), or
`none` when the call has not returned.  The forked child runs `cache_mainloop`
and never returns from the function (`child_pid = 0`). -/
def stream_cache_init (k : cache_consts) (d : Int → Nat) (cache stream : stream_t)
    (size min seek_limit : Int) (e : init_env) : Option (Int × Option cache_vars_t) :=
  match stream_cache_init_vars k cache stream size min seek_limit e with
  | none => some (-1, none)
  | some (s, min) =>
    if e.child_pid = 0 then none
    else
      let child_pid := if e.child_pid = -1 then 0 else e.child_pid
      if child_pid = 0 then some (-1, some s)
      else
        let s : cache_vars_t := { s with cache_pid := child_pid }
        match stream_cache_init_wait k d min s e.waits with
        | none => none
        | some (r, s) => some (r, some s)

/-! ## Auxiliary definitions

The quantities `cache_fill` computes, named one by one.  `t` is the state after
the seek block (cache.c:180-196) and `read` the local copy of `read_filepos`. -/

/-- The condition under which `cache_fill` flushes and seeks the source
(cache.c:180 and cache.c:188). -/
def fill_flushes (s : cache_vars_t) : Bool :=
  decide (s.read_filepos < s.min_filepos ∨ s.read_filepos > s.max_filepos) &&
    decide (s.read_filepos < s.min_filepos ∨ s.read_filepos ≥ s.max_filepos + s.seek_limit)

/-- The state after the seek block of `cache_fill` (cache.c:180-196). -/
def fill_seek (s : cache_vars_t) : cache_vars_t :=
  if fill_flushes s then
    { cache_flush s with
      stream := stream_seek_unbuffered
        (if s.stream.eof then stream_reset s.stream else s.stream) s.read_filepos }
  else s

/-- The local `back` of `cache_fill` (cache.c:199-203). -/
def fill_back (t : cache_vars_t) (read : Int) : Int :=
  let back := read - t.min_filepos
  let back := if back < 0 then 0 else back
  if back > t.back_size then t.back_size else back

/-- The local `newb` of `cache_fill` (cache.c:206-208). -/
def fill_newb (t : cache_vars_t) (read : Int) : Int :=
  let newb := t.max_filepos - read
  if newb < 0 then 0 else newb

/-- The local `space` of `cache_fill` as first computed (cache.c:211). -/
def fill_space0 (t : cache_vars_t) (read : Int) : Int :=
  t.buffer_size - (fill_newb t read + fill_back t read)

/-- The local `pos` of `cache_fill` (cache.c:214-216). -/
def fill_pos (t : cache_vars_t) : Int :=
  let pos := t.max_filepos - t.offset
  if pos ≥ t.buffer_size then pos - t.buffer_size else pos

/-- The local `wraparound_copy` of `cache_fill` (cache.c:227-234). -/
def fill_wrap (t : cache_vars_t) (read : Int) : Bool :=
  decide (fill_space0 t read > t.buffer_size - fill_pos t) &&
    !decide (t.buffer_size - fill_pos t ≥ t.sector_size)

/-- The local `space` of `cache_fill` after the wrap-around block (cache.c:227-234). -/
def fill_space1 (t : cache_vars_t) (read : Int) : Int :=
  if fill_space0 t read > t.buffer_size - fill_pos t then
    if t.buffer_size - fill_pos t ≥ t.sector_size then t.buffer_size - fill_pos t
    else t.sector_size
  else fill_space0 t read

/-- The local `read_chunk` of `cache_fill` (cache.c:237-239). -/
def fill_chunk (t : cache_vars_t) : Int :=
  if t.stream.read_chunk = 0 then 4 * t.sector_size else t.stream.read_chunk

/-- The size of the source read `cache_fill` issues (cache.c:240). -/
def fill_space (t : cache_vars_t) (read : Int) : Int := min (fill_space1 t read) (fill_chunk t)

/-- The value of `min_filepos` after cache.c:244-246. -/
def fill_min (t : cache_vars_t) (read : Int) : Int :=
  if t.min_filepos < read - (t.buffer_size - (fill_space t read + fill_newb t read)) then
    read - (t.buffer_size - (fill_space t read + fill_newb t read))
  else t.min_filepos

/-- The buffer after the copy of cache.c:251-258, the source having returned `len`
bytes. -/
def fill_buffer (t : cache_vars_t) (read : Int) (d : Int → Nat) (len : Int) : Int → Nat :=
  if fill_wrap t read then
    memcpy (memcpy t.buffer (fill_pos t) (fun i => d (t.stream.pos + i)) 0
        (min len (t.buffer_size - fill_pos t)))
      0 (fun i => d (t.stream.pos + i)) (min len (t.buffer_size - fill_pos t))
      (len - min len (t.buffer_size - fill_pos t))
  else memcpy t.buffer (fill_pos t) (fun i => d (t.stream.pos + i)) 0 len

/-- The state after cache.c:244-263, the source having returned `len` bytes. -/
def fill_read (t : cache_vars_t) (read : Int) (d : Int → Nat) (len : Int) : cache_vars_t :=
  { t with
    min_filepos := fill_min t read
    stream := { t.stream with pos := t.stream.pos + len, eof := decide (len = 0) }
    buffer := fill_buffer t read d len
    eof := decide (len = 0)
    max_filepos := t.max_filepos + len
    offset := if fill_pos t + len ≥ t.buffer_size then t.offset + t.buffer_size else t.offset }

/-! The stages of `cache_execute_control` and of `cache_control`, named one by
one. -/

/-- The state of `cache_execute_control` after the refresh of the cached times
(cache.c:287-303), when the refresh is due. -/
def exec_times (k : cache_consts) (s : cache_vars_t) (e : exec_env) : cache_vars_t :=
  let nul : ctrl_arg := { dbl := 0, uint := 0, lang := 0, dvd_info := 0 }
  let r1 := e.control s.stream k.STREAM_CTRL_GET_TIME_LENGTH nul
  let r2 := e.control r1.2.2 k.STREAM_CTRL_GET_CURRENT_TIME nul
  let r3 := e.control r2.2.2 k.STREAM_CTRL_GET_START_TIME nul
  if decide (e.now - s.last > refresh_threshold) then
    { s with
      stream := r3.2.2
      stream_time_length := if r1.1 = k.STREAM_OK then r1.2.1.dbl else 0
      stream_time_pos := if r2.1 = k.STREAM_OK then r2.2.1.dbl else k.MP_NOPTS_VALUE
      stream_start_time := if r3.1 = k.STREAM_OK then r3.2.1.dbl else k.MP_NOPTS_VALUE }
  else s

/-- The state of `cache_execute_control` after cache.c:287-311. -/
def exec_refreshed (k : cache_consts) (s : cache_vars_t) (e : exec_env) : cache_vars_t :=
  if decide (e.now - s.last > refresh_threshold) then { exec_times k s e with last := e.now2 }
  else exec_times k s e

/-- The state after the `switch` of `cache_execute_control` (cache.c:314-356). -/
def exec_switch (k : cache_consts) (s : cache_vars_t) (e : exec_env) : cache_vars_t :=
  let nul : ctrl_arg := { dbl := 0, uint := 0, lang := 0, dvd_info := 0 }
  let cmd := s.control
  if cmd = k.STREAM_CTRL_SEEK_TO_TIME ∨ cmd = k.STREAM_CTRL_GET_CURRENT_TIME ∨
      cmd = k.STREAM_CTRL_GET_ASPECT_RATIO ∨ cmd = k.STREAM_CTRL_GET_START_TIME ∨
      cmd = k.STREAM_CTRL_GET_CHAPTER_TIME then
    let r := e.control s.stream cmd { nul with dbl := s.control_double_arg }
    { s with stream := r.2.2, control_res := r.1, control_double_arg := r.2.1.dbl }
  else if cmd = k.STREAM_CTRL_SEEK_TO_CHAPTER ∨ cmd = k.STREAM_CTRL_SET_ANGLE then
    let r := e.control s.stream cmd { nul with uint := s.control_uint_arg % 2 ^ 32 }
    { s with stream := r.2.2, control_res := r.1, control_uint_arg := r.2.1.uint }
  else if cmd = k.STREAM_CTRL_GET_NUM_TITLES ∨ cmd = k.STREAM_CTRL_GET_NUM_CHAPTERS ∨
      cmd = k.STREAM_CTRL_GET_CURRENT_TITLE ∨
      cmd = k.STREAM_CTRL_GET_CURRENT_CHAPTER ∨
      cmd = k.STREAM_CTRL_GET_NUM_ANGLES ∨ cmd = k.STREAM_CTRL_GET_ANGLE then
    let r := e.control s.stream cmd nul
    { s with stream := r.2.2, control_res := r.1, control_uint_arg := r.2.1.uint }
  else if cmd = k.STREAM_CTRL_GET_SIZE then
    let r := e.control s.stream cmd nul
    { s with stream := r.2.2, control_res := r.1, control_uint_arg := r.2.1.uint }
  else if cmd = k.STREAM_CTRL_GET_LANG then
    let r := e.control s.stream cmd { nul with lang := s.control_lang_arg }
    { s with stream := r.2.2, control_res := r.1, control_lang_arg := r.2.1.lang }
  else if cmd = k.STREAM_CTRL_GET_DVD_INFO then
    let r := e.control s.stream cmd { nul with dvd_info := s.control_dvd_info_arg }
    { s with stream := r.2.2, control_res := r.1,
             control_dvd_info_arg := r.2.1.dvd_info }
  else if cmd = k.STREAM_CTRL_MANAGES_TIMELINE then
    let r := e.control s.stream cmd nul
    { s with stream := r.2.2, control_res := r.1 }
  else { s with control_res := k.STREAM_UNSUPPORTED }

/-- The local `needs_flush` of `cache_execute_control`. -/
def exec_needs_flush (k : cache_consts) (s : cache_vars_t) : Bool :=
  decide (s.control = k.STREAM_CTRL_SEEK_TO_TIME ∨ s.control = k.STREAM_CTRL_SEEK_TO_CHAPTER ∨
    s.control = k.STREAM_CTRL_SET_ANGLE)

/-- The state after cache.c:357-360, `t` being the state after the `switch`. -/
def exec_flush (k : cache_consts) (t : cache_vars_t) (needs_flush : Bool) : cache_vars_t :=
  if t.control_res = k.STREAM_OK ∧ needs_flush then
    cache_flush { t with read_filepos := t.stream.pos, eof := t.stream.eof }
  else t

/-- The state in which `cache_control` has posted the command (cache.c:513-555),
`none` for a command that is not posted. -/
def control_posted (k : cache_consts) (s : cache_vars_t) (cmd : Int) (arg : ctrl_arg) :
    Option cache_vars_t :=
  if cmd = k.STREAM_CTRL_SEEK_TO_TIME then
    some { s with control_double_arg := arg.dbl, control := cmd }
  else if cmd = k.STREAM_CTRL_SEEK_TO_CHAPTER ∨ cmd = k.STREAM_CTRL_SET_ANGLE then
    some { s with control_uint_arg := arg.uint % 2 ^ 32, control := cmd }
  else if cmd = k.STREAM_CTRL_GET_CHAPTER_TIME then
    some { s with control_double_arg := arg.dbl, control := cmd }
  else if cmd = k.STREAM_CTRL_GET_LANG then
    some { s with control_lang_arg := arg.lang, control_dvd_info_arg := arg.dvd_info,
                  control := cmd }
  else if cmd = k.STREAM_CTRL_GET_DVD_INFO then
    some { s with control_dvd_info_arg := arg.dvd_info, control := cmd }
  else if cmd = k.STREAM_CTRL_GET_NUM_TITLES ∨ cmd = k.STREAM_CTRL_GET_NUM_CHAPTERS ∨
      cmd = k.STREAM_CTRL_GET_CURRENT_TITLE ∨ cmd = k.STREAM_CTRL_GET_CURRENT_CHAPTER ∨
      cmd = k.STREAM_CTRL_GET_ASPECT_RATIO ∨ cmd = k.STREAM_CTRL_GET_NUM_ANGLES ∨
      cmd = k.STREAM_CTRL_GET_ANGLE ∨ cmd = k.STREAM_CTRL_GET_SIZE ∨
      cmd = k.STREAM_CTRL_MANAGES_TIMELINE ∨ cmd = -2 then
    some { s with control := cmd }
  else none

/-- The local `pos_change` of `cache_control`. -/
def control_pos_change (k : cache_consts) (cmd : Int) : Bool :=
  decide (cmd = k.STREAM_CTRL_SEEK_TO_TIME ∨ cmd = k.STREAM_CTRL_SEEK_TO_CHAPTER ∨
    cmd = k.STREAM_CTRL_SET_ANGLE)

/-- The state after cache.c:578-581: the wrapper stream adopts the position and
`eof` of the cache when the command changes the position. -/
def control_adopt (k : cache_consts) (s : cache_vars_t) (cmd : Int) : cache_vars_t :=
  if control_pos_change k cmd then
    { s with cache := { s.cache with pos := s.read_filepos, eof := s.eof } }
  else s

/-- The object `arg` points to after cache.c:582-609. -/
def control_result_arg (k : cache_consts) (s : cache_vars_t) (cmd : Int) (arg : ctrl_arg) :
    ctrl_arg :=
  if cmd = k.STREAM_CTRL_GET_TIME_LENGTH ∨ cmd = k.STREAM_CTRL_GET_CURRENT_TIME ∨
      cmd = k.STREAM_CTRL_GET_ASPECT_RATIO ∨ cmd = k.STREAM_CTRL_GET_START_TIME ∨
      cmd = k.STREAM_CTRL_GET_CHAPTER_TIME then
    { arg with dbl := s.control_double_arg }
  else if cmd = k.STREAM_CTRL_GET_NUM_TITLES ∨
      cmd = k.STREAM_CTRL_GET_NUM_CHAPTERS ∨
      cmd = k.STREAM_CTRL_GET_CURRENT_TITLE ∨
      cmd = k.STREAM_CTRL_GET_CURRENT_CHAPTER ∨
      cmd = k.STREAM_CTRL_GET_NUM_ANGLES ∨ cmd = k.STREAM_CTRL_GET_ANGLE then
    { arg with uint := s.control_uint_arg % 2 ^ 32 }
  else if cmd = k.STREAM_CTRL_GET_SIZE then { arg with uint := s.control_uint_arg }
  else if cmd = k.STREAM_CTRL_GET_LANG then { arg with lang := s.control_lang_arg }
  else if cmd = k.STREAM_CTRL_GET_DVD_INFO then
    { arg with dvd_info := s.control_dvd_info_arg }
  else arg

/-- What `cache_control` does once the command is posted (cache.c:559-611). -/
def control_answer (k : cache_consts) (d : Int → Nat) (cmd : Int) (arg : ctrl_arg)
    (env : List control_wait) (posted : Option cache_vars_t) (s0 : cache_vars_t) :
    Option (Int × ctrl_arg × cache_vars_t) :=
  match posted with
  | none => some (k.STREAM_UNSUPPORTED, arg, s0)
  | some s =>
    match cache_control_wait k d s env with
    | none => none
    | some (true, s) => some (k.STREAM_UNSUPPORTED, arg, s)
    | some (false, s) =>
      if s.control_res ≠ k.STREAM_OK then some (s.control_res, arg, s)
      else
        some ((control_adopt k s cmd).control_res,
          control_result_arg k (control_adopt k s cmd) cmd arg, control_adopt k s cmd)

/-! ## Sequences of calls -/

/-- Successive calls of `cache_read`, each with its size and the sleeps it meets:
the values returned and the final state, or `none` when a call has not
returned. -/
def cache_read_many (d : Int → Nat) :
    cache_vars_t → List (Int × List read_wait) → Option (List Int × cache_vars_t)
  | s, [] => some ([], s)
  | s, c :: cs =>
    match cache_read d s c.1 c.2 with
    | none => none
    | some r =>
      match cache_read_many d r.2.2 cs with
      | none => none
      | some rs => some (r.1 :: rs.1, rs.2)

/-- One call into the cache, by the Reader (`read`, `seek`, `control`) or by the
Filler (`fill`, `execute_control`), with what the call obtains from outside. -/
inductive cache_op where
  | fill (rd : Int → Int)
  | read (size : Int) (env : List read_wait)
  | seek (pos : Int)
  | control (cmd : Int) (arg : ctrl_arg) (env : List control_wait)
  | execute_control (e : exec_env)

/-- The state after one call, `none` when the call has not returned. -/
def cache_step (k : cache_consts) (d : Int → Nat) (s : cache_vars_t) :
    cache_op → Option cache_vars_t
  | cache_op.fill rd => some (cache_fill s d rd).s
  | cache_op.read size env => (cache_read d s size env).map (fun r => r.2.2)
  | cache_op.seek pos => some (cache_seek s pos).2
  | cache_op.control cmd arg env => (cache_control k d s cmd arg env).map (fun r => r.2.2)
  | cache_op.execute_control e => some (cache_execute_control k s e).2

/-- The state after a sequence of calls, each of which returns. -/
def cache_run (k : cache_consts) (d : Int → Nat) :
    cache_vars_t → List cache_op → Option cache_vars_t
  | s, [] => some s
  | s, op :: ops =>
    match cache_step k d s op with
    | none => none
    | some s1 => cache_run k d s1 ops

/-- Every source read made during the call returns between 0 and the requested
number of bytes. -/
def op_reads_short : cache_op → Prop
  | cache_op.fill rd => short_read rd
  | cache_op.read _ env => ∀ w ∈ env, ∀ rd ∈ w.fills, short_read rd
  | cache_op.seek _ => True
  | cache_op.control _ _ env => ∀ w ∈ env, ∀ it ∈ w.iters, short_read it.rd
  | cache_op.execute_control _ => True

/-- The call is a `cache_seek`. -/
def op_is_seek : cache_op → Prop
  | cache_op.seek _ => True
  | _ => False

/-! ## Invariants -/

/-- The mapping bound: the write cursor lies in the buffer,
`offset ≤ max_filepos < offset + buffer_size`. -/
def mapped (s : cache_vars_t) : Prop :=
  s.offset ≤ s.max_filepos ∧ s.max_filepos < s.offset + s.buffer_size

/-- The content invariant: every logical position of the window is stored at its
physical slot, `buffer[(q - offset) mod buffer_size] = d q`. -/
def content (d : Int → Nat) (s : cache_vars_t) : Prop :=
  ∀ q : Int, s.min_filepos ≤ q → q < s.max_filepos →
    s.buffer ((q - s.offset) % s.buffer_size) = d q

/-- The source is positioned at the end of the window. -/
def source_at_max (s : cache_vars_t) : Prop :=
  s.stream.pos = s.max_filepos

/-- The bytes `d a, d (a+1), ..., d (a+n-1)` of the medium. -/
def medium_bytes (d : Int → Nat) (a n : Int) : List Nat :=
  (List.range n.toNat).map (fun (i : Nat) => d (a + (i : Int)))

/-- What holds while the Filler fills a freshly initialised cache that nobody
reads from: the window starts at 0, the Reader stands at 0, and the write
cursor has either not reached the physical end of the buffer or has just
wrapped there. -/
def fresh_fill_inv (d : Int → Nat) (s : cache_vars_t) : Prop :=
  0 ≤ s.back_size ∧ s.sector_size ≤ s.buffer_size ∧
  s.min_filepos = 0 ∧ s.read_filepos = 0 ∧
  ((s.offset = 0 ∧ 0 ≤ s.max_filepos ∧ s.max_filepos < s.buffer_size) ∨
    (s.offset = s.buffer_size ∧ s.max_filepos = s.buffer_size ∧ 0 < s.buffer_size)) ∧
  content d s ∧ source_at_max s

/-- The invariant of the data path: the mapping bound, a sector fits the buffer,
the window fits the buffer, the content invariant, and the source stands at
the end of the window. -/
def cache_inv (d : Int → Nat) (s : cache_vars_t) : Prop :=
  mapped s ∧ s.sector_size ≤ s.buffer_size ∧
  s.max_filepos - s.min_filepos ≤ s.buffer_size ∧ content d s ∧ source_at_max s

/-- The invariant of the window: the constants are those of a cache (a positive
sector that fits the buffer, and fits the fill limit when `8 * sector_size` does
not overflow; a back size of at least a sector and at most half the buffer),
the mapping bound holds and the window fits the buffer; and, when `b` holds, the
Reader stands inside the window, and the window starts at or below `offset`
unless the Reader is at least `back_size` beyond `offset`. -/
def window_inv (b : Prop) (s : cache_vars_t) : Prop :=
  0 < s.sector_size ∧ (s.sector_size < 2 ^ 28 → s.sector_size ≤ s.fill_limit) ∧
  (s.sector_size ≤ s.back_size ∧ 2 * s.back_size ≤ s.buffer_size) ∧
  s.sector_size ≤ s.buffer_size ∧ mapped s ∧
  s.max_filepos - s.min_filepos ≤ s.buffer_size ∧
  (b → s.min_filepos ≤ s.read_filepos ∧ s.read_filepos ≤ s.max_filepos ∧
    (s.min_filepos ≤ s.offset ∨ s.offset + s.back_size ≤ s.read_filepos))

/-! ## Example objects -/

/-- The constants with the values the headers of the player give them. -/
def ex_consts : cache_consts :=
  { STREAM_BUFFER_SIZE := 2048, SIZE_MAX := 2 ^ 64 - 1, MP_NOPTS_VALUE := -9223372036854775808,
    STREAM_UNSUPPORTED := -1, STREAM_OK := 1,
    STREAM_CTRL_GET_TIME_LENGTH := 1, STREAM_CTRL_SEEK_TO_CHAPTER := 2,
    STREAM_CTRL_GET_CURRENT_CHAPTER := 3, STREAM_CTRL_GET_NUM_CHAPTERS := 4,
    STREAM_CTRL_GET_CURRENT_TIME := 5, STREAM_CTRL_SEEK_TO_TIME := 6,
    STREAM_CTRL_GET_SIZE := 7, STREAM_CTRL_GET_ASPECT_RATIO := 8,
    STREAM_CTRL_GET_NUM_ANGLES := 9, STREAM_CTRL_GET_ANGLE := 10,
    STREAM_CTRL_SET_ANGLE := 11, STREAM_CTRL_GET_NUM_TITLES := 12,
    STREAM_CTRL_GET_LANG := 13, STREAM_CTRL_GET_CURRENT_TITLE := 14,
    STREAM_CTRL_GET_CACHE_SIZE := 15, STREAM_CTRL_GET_CACHE_FILL := 16,
    STREAM_CTRL_GET_CACHE_IDLE := 17, STREAM_CTRL_MANAGES_TIMELINE := 19,
    STREAM_CTRL_GET_START_TIME := 20, STREAM_CTRL_GET_CHAPTER_TIME := 21,
    STREAM_CTRL_GET_DVD_INFO := 22 }

/-- A stream with 2048-byte sectors and no preferred chunk size, at position 0. -/
def ex_stream : stream_t :=
  { pos := 0, eof := false, read_chunk := 0, sector_size := 2048, cache_size := 0,
    control := false }

/-- Both allocations and the `fork` succeed; no prefill sleep is described. -/
def ex_init_env : init_env :=
  { alloc_vars := true, alloc_buffer := true, pid := 1000, child_pid := 1001, waits := [] }

/-- A medium of known content: byte `q mod 251` at position `q`. -/
def ex_medium : Int → Nat := fun q => q.toNat % 251

/-- A source that delivers every byte it is asked for. -/
def ex_full : Int → Int := fun n => max n 0

/-- A medium that holds the byte 1 at every position. -/
def ex_ones : Int → Nat := fun _ => 1

/-- The cache of the spec scenario when the Filler starts: capacity 65536, sector
2048, seek limit 16384. -/
def ex_fresh : cache_vars_t :=
  { cache := ex_stream, stream := ex_stream, cache_pid := 0, buffer := fun _ => 0,
    buffer_size := 65536, sector_size := 2048, back_size := 32768, fill_limit := 16384,
    seek_limit := 16384, ppid := 1000, eof := false, min_filepos := 0, max_filepos := 0,
    offset := 0, read_filepos := 0, control := 0, control_uint_arg := 0,
    control_double_arg := 0, control_lang_arg := 0, control_dvd_info_arg := 0,
    control_res := 0, stream_time_length := 0, stream_time_pos := 0, stream_start_time := 0,
    idle := false, last := 0 }

/-- A state whose write cursor lies before physical slot 0 (`offset > max_filepos`);
its window is empty. -/
def ex_unmapped : cache_vars_t :=
  { ex_fresh with buffer_size := 32, sector_size := 1, back_size := 16, fill_limit := 8,
                  seek_limit := 24, min_filepos := 10, max_filepos := 10, read_filepos := 10,
                  offset := 11, stream := { ex_stream with pos := 10, sector_size := 1 } }

/-- The cache of the spec scenario at the end of an empty source: `eof` is set and
the Reader stands at `max_filepos`. -/
def ex_at_eof : cache_vars_t := { ex_fresh with eof := true }

/-- A state of the spec scenario whose window `[3000, 3500)` lies inside one
sector; the buffer holds the bytes of `ex_ones`. -/
def ex_narrow : cache_vars_t :=
  { ex_fresh with min_filepos := 3000, max_filepos := 3500, read_filepos := 3200,
                  buffer := fun _ => 1, stream := { ex_stream with pos := 3500 } }

/-- A state of the spec scenario whose window `[0, 65536)` fills the buffer, the
Reader having consumed all of it; the buffer holds the bytes of `ex_ones`. -/
def ex_window : cache_vars_t :=
  { ex_fresh with min_filepos := 0, max_filepos := 65536, read_filepos := 65536,
                  offset := 65536, buffer := fun _ => 1,
                  stream := { ex_stream with pos := 65536 } }

/-- The cache of the spec scenario after five fills of 8192 bytes. -/
def ex_filled : cache_vars_t :=
  run_fills ex_medium ex_fresh [ex_full, ex_full, ex_full, ex_full, ex_full]

/-- The state `ex_filled` after the Reader has consumed 40000 bytes. -/
def ex_consumed : cache_vars_t :=
  { ex_filled with read_filepos := ex_filled.read_filepos + 40000 }

/-- The case labels of the first `switch` of `cache_control` (cache.c:503-558) under
which the call returns at once, answered from the shared state. -/
def answered_labels (k : cache_consts) : List Int :=
  [k.STREAM_CTRL_GET_CACHE_SIZE, k.STREAM_CTRL_GET_CACHE_FILL, k.STREAM_CTRL_GET_CACHE_IDLE,
   k.STREAM_CTRL_GET_TIME_LENGTH, k.STREAM_CTRL_GET_CURRENT_TIME,
   k.STREAM_CTRL_GET_START_TIME]

/-- The case labels of the first `switch` of `cache_control` (cache.c:503-558) under
which the command is posted to the Filler. -/
def posted_labels (k : cache_consts) : List Int :=
  [k.STREAM_CTRL_SEEK_TO_TIME, k.STREAM_CTRL_SEEK_TO_CHAPTER, k.STREAM_CTRL_SET_ANGLE,
   k.STREAM_CTRL_GET_CHAPTER_TIME, k.STREAM_CTRL_GET_LANG, k.STREAM_CTRL_GET_DVD_INFO,
   k.STREAM_CTRL_GET_NUM_TITLES, k.STREAM_CTRL_GET_NUM_CHAPTERS,
   k.STREAM_CTRL_GET_CURRENT_TITLE, k.STREAM_CTRL_GET_CURRENT_CHAPTER,
   k.STREAM_CTRL_GET_ASPECT_RATIO, k.STREAM_CTRL_GET_NUM_ANGLES, k.STREAM_CTRL_GET_ANGLE,
   k.STREAM_CTRL_GET_SIZE, k.STREAM_CTRL_MANAGES_TIMELINE, -2]

/-- All case labels of the first `switch` of `cache_control` (cache.c:503-558). -/
def control_labels (k : cache_consts) : List Int :=
  answered_labels k ++ posted_labels k

/-- The case labels of the `switch` of `cache_execute_control` (cache.c:314-356). -/
def exec_labels (k : cache_consts) : List Int :=
  [k.STREAM_CTRL_SEEK_TO_TIME, k.STREAM_CTRL_GET_CURRENT_TIME, k.STREAM_CTRL_GET_ASPECT_RATIO,
   k.STREAM_CTRL_GET_START_TIME, k.STREAM_CTRL_GET_CHAPTER_TIME,
   k.STREAM_CTRL_SEEK_TO_CHAPTER, k.STREAM_CTRL_SET_ANGLE, k.STREAM_CTRL_GET_NUM_TITLES,
   k.STREAM_CTRL_GET_NUM_CHAPTERS, k.STREAM_CTRL_GET_CURRENT_TITLE,
   k.STREAM_CTRL_GET_CURRENT_CHAPTER, k.STREAM_CTRL_GET_NUM_ANGLES, k.STREAM_CTRL_GET_ANGLE,
   k.STREAM_CTRL_GET_SIZE, k.STREAM_CTRL_GET_LANG, k.STREAM_CTRL_GET_DVD_INFO,
   k.STREAM_CTRL_MANAGES_TIMELINE]

/-- What the C compiler and the cache require of the constants: the case labels of
a `switch` are distinct, none of them is the marker -1 of a free control slot,
and the result codes `STREAM_OK` and `STREAM_UNSUPPORTED` differ. -/
def consts_ok (k : cache_consts) : Prop :=
  (control_labels k).Nodup ∧ (-1 : Int) ∉ control_labels k ∧
  k.STREAM_OK ≠ k.STREAM_UNSUPPORTED

/-- The quantity `bytes_available_at(pos)` of the spec (section 4.1), in the spec's
words: `max(0, max_filepos - pos)` when `pos` is within
`[min_filepos, max_filepos]`, else 0. -/
def spec_bytes_available_at (s : cache_vars_t) (pos : Int) : Int :=
  if s.min_filepos ≤ pos ∧ pos ≤ s.max_filepos then max 0 (s.max_filepos - pos) else 0

/-- An argument object with every view 0. -/
def ex_arg : ctrl_arg := { dbl := 0, uint := 0, lang := 0, dvd_info := 0 }

/-- A state of the spec scenario whose window `[100000, 100100)` lies beyond the
first 65536 bytes. -/
def ex_far : cache_vars_t :=
  { ex_fresh with min_filepos := 100000, max_filepos := 100100, read_filepos := 100000,
                  offset := 100000, buffer := fun _ => 1,
                  stream := { ex_stream with pos := 100100 } }


/-- A source whose control callback answers `STREAM_OK` to every command and
leaves the stream at position 4096; the clock stands at 0 and the parent is
alive. -/
def ex_exec_env : exec_env :=
  { now := 0, now2 := 0, ppid := 1000,
    control := fun st _ a => (1, a, { st with pos := 4096 }) }

/-- The cache of the spec scenario over a source with a control callback, with
`STREAM_CTRL_SEEK_TO_TIME` posted. -/
def ex_seek_posted : cache_vars_t :=
  { ex_fresh with control := 6, stream := { ex_stream with control := true } }


/-- The fields the Filler never writes: the constants, the wrapper stream and the
recorded parent id. -/
def same_consts (s t : cache_vars_t) : Prop :=
  t.buffer_size = s.buffer_size ∧ t.sector_size = s.sector_size ∧
  t.fill_limit = s.fill_limit ∧ t.back_size = s.back_size ∧ t.seek_limit = s.seek_limit ∧
  t.cache = s.cache ∧ t.ppid = s.ppid ∧ t.cache_pid = s.cache_pid


/-- One iteration of the Filler over a source that delivers every byte and
answers every control with `STREAM_OK`. -/
def ex_iter : filler_iter := { rd := ex_full, exec := ex_exec_env }

/-- The cache of the spec scenario over a source with a control callback, the
control slot free. -/
def ex_idle : cache_vars_t :=
  { ex_fresh with control := -1, stream := { ex_stream with control := true } }

/-- The state in which `cache_control(STREAM_CTRL_SEEK_TO_TIME)` returns when it is
called in `ex_idle` and the Filler completes one iteration during the first
sleep. -/
def ex_seek_done : cache_vars_t :=
  control_adopt ex_consts (cache_mainloop ex_consts ex_medium ex_seek_posted [ex_iter]).2 6


/-- The state `ex_idle` after a call `cache_control(STREAM_CTRL_SEEK_TO_TIME)` that was
interrupted at its first poll, before the Filler ran: the request is still in
the control slot. -/
def ex_pending : cache_vars_t := { ex_seek_posted with eof := true }


/-- The cache of the spec scenario over a source with a control callback, with the
code 99, which no `switch` lists, in the control slot, and with the result
`STREAM_OK` of an earlier request in `control_res`. -/
def ex_unknown_posted : cache_vars_t :=
  { ex_fresh with control := 99, control_res := 1, stream := { ex_stream with control := true } }


/-- A source whose control callback answers `STREAM_OK` with the value 7 to every
command, read at the clock value `t` by a Filler whose parent is alive. -/
def ex_timed_env (t : Rat) : exec_env :=
  { now := t, now2 := t, ppid := 1000,
    control := fun st _ a => (1, { a with dbl := 7 }, st) }

/-- The cache of the spec scenario over a source with a control callback, the
cached times holding the value 7 the source reports, with the quit request -2
posted. -/
def ex_quit_posted : cache_vars_t :=
  { ex_idle with control := -2, stream_time_length := 7, stream_time_pos := 7,
                 stream_start_time := 7 }


/-- The sleeps of a prefill during which the Filler completes one iteration over a
source that delivers every byte; the `fork` succeeds. -/
def ex_prefill_env : init_env :=
  { ex_init_env with waits := [⟨[ex_iter], false⟩] }

/-- The state in which `stream_cache_init` returns in the spec scenario after one
iteration of the Filler. -/
def ex_prefilled : cache_vars_t :=
  (cache_mainloop ex_consts ex_medium { ex_fresh with cache_pid := 1001 } [ex_iter]).2


/-- The environment of the spec scenario in which the allocation of the buffer
fails. -/
def ex_alloc_fails : init_env := { ex_init_env with alloc_buffer := false }

/-- The environment of the spec scenario in which the allocation of the state
fails. -/
def ex_vars_alloc_fails : init_env := { ex_init_env with alloc_vars := false }

/-- The environment of the spec scenario in which both allocations succeed and
the `fork` fails. -/
def ex_fork_fails : init_env := { ex_init_env with child_pid := -1 }


/-- The environment `ex_exec_env` (clock at 0, no refresh due) with the parent
process gone: `getppid()` returns 1. -/
def ex_orphan_env : exec_env := { ex_exec_env with ppid := 1 }

/-- The environment `ex_timed_env t` with the parent process gone: `getppid()`
returns 1. -/
def ex_orphan_timed_env (t : Rat) : exec_env := { ex_timed_env t with ppid := 1 }


/-- The fields `max_filepos`, `offset`, `min_filepos`, `idle` and the buffer are the
same in `t` as in `s`. -/
def filler_fields_eq (s t : cache_vars_t) : Prop :=
  t.max_filepos = s.max_filepos ∧ t.offset = s.offset ∧ t.min_filepos = s.min_filepos ∧
  t.idle = s.idle ∧ t.buffer = s.buffer

/-- The code and the argument fields of the control request are the same in `t` as
in `s`. -/
def request_fields_eq (s t : cache_vars_t) : Prop :=
  t.control = s.control ∧ t.control_uint_arg = s.control_uint_arg ∧
  t.control_double_arg = s.control_double_arg ∧ t.control_lang_arg = s.control_lang_arg ∧
  t.control_dvd_info_arg = s.control_dvd_info_arg


/-- A state of the spec scenario with the window `[0, 57344)` and the Reader at
57000, more than `back_size` beyond the start of the window. -/
def ex_read_ahead : cache_vars_t :=
  { ex_fresh with max_filepos := 57344, read_filepos := 57000,
                  stream := { ex_stream with pos := 57344 } }


/-- The local `pos` of `cache_read` (cache.c:141-145). -/
def read_pos (s : cache_vars_t) : Int :=
  let pos := s.read_filepos - s.offset
  if pos < 0 then pos + s.buffer_size
  else if pos ≥ s.buffer_size then pos - s.buffer_size else pos

/-- The local `newb` of `cache_read` after cache.c:147-150, the number of bytes the
iteration copies. -/
def read_newb (s : cache_vars_t) (size : Int) : Int :=
  let newb := s.max_filepos - s.read_filepos
  let newb := if newb > s.buffer_size - read_pos s then s.buffer_size - read_pos s else newb
  if newb > size then size else newb


/-- A source with 100 bytes left: a read returns at most 100 bytes. -/
def ex_short : Int → Int := fun n => min (max n 0) 100

/-- The fresh cache of the spec scenario with the seek limit 49152
(`buffer_size - fill_limit`) over a source that prefers chunks of 65536 bytes,
after `cache_seek(40960)`: the Reader stands beyond the empty window, within the
seek limit. -/
def ex_gap : cache_vars_t :=
  { ex_fresh with seek_limit := 49152, read_filepos := 40960,
                  cache := { ex_stream with pos := 40960 },
                  stream := { ex_stream with read_chunk := 65536 } }


/-- The indices of the buffer written by the copies of cache.c:251-258, the source
having returned `len` bytes: those of the two `memcpy` calls when the wraparound
copy is used, and the `len` indices from `pos` on that the source read fills
otherwise. -/
def fill_written (t : cache_vars_t) (read len i : Int) : Prop :=
  if fill_wrap t read then
    (fill_pos t ≤ i ∧ i < fill_pos t + min len (t.buffer_size - fill_pos t)) ∨
      (0 ≤ i ∧ i < len - min len (t.buffer_size - fill_pos t))
  else fill_pos t ≤ i ∧ i < fill_pos t + len


/-- A stream whose sector size is `2^28`. -/
def ex_wide_stream : stream_t := { ex_stream with sector_size := 268435456 }


/-! ## Theorems -/

theorem cache_fill_eq (s : cache_vars_t) (d : Int → Nat) (rd : Int → Int) :
    cache_fill s d rd =
      if fill_space0 (fill_seek s) s.read_filepos < (fill_seek s).fill_limit then
        { ret := 0, s := fill_seek s, flushed := fill_flushes s, request := none,
          pos := fill_pos (fill_seek s), wraparound_copy := false }
      else
        { ret := rd (fill_space (fill_seek s) s.read_filepos),
          s := fill_read (fill_seek s) s.read_filepos d
            (rd (fill_space (fill_seek s) s.read_filepos)),
          flushed := fill_flushes s,
          request := some (fill_space (fill_seek s) s.read_filepos),
          pos := fill_pos (fill_seek s),
          wraparound_copy := fill_wrap (fill_seek s) s.read_filepos } := rfl

theorem emod_window {B x : Int} (h1 : -B ≤ x) (h2 : x < B) :
    x % B = if x < 0 then x + B else x := by
  split_ifs with h
  · rw [← Int.add_emod_self]; exact Int.emod_eq_of_lt (by omega) (by omega)
  · exact Int.emod_eq_of_lt (by omega) h2

theorem fill_seek_of_flush {s : cache_vars_t} (h : fill_flushes s = true) :
    fill_seek s =
      { cache_flush s with
        stream := stream_seek_unbuffered
          (if s.stream.eof then stream_reset s.stream else s.stream) s.read_filepos } := by
  unfold fill_seek; rw [if_pos h]

theorem fill_seek_of_not_flush {s : cache_vars_t} (h : fill_flushes s = false) :
    fill_seek s = s := by
  unfold fill_seek; rw [if_neg (by simp [h])]

theorem fill_seek_consts (s : cache_vars_t) :
    (fill_seek s).buffer_size = s.buffer_size ∧ (fill_seek s).sector_size = s.sector_size ∧
    (fill_seek s).back_size = s.back_size ∧ (fill_seek s).fill_limit = s.fill_limit ∧
    (fill_seek s).seek_limit = s.seek_limit ∧ (fill_seek s).read_filepos = s.read_filepos ∧
    (fill_seek s).buffer = s.buffer ∧ (fill_seek s).stream.read_chunk = s.stream.read_chunk := by
  cases h : fill_flushes s
  · rw [fill_seek_of_not_flush h]; simp
  · rw [fill_seek_of_flush h]
    by_cases he : s.stream.eof = true <;>
      simp [cache_flush, stream_seek_unbuffered, stream_reset, he]

theorem fill_seek_mapped {s : cache_vars_t} (h : mapped s) : mapped (fill_seek s) := by
  cases hf : fill_flushes s
  · rw [fill_seek_of_not_flush hf]; exact h
  · rw [fill_seek_of_flush hf]
    obtain ⟨h1, h2⟩ := h
    simp only [mapped, cache_flush]
    omega

theorem fill_seek_content {d : Int → Nat} {s : cache_vars_t} (h : content d s) :
    content d (fill_seek s) := by
  cases hf : fill_flushes s
  · rw [fill_seek_of_not_flush hf]; exact h
  · rw [fill_seek_of_flush hf]
    intro q h1 h2
    simp only [cache_flush] at h1 h2
    omega

theorem fill_seek_source {s : cache_vars_t} (h : source_at_max s) :
    source_at_max (fill_seek s) := by
  cases hf : fill_flushes s
  · rw [fill_seek_of_not_flush hf]; exact h
  · rw [fill_seek_of_flush hf]
    simp [source_at_max, cache_flush, stream_seek_unbuffered]

/-- The request of a fill never exceeds the room up to the physical end of the
buffer, unless the wraparound copy is used, and then it is at most a sector. -/
theorem fill_space_le {t : cache_vars_t} (read : Int) :
    (fill_wrap t read = false → fill_space t read ≤ t.buffer_size - fill_pos t) ∧
    (fill_wrap t read = true →
      fill_space t read ≤ t.sector_size ∧ t.buffer_size - fill_pos t < t.sector_size) := by
  unfold fill_space fill_space1 fill_wrap
  constructor
  · intro h
    simp only [Bool.and_eq_false_imp, decide_eq_true_eq, Bool.not_eq_false'] at h
    split_ifs <;> omega
  · intro h
    simp only [Bool.and_eq_true, decide_eq_true_eq, Bool.not_eq_true', decide_eq_false_iff_not] at h
    split_ifs <;> omega

theorem fill_pos_mapped {t : cache_vars_t} (h : mapped t) :
    fill_pos t = t.max_filepos - t.offset ∧ 0 ≤ fill_pos t ∧ fill_pos t < t.buffer_size := by
  obtain ⟨h1, h2⟩ := h
  unfold fill_pos
  simp only []
  split_ifs <;> omega

theorem fill_min_ge {t : cache_vars_t} (read : Int) :
    t.min_filepos ≤ fill_min t read ∧
    t.max_filepos - t.buffer_size + fill_space t read ≤ fill_min t read := by
  unfold fill_min fill_newb
  simp only []
  split_ifs <;> omega

theorem fill_read_mapped {t : cache_vars_t} (read : Int) (d : Int → Nat) (len : Int)
    (hm : mapped t) (hs : t.sector_size ≤ t.buffer_size)
    (hl : 0 ≤ len ∧ len ≤ max (fill_space t read) 0) :
    mapped (fill_read t read d len) := by
  obtain ⟨hp, hp0, hpB⟩ := fill_pos_mapped hm
  obtain ⟨h1, h2⟩ := hm
  have hsp := fill_space_le (t := t) read
  unfold mapped fill_read
  simp only []
  cases hw : fill_wrap t read
  · have := hsp.1 hw
    split_ifs <;> omega
  · have := hsp.2 hw
    split_ifs <;> omega

theorem fill_read_content {t : cache_vars_t} (read : Int) (d : Int → Nat) (len : Int)
    (hm : mapped t) (hs : t.sector_size ≤ t.buffer_size)
    (hc : content d t) (hsrc : source_at_max t)
    (hl : 0 ≤ len ∧ len ≤ max (fill_space t read) 0) :
    content d (fill_read t read d len) := by
  obtain ⟨hp, hp0, hpB⟩ := fill_pos_mapped hm
  have hm' := fill_read_mapped read d len hm hs hl
  obtain ⟨h1, h2⟩ := hm
  have hsp := fill_space_le (t := t) read
  have hmin := fill_min_ge (t := t) read
  intro q hq1 hq2
  by_cases hlen : len = 0
  · -- nothing was read: the buffer and the mapping are the same
    have hoff : (fill_read t read d len).offset = t.offset := by
      simp only [fill_read]; rw [if_neg (by omega)]
    have hbuf : (fill_read t read d len).buffer = t.buffer := by
      simp only [fill_read, fill_buffer, hlen]
      funext i
      split_ifs <;> simp only [memcpy] <;> (try split_ifs) <;> (try rfl) <;> omega
    rw [hoff, hbuf]
    have hB : (fill_read t read d len).buffer_size = t.buffer_size := rfl
    rw [hB]
    apply hc q
    · have : (fill_read t read d len).min_filepos = fill_min t read := rfl
      omega
    · have : (fill_read t read d len).max_filepos = t.max_filepos + len := rfl
      omega
  · have hlen' : len ≤ fill_space t read := by omega
    have hmax : (fill_read t read d len).max_filepos = t.max_filepos + len := rfl
    have hmn : (fill_read t read d len).min_filepos = fill_min t read := rfl
    have hB : (fill_read t read d len).buffer_size = t.buffer_size := rfl
    have hbuf : (fill_read t read d len).buffer = fill_buffer t read d len := rfl
    have hoff : (fill_read t read d len).offset =
        if fill_pos t + len ≥ t.buffer_size then t.offset + t.buffer_size else t.offset := rfl
    rw [hmax] at hq2
    rw [hmn] at hq1
    obtain ⟨hm1, hm2⟩ := hm'
    rw [hoff, hmax] at hm1
    rw [hoff, hmax, hB] at hm2
    rw [hbuf, hB, emod_window (B := t.buffer_size) (by rw [hoff]; split_ifs <;> omega)
      (by rw [hoff]; split_ifs <;> omega), hoff]
    have hsrc' : t.stream.pos = t.max_filepos := hsrc
    by_cases hq : q < t.max_filepos
    · have hcq := hc q (by omega) hq
      rw [emod_window (by omega) (by omega)] at hcq
      rw [← hcq]
      unfold fill_buffer
      cases hw : fill_wrap t read
      · have := hsp.1 hw
        simp only [memcpy, Bool.false_eq_true, if_false]
        split_ifs <;> first | omega | (congr 1; omega)
      · have := hsp.2 hw
        simp only [memcpy, if_true]
        split_ifs <;> first | omega | (congr 1; omega)
    · unfold fill_buffer
      cases hw : fill_wrap t read
      · have := hsp.1 hw
        simp only [memcpy, Bool.false_eq_true, if_false]
        split_ifs <;> first | omega | (congr 1; omega)
      · have := hsp.2 hw
        simp only [memcpy, if_true]
        split_ifs <;> first | omega | (congr 1; omega)

theorem fill_read_source {t : cache_vars_t} (read : Int) (d : Int → Nat) (len : Int)
    (hsrc : source_at_max t) : source_at_max (fill_read t read d len) := by
  have h : t.stream.pos = t.max_filepos := hsrc
  simp only [source_at_max, fill_read]
  omega

/-- One `cache_fill` keeps the mapping bound, the content invariant and the
position of the source together. -/
theorem cache_fill_keeps {s : cache_vars_t} {d : Int → Nat} {rd : Int → Int}
    (hm : mapped s) (hs : s.sector_size ≤ s.buffer_size)
    (hc : content d s) (hsrc : source_at_max s) (hrd : short_read rd) :
    mapped (cache_fill s d rd).s ∧ content d (cache_fill s d rd).s ∧
      source_at_max (cache_fill s d rd).s := by
  have hk := fill_seek_consts s
  have hm' := fill_seek_mapped hm
  have hc' := fill_seek_content hc
  have hsrc' := fill_seek_source hsrc
  have hs' : (fill_seek s).sector_size ≤ (fill_seek s).buffer_size := by
    rw [hk.1, hk.2.1]; exact hs
  rw [cache_fill_eq]
  split_ifs with h
  · exact ⟨hm', hc', hsrc'⟩
  · exact ⟨fill_read_mapped _ d _ hm' hs' (hrd _),
      fill_read_content _ d _ hm' hs' hc' hsrc' (hrd _), fill_read_source _ d _ hsrc'⟩

theorem medium_bytes_add (d : Int → Nat) (a m k : Int) (hm : 0 ≤ m) (hk : 0 ≤ k) :
    medium_bytes d a (m + k) = medium_bytes d a m ++ medium_bytes d (a + m) k := by
  unfold medium_bytes
  rw [Int.toNat_add hm hk, List.range_add, List.map_append, List.map_map]
  congr 1
  apply List.map_congr_left
  intro i _
  simp only [Function.comp]
  congr 1
  have : ((m.toNat : Int)) = m := Int.toNat_of_nonneg hm
  push_cast
  omega

/-- The local `pos` of `cache_read` (cache.c:141-145). -/
theorem read_pos_eq {s : cache_vars_t} (hm : mapped s)
    (hw : s.max_filepos - s.min_filepos ≤ s.buffer_size)
    (h1 : s.min_filepos ≤ s.read_filepos) (h2 : s.read_filepos < s.max_filepos) :
    (if s.read_filepos - s.offset < 0 then s.read_filepos - s.offset + s.buffer_size
      else if s.read_filepos - s.offset ≥ s.buffer_size then
        s.read_filepos - s.offset - s.buffer_size
      else s.read_filepos - s.offset) = (s.read_filepos - s.offset) % s.buffer_size := by
  obtain ⟨hm1, hm2⟩ := hm
  rw [emod_window (B := s.buffer_size) (by omega) (by omega)]
  split_ifs <;> omega

theorem read_chunk_eq {d : Int → Nat} {s : cache_vars_t} (hm : mapped s)
    (hw : s.max_filepos - s.min_filepos ≤ s.buffer_size) (hc : content d s)
    (h1 : s.min_filepos ≤ s.read_filepos) (newb : Int)
    (h2 : s.read_filepos + newb ≤ s.max_filepos)
    (h3 : newb ≤ s.buffer_size - (s.read_filepos - s.offset) % s.buffer_size) :
    (List.range newb.toNat).map
        (fun (i : Nat) => s.buffer ((s.read_filepos - s.offset) % s.buffer_size + (i : Int))) =
      medium_bytes d s.read_filepos newb := by
  unfold medium_bytes
  apply List.map_congr_left
  intro i hi
  rw [List.mem_range] at hi
  have hi' : (i : Int) < newb := by omega
  obtain ⟨hm1, hm2⟩ := hm
  have hc' := hc (s.read_filepos + i) (by omega) (by omega)
  rw [← hc']
  congr 1
  have e1 := emod_window (B := s.buffer_size) (x := s.read_filepos - s.offset)
    (by omega) (by omega)
  have e2 := emod_window (B := s.buffer_size) (x := s.read_filepos + i - s.offset)
    (by omega) (by omega)
  rw [e2]
  rw [e1] at h3 ⊢
  split_ifs at h3 ⊢ <;> omega

theorem cache_read_loop_avail (d : Int → Nat) :
    ∀ (n : Nat) (s : cache_vars_t) (size total : Int) (out : List Nat) (env : List read_wait),
      mapped s → s.max_filepos - s.min_filepos ≤ s.buffer_size → content d s →
      s.min_filepos ≤ s.read_filepos → 0 ≤ size → s.read_filepos + size ≤ s.max_filepos →
      size < n →
      cache_read_loop d n s size total out env =
        some (total + size, out ++ medium_bytes d s.read_filepos size,
          { s with read_filepos := s.read_filepos + size }) := by
  intro n
  induction n with
  | zero => intro s size total out env _ _ _ _ h0 _ hn; simp at hn; omega
  | succ n ih =>
    intro s size total out env hm hw hc h1 h0 h2 hn
    unfold cache_read_loop
    by_cases hsz : size > 0
    · have hcond : ¬ (s.read_filepos ≥ s.max_filepos ∨ s.read_filepos < s.min_filepos) := by
        omega
      rw [if_pos hsz, if_neg hcond]
      simp only []
      rw [read_pos_eq hm hw h1 (by omega)]
      have hph := Int.emod_nonneg (s.read_filepos - s.offset)
        (show s.buffer_size ≠ 0 by have := hm.1; have := hm.2; omega)
      have hph2 := Int.emod_lt_of_pos (s.read_filepos - s.offset)
        (show 0 < s.buffer_size by have := hm.1; have := hm.2; omega)
      generalize hnb : (if (if s.max_filepos - s.read_filepos >
              s.buffer_size - (s.read_filepos - s.offset) % s.buffer_size then
            s.buffer_size - (s.read_filepos - s.offset) % s.buffer_size
          else s.max_filepos - s.read_filepos) > size then size
        else (if s.max_filepos - s.read_filepos >
              s.buffer_size - (s.read_filepos - s.offset) % s.buffer_size then
            s.buffer_size - (s.read_filepos - s.offset) % s.buffer_size
          else s.max_filepos - s.read_filepos)) = newb
      have hnb1 : 1 ≤ newb ∧ newb ≤ size ∧ newb ≤ s.max_filepos - s.read_filepos ∧
          newb ≤ s.buffer_size - (s.read_filepos - s.offset) % s.buffer_size := by
        rw [← hnb]; split_ifs <;> omega
      rw [if_neg (by omega)]
      rw [read_chunk_eq hm hw hc h1 newb (by omega) (by omega)]
      have hm1 : mapped { s with read_filepos := s.read_filepos + newb } := hm
      have hc1 : content d { s with read_filepos := s.read_filepos + newb } := hc
      rw [ih { s with read_filepos := s.read_filepos + newb } (size - newb) (total + newb) _ env
        hm1 hw hc1 (by simp only []; omega) (by omega) (by simp only []; omega) (by omega)]
      simp only []
      rw [List.append_assoc, ← medium_bytes_add d _ _ _ (by omega) (by omega)]
      have e1 : total + newb + (size - newb) = total + size := by omega
      have e2 : newb + (size - newb) = size := by omega
      have e3 : s.read_filepos + newb + (size - newb) = s.read_filepos + size := by omega
      rw [e1, e2, e3]
    · have : size = 0 := by omega
      subst this
      rw [if_neg hsz]
      simp [medium_bytes]

theorem cache_init_some {size sector : Int} {av ab : Bool} {pid : Int} {s : cache_vars_t}
    (h : cache_init size sector av ab pid = some s) :
    (∃ num : Int, 32 ≤ num ∧ (Int.tdiv size sector < 32 → num = 32) ∧
      (32 ≤ Int.tdiv size sector → num = Int.tdiv size sector) ∧
      s.buffer_size = num * sector) ∧
    s.sector_size = sector ∧ s.back_size = Int.tdiv s.buffer_size 2 ∧
    s.fill_limit = int_wrap (8 * sector) ∧ s.min_filepos = 0 ∧ s.max_filepos = 0 ∧
    s.offset = 0 ∧
    s.read_filepos = 0 ∧ s.eof = false ∧ s.idle = false ∧ s.control = 0 ∧
    s.cache_pid = 0 ∧ s.ppid = pid := by
  unfold cache_init at h
  cases av
  · rw [if_pos rfl] at h; exact absurd h (by simp)
  cases ab
  · rw [if_neg (by decide)] at h; simp only [] at h
    rw [if_pos trivial] at h; exact absurd h (by simp)
  rw [if_neg (by decide)] at h; simp only [] at h
  rw [if_neg (by decide)] at h
  injection h with h
  subst h
  refine ⟨⟨if Int.tdiv size sector < 32 then 32 else Int.tdiv size sector, ?_, ?_, ?_, rfl⟩,
    rfl, rfl, rfl, rfl, rfl, rfl, rfl, rfl, rfl, rfl, rfl, rfl⟩
  · split_ifs <;> omega
  · intro h; rw [if_pos h]
  · intro h; rw [if_neg (by omega)]

/-- The state `stream_cache_init` hands to the Filler. -/
theorem stream_cache_init_vars_some {k : cache_consts} {cache stream : stream_t}
    {size min seek_limit : Int} {e : init_env} {s : cache_vars_t} {m : Int}
    (h : stream_cache_init_vars k cache stream size min seek_limit e = some (s, m)) :
    (∃ num : Int, 32 ≤ num ∧ s.buffer_size = num * s.sector_size) ∧
    s.back_size = Int.tdiv s.buffer_size 2 ∧
    s.fill_limit = int_wrap (8 * s.sector_size) ∧
    s.seek_limit ≤ s.buffer_size - s.fill_limit ∧
    s.min_filepos = 0 ∧ s.max_filepos = 0 ∧ s.offset = 0 ∧ s.read_filepos = 0 ∧
    s.eof = false ∧ s.stream = stream ∧ s.cache = cache ∧ 1 ≤ m := by
  unfold stream_cache_init_vars at h
  simp only [] at h
  split_ifs at h with h1 h2
  all_goals
    split at h
    · exact absurd h (by simp)
    · rename_i s1 hs1
      have hi := cache_init_some hs1
      obtain ⟨⟨num, hn, -, -, hB⟩, hS, hb, hf, hmin, hmax, ho, hr, he, -, -, -, -⟩ := hi
      rw [← hS] at hf hB
      simp only [Option.some.injEq, Prod.mk.injEq] at h
      obtain ⟨hs, hm⟩ := h
      subst hs
      refine ⟨⟨num, hn, ?_⟩, ?_⟩
      · split_ifs <;> exact hB
      · split_ifs <;> simp only [] <;> and_intros <;>
          first | assumption | trivial | omega

theorem fresh_fill_inv_mapped {d : Int → Nat} {s : cache_vars_t} (h : fresh_fill_inv d s) :
    mapped s ∧ s.max_filepos - s.min_filepos ≤ s.buffer_size := by
  obtain ⟨-, -, hmin, -, ho, -, -⟩ := h
  unfold mapped
  omega

theorem fill_newb_eq (t : cache_vars_t) (read : Int) :
    fill_newb t read = max (t.max_filepos - read) 0 := by
  unfold fill_newb; simp only []; split_ifs <;> omega

theorem fill_back_eq (t : cache_vars_t) (read : Int) :
    fill_back t read = min (max (read - t.min_filepos) 0) t.back_size := by
  unfold fill_back; simp only []; split_ifs <;> omega

theorem fill_space_le_space1 (t : cache_vars_t) (read : Int) :
    fill_space t read ≤ fill_space1 t read ∧ fill_space t read ≤ fill_chunk t := by
  unfold fill_space; omega

theorem fresh_fill_inv_step {d : Int → Nat} {s : cache_vars_t} {rd : Int → Int}
    (h : fresh_fill_inv d s) (hrd : short_read rd) :
    fresh_fill_inv d (cache_fill s d rd).s := by
  have hmw := fresh_fill_inv_mapped h
  obtain ⟨hb, hs, hmin, hr, ho, hc, hsrc⟩ := h
  have hk := cache_fill_keeps hmw.1 hs hc hsrc hrd
  have hnf : fill_flushes s = false := by
    unfold fill_flushes
    simp only [Bool.and_eq_false_imp, decide_eq_true_eq, decide_eq_false_iff_not]
    omega
  have hseek := fill_seek_of_not_flush hnf
  have hpos := fill_pos_mapped hmw.1
  have hnewb := fill_newb_eq s s.read_filepos
  have hback := fill_back_eq s s.read_filepos
  have hsp0 : fill_space0 s s.read_filepos = s.buffer_size - s.max_filepos := by
    unfold fill_space0; omega
  have hsp1 : fill_space1 s s.read_filepos = fill_space0 s s.read_filepos := by
    unfold fill_space1; rw [if_neg (by omega)]
  have hsp := fill_space_le_space1 s s.read_filepos
  have hl := hrd (fill_space s s.read_filepos)
  have hmin' : fill_min s s.read_filepos = 0 := by
    unfold fill_min; rw [if_neg (by omega)]; exact hmin
  refine ⟨?_, ?_, ?_, ?_, ?_, hk.2.1, hk.2.2⟩
  all_goals
    rw [cache_fill_eq, hseek]
    split_ifs with hsk
  all_goals try assumption
  all_goals simp only [fill_read]
  all_goals split_ifs <;> omega

theorem fresh_fill_inv_run {d : Int → Nat} :
    ∀ (rds : List (Int → Int)) (s : cache_vars_t), fresh_fill_inv d s →
      (∀ rd ∈ rds, short_read rd) → fresh_fill_inv d (run_fills d s rds) := by
  intro rds
  induction rds with
  | nil => intro s h _; exact h
  | cons rd rds ih =>
    intro s h hrd
    exact ih _ (fresh_fill_inv_step h (hrd rd (List.mem_cons_self _ _)))
      (fun r hr => hrd r (List.mem_cons_of_mem _ hr))

/-- C1. Round trip: the Filler fills a freshly initialised cache (window empty, all
positions 0) from a source that stands at its first byte and answers every
read with between 0 and the requested number of bytes, taken in order; once
`max_filepos` has reached `N`, for `0 < N ≤ buffer_size`, `cache_read` with size
`N` returns `N`, has written exactly the first `N` bytes of the medium to the
caller's buffer, and has moved `read_filepos` to `N`. -/
theorem C1_round_trip (k : cache_consts) (d : Int → Nat) (cache stream : stream_t)
    (size min seek_limit : Int) (e : init_env) (s0 : cache_vars_t) (m : Int)
    (rds : List (Int → Int)) (N : Int) (env : List read_wait)
    (hinit : stream_cache_init_vars k cache stream size min seek_limit e = some (s0, m))
    (hsrc : stream.pos = 0)
    (hrd : ∀ rd ∈ rds, short_read rd)
    (hN : 0 < N ∧ N ≤ s0.buffer_size)
    (hfill : (run_fills d s0 rds).max_filepos ≥ N) :
    cache_read d (run_fills d s0 rds) N env =
      some (N, medium_bytes d 0 N, { run_fills d s0 rds with read_filepos := N }) := by
  obtain ⟨⟨num, hnum, hB⟩, hback, hfl, -, hmin, hmax, hoff, hread, -, hst, -, -⟩ :=
    stream_cache_init_vars_some hinit
  have hsec : 0 < s0.sector_size := by
    by_contra hneg
    have : num * s0.sector_size ≤ 0 :=
      Int.mul_nonpos_of_nonneg_of_nonpos (by omega) (by omega)
    omega
  have hle : s0.sector_size ≤ s0.buffer_size := by
    rw [hB]; nlinarith
  have hbk : 0 ≤ s0.back_size := by
    rw [hback]; exact Int.tdiv_nonneg (by omega) (by omega)
  have h0 : fresh_fill_inv d s0 := by
    refine ⟨hbk, hle, hmin, hread, Or.inl ⟨hoff, by omega, by omega⟩, ?_, ?_⟩
    · intro q h1 h2; omega
    · unfold source_at_max; rw [hst, hsrc, hmax]
  have hinv := fresh_fill_inv_run rds s0 h0 hrd
  have hmw := fresh_fill_inv_mapped hinv
  obtain ⟨-, -, hmin', hr', -, hc', -⟩ := hinv
  unfold cache_read
  rw [cache_read_loop_avail d _ _ N 0 [] env hmw.1 hmw.2 hc' (by omega) (by omega) (by omega)
    (by push_cast; omega)]
  simp only [hr', zero_add, List.nil_append]

/-- The bytes a fill has just read are stored at their physical slots, whether
the copy was contiguous or split by the wraparound copy. -/
theorem fill_read_new {t : cache_vars_t} (read : Int) (d : Int → Nat) (len : Int)
    (hm : mapped t) (hs : t.sector_size ≤ t.buffer_size) (hsrc : source_at_max t)
    (hl : 0 ≤ len ∧ len ≤ max (fill_space t read) 0)
    (q : Int) (hq1 : t.max_filepos ≤ q) (hq2 : q < t.max_filepos + len) :
    (fill_read t read d len).buffer
        ((q - (fill_read t read d len).offset) % (fill_read t read d len).buffer_size) = d q := by
  obtain ⟨hp, hp0, hpB⟩ := fill_pos_mapped hm
  have hm' := fill_read_mapped read d len hm hs hl
  obtain ⟨h1, h2⟩ := hm
  have hsp := fill_space_le (t := t) read
  have hlen' : len ≤ fill_space t read := by omega
  have hmax : (fill_read t read d len).max_filepos = t.max_filepos + len := rfl
  have hB : (fill_read t read d len).buffer_size = t.buffer_size := rfl
  have hbuf : (fill_read t read d len).buffer = fill_buffer t read d len := rfl
  have hoff : (fill_read t read d len).offset =
      if fill_pos t + len ≥ t.buffer_size then t.offset + t.buffer_size else t.offset := rfl
  obtain ⟨hm1, hm2⟩ := hm'
  rw [hoff, hmax] at hm1
  rw [hoff, hmax, hB] at hm2
  rw [hbuf, hB, emod_window (B := t.buffer_size) (by rw [hoff]; split_ifs <;> omega)
    (by rw [hoff]; split_ifs <;> omega), hoff]
  have hsrc' : t.stream.pos = t.max_filepos := hsrc
  unfold fill_buffer
  cases hw : fill_wrap t read
  · have := hsp.1 hw
    simp only [memcpy, Bool.false_eq_true, if_false]
    split_ifs <;> first | omega | (congr 1; omega)
  · have := hsp.2 hw
    simp only [memcpy, if_true]
    split_ifs <;> first | omega | (congr 1; omega)

theorem fill_seek_window {s : cache_vars_t} (hm : mapped s)
    (h : s.max_filepos - s.min_filepos ≤ s.buffer_size) :
    (fill_seek s).max_filepos - (fill_seek s).min_filepos ≤ (fill_seek s).buffer_size := by
  cases hf : fill_flushes s
  · rw [fill_seek_of_not_flush hf]; exact h
  · rw [fill_seek_of_flush hf]
    obtain ⟨h1, h2⟩ := hm
    simp only [cache_flush]
    omega

theorem fill_read_window {t : cache_vars_t} (read : Int) (d : Int → Nat) (len : Int)
    (h : t.max_filepos - t.min_filepos ≤ t.buffer_size)
    (hl : 0 ≤ len ∧ len ≤ max (fill_space t read) 0) :
    (fill_read t read d len).max_filepos - (fill_read t read d len).min_filepos ≤
      (fill_read t read d len).buffer_size := by
  have hmin := fill_min_ge (t := t) read
  simp only [fill_read]
  omega

/-- One `cache_fill` keeps the invariant of the data path. -/
theorem cache_fill_inv {s : cache_vars_t} {d : Int → Nat} {rd : Int → Int}
    (h : cache_inv d s) (hrd : short_read rd) : cache_inv d (cache_fill s d rd).s := by
  obtain ⟨hm, hs, hw, hc, hsrc⟩ := h
  have hk := cache_fill_keeps hm hs hc hsrc hrd
  refine ⟨hk.1, ?_, ?_, hk.2.1, hk.2.2⟩
  · have hc := fill_seek_consts s
    rw [cache_fill_eq]
    split_ifs
    · simp only []; omega
    · simp only [fill_read]; omega
  · have hw' := fill_seek_window hm hw
    rw [cache_fill_eq]
    split_ifs
    · exact hw'
    · exact fill_read_window _ d _ hw' (hrd _)

theorem run_fills_inv {d : Int → Nat} :
    ∀ (rds : List (Int → Int)) (s : cache_vars_t), cache_inv d s →
      (∀ rd ∈ rds, short_read rd) → cache_inv d (run_fills d s rds) := by
  intro rds
  induction rds with
  | nil => intro s h _; exact h
  | cons rd rds ih =>
    intro s h hrd
    exact ih _ (cache_fill_inv h (hrd rd (List.mem_cons_self _ _)))
      (fun r hr => hrd r (List.mem_cons_of_mem _ hr))

theorem cache_seek_inv {d : Int → Nat} {s : cache_vars_t} (h : cache_inv d s) (pos : Int) :
    cache_inv d (cache_seek s pos).2 := h

/-- Reading `n` bytes that the window holds at the Reader's position returns `n`
and delivers the bytes of the medium at that position. -/
theorem cache_read_avail {d : Int → Nat} {s : cache_vars_t} (h : cache_inv d s) (n : Int)
    (env : List read_wait) (h0 : 0 ≤ n) (h1 : s.min_filepos ≤ s.read_filepos)
    (h2 : s.read_filepos + n ≤ s.max_filepos) :
    cache_read d s n env =
      some (n, medium_bytes d s.read_filepos n,
        { s with read_filepos := s.read_filepos + n }) := by
  obtain ⟨hm, -, hw, hc, -⟩ := h
  unfold cache_read
  rw [cache_read_loop_avail d _ s n 0 [] env hm hw hc h1 h0 h2 (by push_cast; omega)]
  simp only [zero_add, List.nil_append]

theorem tdiv_align {p b : Int} (hp : 0 ≤ p) (hb : 0 < b) :
    Int.tdiv p b * b ≤ p ∧ p < Int.tdiv p b * b + b ∧ Int.tdiv p b * b = p - p % b := by
  rw [Int.tdiv_eq_ediv hp (le_of_lt hb)]
  have h1 := Int.emod_add_ediv p b
  have h2 := Int.emod_nonneg p (show b ≠ 0 by omega)
  have h3 := Int.emod_lt_of_pos p hb
  have h4 : b * (p / b) = p / b * b := Int.mul_comm _ _
  omega

theorem ex_fresh_init :
    stream_cache_init_vars ex_consts ex_stream ex_stream 65536 16384 16384 ex_init_env =
      some (ex_fresh, 16384) := by
  rfl

theorem ex_full_short : short_read ex_full := by
  intro n; unfold ex_full; omega

theorem ex_fresh_inv : cache_inv ex_medium ex_fresh := by
  refine ⟨by unfold mapped; decide, by decide, by decide, ?_, by unfold source_at_max; decide⟩
  intro q h1 h2
  have e1 : ex_fresh.min_filepos = 0 := rfl
  have e2 : ex_fresh.max_filepos = 0 := rfl
  omega

theorem medium_bytes_head (d : Int → Nat) (a n : Int) (hn : 0 < n) :
    (medium_bytes d a n).head? = some (d a) := by
  unfold medium_bytes
  obtain ⟨k, hk⟩ : ∃ k, n.toNat = k + 1 := ⟨n.toNat - 1, by omega⟩
  rw [hk, List.range_succ_eq_map]
  simp

theorem run_fills_read_filepos (d : Int → Nat) :
    ∀ (rds : List (Int → Int)) (s : cache_vars_t),
      (run_fills d s rds).read_filepos = s.read_filepos ∧
      (run_fills d s rds).sector_size = s.sector_size ∧
      (run_fills d s rds).buffer_size = s.buffer_size := by
  intro rds
  induction rds with
  | nil => intro s; exact ⟨rfl, rfl, rfl⟩
  | cons rd rds ih =>
    intro s
    have h := ih (cache_fill s d rd).s
    have hk := fill_seek_consts s
    have e : (cache_fill s d rd).s.read_filepos = s.read_filepos ∧
        (cache_fill s d rd).s.sector_size = s.sector_size ∧
        (cache_fill s d rd).s.buffer_size = s.buffer_size := by
      rw [cache_fill_eq]
      split_ifs
      · exact ⟨hk.2.2.2.2.2.1, hk.2.1, hk.1⟩
      · exact ⟨hk.2.2.2.2.2.1, hk.2.1, hk.1⟩
    simp only [run_fills]
    exact ⟨h.1.trans e.1, h.2.1.trans e.2.1, h.2.2.trans e.2.2⟩

/-- Witness of C1 in the spec scenario (capacity 65536, sector 2048): after one
fill of 8192 bytes, reading 100 bytes returns the first 100 bytes of the
medium. -/
theorem C1_round_trip_witness :
    cache_read ex_medium (run_fills ex_medium ex_fresh [ex_full]) 100 [] =
      some (100, medium_bytes ex_medium 0 100,
        { run_fills ex_medium ex_fresh [ex_full] with read_filepos := 100 }) :=
  C1_round_trip ex_consts ex_medium ex_stream ex_stream 65536 16384 16384 ex_init_env
    ex_fresh 16384 [ex_full] 100 [] ex_fresh_init rfl
    (by intro rd hrd; rw [List.mem_singleton] at hrd; rw [hrd]; exact ex_full_short)
    (by decide) (by decide)

/-- C2 (as amended). Seek then read returns the bytes at the sector-aligned
position: in a state that satisfies the invariant of the data path, for a
position `p ≥ 0` and `a = p - p mod sector_size`, after `cache_seek(p)` and
`cache_fill` iterations that bring the window to cover `[a, a + n)`, `cache_read`
of `n` bytes returns `n` and delivers the bytes `d[a .. a + n)` of the medium. -/
theorem C2_seek_then_read (d : Int → Nat) (s : cache_vars_t) (p n : Int)
    (rds : List (Int → Int)) (env : List read_wait)
    (hinv : cache_inv d s) (hsec : 0 < s.sector_size) (hp : 0 ≤ p) (hn : 0 ≤ n)
    (hrd : ∀ rd ∈ rds, short_read rd)
    (hmin : (run_fills d (cache_seek s p).2 rds).min_filepos ≤ p - p % s.sector_size)
    (hmax : p - p % s.sector_size + n ≤ (run_fills d (cache_seek s p).2 rds).max_filepos) :
    cache_read d (run_fills d (cache_seek s p).2 rds) n env =
      some (n, medium_bytes d (p - p % s.sector_size) n,
        { run_fills d (cache_seek s p).2 rds with
          read_filepos := p - p % s.sector_size + n }) := by
  have hal := tdiv_align hp hsec
  have hr := (run_fills_read_filepos d rds (cache_seek s p).2).1
  have hr2 : (cache_seek s p).2.read_filepos = Int.tdiv p s.sector_size * s.sector_size := rfl
  have hr3 : (run_fills d (cache_seek s p).2 rds).read_filepos = p - p % s.sector_size := by
    rw [hr, hr2, hal.2.2]
  have hinv2 := run_fills_inv rds _ (cache_seek_inv hinv p) hrd
  rw [cache_read_avail hinv2 n env hn (by rw [hr3]; exact hmin) (by rw [hr3]; exact hmax), hr3]

/-- Witness of C2 in the spec scenario: seek to 0, one fill, read 100 bytes. -/
theorem C2_seek_then_read_witness :
    cache_read ex_medium (run_fills ex_medium (cache_seek ex_fresh 0).2 [ex_full]) 100 [] =
      some (100, medium_bytes ex_medium (0 - 0 % ex_fresh.sector_size) 100,
        { run_fills ex_medium (cache_seek ex_fresh 0).2 [ex_full] with
          read_filepos := 0 - 0 % ex_fresh.sector_size + 100 }) :=
  C2_seek_then_read ex_medium ex_fresh 0 100 [ex_full] [] ex_fresh_inv (by decide) (by decide)
    (by decide)
    (by intro rd hrd; rw [List.mem_singleton] at hrd; rw [hrd]; exact ex_full_short)
    (by decide) (by decide)

/-- C2, counterexample to the claim as stated, in the spec scenario (capacity
65536, sector 2048): after `cache_seek(150000)` and two fills, `cache_read` of
10000 bytes returns 10000 bytes, and they are the bytes 149504..159503 of the
medium, not the bytes 150000..159999. -/
theorem C2_counterexample :
    cache_read ex_medium (run_fills ex_medium (cache_seek ex_fresh 150000).2 [ex_full, ex_full])
        10000 [] =
      some (10000, medium_bytes ex_medium 149504 10000,
        { run_fills ex_medium (cache_seek ex_fresh 150000).2 [ex_full, ex_full] with
          read_filepos := 149504 + 10000 }) ∧
    medium_bytes ex_medium 149504 10000 ≠ medium_bytes ex_medium 150000 10000 := by
  constructor
  · have hinv := run_fills_inv [ex_full, ex_full] _ (cache_seek_inv ex_fresh_inv 150000)
      (by intro rd hrd; simp only [List.mem_cons, List.mem_singleton, List.not_mem_nil,
            or_false, or_self] at hrd; rw [hrd]; exact ex_full_short)
    have hr : (run_fills ex_medium (cache_seek ex_fresh 150000).2
        [ex_full, ex_full]).read_filepos = 149504 :=
      (run_fills_read_filepos ex_medium _ _).1
    rw [cache_read_avail hinv 10000 [] (by decide) (by rw [hr]; decide) (by rw [hr]; decide), hr]
  · intro h
    have h1 := medium_bytes_head ex_medium 149504 10000 (by decide)
    have h2 := medium_bytes_head ex_medium 150000 10000 (by decide)
    rw [h, h2] at h1
    revert h1
    decide

/-- C3 (as amended). Wraparound correctness: in every state that satisfies the
mapping bound `offset ≤ max_filepos < offset + buffer_size` and in which a
sector fits the buffer, with the source positioned at `max_filepos` and every
source read returning `0 ≤ len ≤ requested` bytes, `cache_fill` preserves the
content invariant (every logical position `q` of the window is stored at
`buffer[(q - offset) mod buffer_size]`), together with the mapping bound and the
position of the source; and the bytes just read are stored at the slots the
linear model names, whether the copy was contiguous or split across the
physical end of the buffer. -/
theorem C3_fill_preserves_content (s : cache_vars_t) (d : Int → Nat) (rd : Int → Int)
    (hm : mapped s) (hs : s.sector_size ≤ s.buffer_size)
    (hc : content d s) (hsrc : source_at_max s) (hrd : short_read rd) :
    content d (cache_fill s d rd).s ∧ mapped (cache_fill s d rd).s ∧
    source_at_max (cache_fill s d rd).s ∧
    ∀ q : Int, (cache_fill s d rd).s.max_filepos - (cache_fill s d rd).ret ≤ q →
      q < (cache_fill s d rd).s.max_filepos →
      (cache_fill s d rd).s.buffer
        ((q - (cache_fill s d rd).s.offset) % (cache_fill s d rd).s.buffer_size) = d q := by
  have hk := cache_fill_keeps hm hs hc hsrc hrd
  refine ⟨hk.2.1, hk.1, hk.2.2, ?_⟩
  have hc := fill_seek_consts s
  have hm' := fill_seek_mapped hm
  have hsrc' := fill_seek_source hsrc
  rw [cache_fill_eq]
  split_ifs
  · intro q h1 h2
    simp only [] at h1 h2
    omega
  · intro q h1 h2
    simp only [] at h1 h2 ⊢
    have e : (fill_read (fill_seek s) s.read_filepos d
        (rd (fill_space (fill_seek s) s.read_filepos))).max_filepos =
        (fill_seek s).max_filepos + rd (fill_space (fill_seek s) s.read_filepos) := rfl
    exact fill_read_new _ d _ hm' (by omega) hsrc' (hrd _) q (by omega) (by omega)

/-- Witness of C3: the first fill of the cache of the spec scenario. -/
theorem C3_fill_preserves_content_witness :
    content ex_medium (cache_fill ex_fresh ex_medium ex_full).s ∧
    mapped (cache_fill ex_fresh ex_medium ex_full).s ∧
    source_at_max (cache_fill ex_fresh ex_medium ex_full).s ∧
    ∀ q : Int, (cache_fill ex_fresh ex_medium ex_full).s.max_filepos -
        (cache_fill ex_fresh ex_medium ex_full).ret ≤ q →
      q < (cache_fill ex_fresh ex_medium ex_full).s.max_filepos →
      (cache_fill ex_fresh ex_medium ex_full).s.buffer
        ((q - (cache_fill ex_fresh ex_medium ex_full).s.offset) %
          (cache_fill ex_fresh ex_medium ex_full).s.buffer_size) = ex_medium q :=
  C3_fill_preserves_content ex_fresh ex_medium ex_full ex_fresh_inv.1 ex_fresh_inv.2.1
    ex_fresh_inv.2.2.2.1 ex_fresh_inv.2.2.2.2 ex_full_short

/-- C3, counterexample to the claim as stated: a state with an empty window, the
source at `max_filepos = 10`, but `offset = 11 > max_filepos`.  It satisfies the
content invariant; `cache_fill` computes the write position -1, reads 4 bytes
there, and the byte of position 10 is not at slot `(10 - 11) mod 32 = 31`. -/
theorem C3_counterexample :
    content ex_ones ex_unmapped ∧ source_at_max ex_unmapped ∧ short_read ex_full ∧
    (cache_fill ex_unmapped ex_ones ex_full).pos = -1 ∧
    (cache_fill ex_unmapped ex_ones ex_full).request = some 4 ∧
    ¬ content ex_ones (cache_fill ex_unmapped ex_ones ex_full).s := by
  refine ⟨?_, by unfold source_at_max; decide, ex_full_short, by decide, by decide, ?_⟩
  · intro q h1 h2
    have e1 : ex_unmapped.min_filepos = 10 := rfl
    have e2 : ex_unmapped.max_filepos = 10 := rfl
    omega
  · intro h
    have h10 := h 10 (by decide) (by decide)
    revert h10
    decide

theorem cache_read_loop_returns (d : Int → Nat) :
    ∀ (n : Nat) (s : cache_vars_t) (size total : Int) (out : List Nat) (env : List read_wait)
      (T : Int) (O : List Nat) (s' : cache_vars_t),
      0 ≤ size → cache_read_loop d n s size total out env = some (T, O, s') →
      total ≤ T ∧ T ≤ total + size ∧ s'.read_filepos = s.read_filepos + (T - total) ∧
      (T < total + size → s'.eof = true) ∧ (O.length : Int) = out.length + (T - total) := by
  intro n
  induction n with
  | zero => intro s size total out env T O s' _ h; simp [cache_read_loop] at h
  | succ n ih =>
    intro s size total out env T O s' h0 h
    unfold cache_read_loop at h
    by_cases hsz : size > 0
    · rw [if_pos hsz] at h
      by_cases hcond : s.read_filepos ≥ s.max_filepos ∨ s.read_filepos < s.min_filepos
      · rw [if_pos hcond] at h
        by_cases heof : s.eof = true
        · rw [if_pos heof] at h
          simp only [Option.some.injEq, Prod.mk.injEq] at h
          obtain ⟨rfl, rfl, rfl⟩ := h
          exact ⟨le_refl _, by omega, by omega, fun _ => heof, by omega⟩
        · rw [if_neg heof] at h
          cases env with
          | nil => simp at h
          | cons w env =>
            simp only [] at h
            have hr := (run_fills_read_filepos d w.fills s).1
            by_cases hi : w.interrupted = true
            · rw [if_pos hi] at h
              simp only [Option.some.injEq, Prod.mk.injEq] at h
              obtain ⟨rfl, rfl, rfl⟩ := h
              exact ⟨le_refl _, by omega, by simp only []; omega, fun _ => rfl, by omega⟩
            · rw [if_neg hi] at h
              have := ih _ _ _ _ _ _ _ _ h0 h
              rw [hr] at this
              exact this
      · rw [if_neg hcond] at h
        simp only [] at h
        split_ifs at h with h1 h2 h3 h4 h5 h6
        all_goals
          have := ih _ _ _ _ _ _ _ _ (by omega) h
          simp only [List.length_append, List.length_map, List.length_range] at this
          obtain ⟨a1, a2, a3, a4, a5⟩ := this
          refine ⟨by omega, by omega, by omega, fun hlt => a4 (by omega), ?_⟩
          push_cast at a5
          omega
    · rw [if_neg hsz] at h
      simp only [Option.some.injEq, Prod.mk.injEq] at h
      obtain ⟨rfl, rfl, rfl⟩ := h
      exact ⟨le_refl _, by omega, by omega, fun _ => by omega, by omega⟩

/-- C5. Every call `cache_read(size)` with `size > 0` that returns `total` has
`0 ≤ total ≤ size`, has advanced `read_filepos` by exactly `total`, has written
`total` bytes to the caller's buffer, and `total < size` only if `eof` is set
when the call returns. -/
theorem C5_read_result (d : Int → Nat) (s : cache_vars_t) (size : Int) (env : List read_wait)
    (total : Int) (out : List Nat) (s' : cache_vars_t)
    (hsize : 0 < size) (hret : cache_read d s size env = some (total, out, s')) :
    0 ≤ total ∧ total ≤ size ∧ s'.read_filepos = s.read_filepos + total ∧
    (out.length : Int) = total ∧ (total < size → s'.eof = true) := by
  unfold cache_read at hret
  have h := cache_read_loop_returns d _ s size 0 [] env total out s' (by omega) hret
  simp only [List.length_nil, Nat.cast_zero, zero_add, sub_zero] at h
  exact ⟨h.1, h.2.1, h.2.2.1, h.2.2.2.2, h.2.2.2.1⟩

/-- Witness of C5: in the spec scenario, after one fill of 8192 bytes, the call
`cache_read(100)` returns 100. -/
theorem C5_read_result_witness :
    (0 : Int) ≤ 100 ∧ (100 : Int) ≤ 100 ∧
    ({ run_fills ex_medium ex_fresh [ex_full] with
        read_filepos := (run_fills ex_medium ex_fresh [ex_full]).read_filepos + 100 } :
      cache_vars_t).read_filepos = (run_fills ex_medium ex_fresh [ex_full]).read_filepos + 100 ∧
    ((medium_bytes ex_medium (run_fills ex_medium ex_fresh [ex_full]).read_filepos 100).length :
      Int) = 100 ∧
    ((100 : Int) < 100 →
      ({ run_fills ex_medium ex_fresh [ex_full] with
          read_filepos := (run_fills ex_medium ex_fresh [ex_full]).read_filepos + 100 } :
        cache_vars_t).eof = true) :=
  C5_read_result ex_medium (run_fills ex_medium ex_fresh [ex_full]) 100 [] 100 _ _ (by decide)
    (cache_read_avail
      (run_fills_inv [ex_full] ex_fresh ex_fresh_inv
        (by intro rd hrd; rw [List.mem_singleton] at hrd; rw [hrd]; exact ex_full_short))
      100 [] (by decide) (by decide) (by decide))

theorem cache_read_at_eof (d : Int → Nat) (s : cache_vars_t) (size : Int)
    (env : List read_wait) (heof : s.eof = true) (hpos : s.read_filepos = s.max_filepos) :
    cache_read d s size env = some (0, [], s) := by
  unfold cache_read cache_read_loop
  by_cases hsz : size > 0
  · rw [if_pos hsz, if_pos (Or.inl (by omega)), if_pos heof]
  · rw [if_neg hsz]

/-- C6. EOF terminality: in every state with `eof` set and
`read_filepos = max_filepos`, `cache_read` returns 0 for every size, without
writing to the caller's buffer and leaving the whole cache state as it was;
the same holds for any number of repeated reads; and `cache_seek` clears
`eof`. -/
theorem C6_eof_terminal (d : Int → Nat) (s : cache_vars_t)
    (heof : s.eof = true) (hpos : s.read_filepos = s.max_filepos) :
    (∀ (size : Int) (env : List read_wait), cache_read d s size env = some (0, [], s)) ∧
    (∀ calls : List (Int × List read_wait),
      cache_read_many d s calls = some (List.replicate calls.length 0, s)) ∧
    (∀ pos : Int, (cache_seek s pos).2.eof = false) := by
  refine ⟨fun size env => cache_read_at_eof d s size env heof hpos, ?_, fun _ => rfl⟩
  intro calls
  induction calls with
  | nil => rfl
  | cons c cs ih =>
    unfold cache_read_many
    rw [cache_read_at_eof d s c.1 c.2 heof hpos]
    simp only []
    rw [ih]
    rfl

/-- Witness of C6: the cache of the spec scenario over an empty source, `eof` set
with all positions 0. -/
theorem C6_eof_terminal_witness :
    (∀ (size : Int) (env : List read_wait),
      cache_read ex_medium ex_at_eof size env = some (0, [], ex_at_eof)) ∧
    (∀ calls : List (Int × List read_wait),
      cache_read_many ex_medium ex_at_eof calls =
        some (List.replicate calls.length 0, ex_at_eof)) ∧
    (∀ pos : Int, (cache_seek ex_at_eof pos).2.eof = false) :=
  C6_eof_terminal ex_medium ex_at_eof rfl rfl

/-- C7 (as amended). For every `pos` with `0 ≤ pos < 2^63` and every
`sector_size > 0`, `cache_seek(pos)` returns 1, clears `eof`, and sets both
`read_filepos` and the wrapper stream's `pos` to `pos` aligned down to a sector
boundary: the largest multiple of `sector_size` that is `≤ pos`, so that
`0 ≤ pos - read_filepos < sector_size`; the result is again in `[0, 2^63)`; and
`min_filepos`, `max_filepos`, `offset` and the buffer are left unchanged. -/
theorem C7_seek_aligns (s : cache_vars_t) (pos : Int)
    (hsec : 0 < s.sector_size) (h0 : 0 ≤ pos) (h63 : pos < 2 ^ 63) :
    (cache_seek s pos).1 = 1 ∧ (cache_seek s pos).2.eof = false ∧
    (cache_seek s pos).2.read_filepos = pos - pos % s.sector_size ∧
    (cache_seek s pos).2.cache.pos = (cache_seek s pos).2.read_filepos ∧
    s.sector_size ∣ (cache_seek s pos).2.read_filepos ∧
    (cache_seek s pos).2.read_filepos ≤ pos ∧
    (∀ m : Int, s.sector_size ∣ m → m ≤ pos → m ≤ (cache_seek s pos).2.read_filepos) ∧
    pos - (cache_seek s pos).2.read_filepos < s.sector_size ∧
    0 ≤ (cache_seek s pos).2.read_filepos ∧ (cache_seek s pos).2.read_filepos < 2 ^ 63 ∧
    (cache_seek s pos).2.min_filepos = s.min_filepos ∧
    (cache_seek s pos).2.max_filepos = s.max_filepos ∧
    (cache_seek s pos).2.offset = s.offset ∧ (cache_seek s pos).2.buffer = s.buffer := by
  have hal := tdiv_align h0 hsec
  have hr : (cache_seek s pos).2.read_filepos = Int.tdiv pos s.sector_size * s.sector_size := rfl
  have hnn : 0 ≤ pos % s.sector_size := Int.emod_nonneg pos (by omega)
  have hlt : pos % s.sector_size < s.sector_size := Int.emod_lt_of_pos pos hsec
  have ha : (cache_seek s pos).2.read_filepos = pos - pos % s.sector_size := by
    rw [hr]; exact hal.2.2
  have hge : 0 ≤ (cache_seek s pos).2.read_filepos := by
    rw [hr]; exact Int.mul_nonneg (Int.tdiv_nonneg h0 (le_of_lt hsec)) (le_of_lt hsec)
  refine ⟨rfl, rfl, ha, rfl, ?_, by omega, ?_, by omega, hge, by omega, rfl, rfl, rfl, rfl⟩
  · rw [hr]; exact Dvd.intro_left _ rfl
  · rintro m ⟨c, rfl⟩ hm
    rw [hr, Int.tdiv_eq_ediv h0 (le_of_lt hsec), Int.mul_comm]
    have hc : c ≤ pos / s.sector_size := by
      apply Int.le_ediv_of_mul_le hsec
      rw [Int.mul_comm]; exact hm
    exact Int.mul_le_mul_of_nonneg_right hc (le_of_lt hsec)

/-- Witness of C7: seeking the cache of the spec scenario to 150000 gives
149504. -/
theorem C7_seek_aligns_witness :
    (cache_seek ex_fresh 150000).2.read_filepos = 150000 - 150000 % ex_fresh.sector_size ∧
    (cache_seek ex_fresh 150000).2.read_filepos = 149504 :=
  ⟨(C7_seek_aligns ex_fresh 150000 (by decide) (by decide) (by decide)).2.2.1, by decide⟩

/-- C7, counterexample to the claim as stated: the 64-bit position -1 with sector
size 2048.  The C division truncates toward zero, `cache_seek(-1)` sets
`read_filepos` to 0, which is not `≤ pos`, and `pos - read_filepos` is negative. -/
theorem C7_counterexample :
    (cache_seek ex_fresh (-1)).2.read_filepos = 0 ∧
    ¬ ((cache_seek ex_fresh (-1)).2.read_filepos ≤ -1) ∧
    ¬ (0 ≤ -1 - (cache_seek ex_fresh (-1)).2.read_filepos) := by
  decide

/-- What a fill leaves of the old window is where it was: a position that is still
in the window after the fill keeps its byte. -/
theorem fill_read_old {t : cache_vars_t} (read : Int) (d : Int → Nat) (len : Int)
    (hm : mapped t) (hs : t.sector_size ≤ t.buffer_size)
    (hl : 0 ≤ len ∧ len ≤ max (fill_space t read) 0)
    (q : Int) (hq1 : fill_min t read ≤ q) (hq2 : q < t.max_filepos) :
    (fill_read t read d len).buffer
        ((q - (fill_read t read d len).offset) % (fill_read t read d len).buffer_size) =
      t.buffer ((q - t.offset) % t.buffer_size) := by
  obtain ⟨hp, hp0, hpB⟩ := fill_pos_mapped hm
  have hm' := fill_read_mapped read d len hm hs hl
  obtain ⟨h1, h2⟩ := hm
  have hsp := fill_space_le (t := t) read
  have hmin := fill_min_ge (t := t) read
  have hB : (fill_read t read d len).buffer_size = t.buffer_size := rfl
  have hbuf : (fill_read t read d len).buffer = fill_buffer t read d len := rfl
  have hoff : (fill_read t read d len).offset =
      if fill_pos t + len ≥ t.buffer_size then t.offset + t.buffer_size else t.offset := rfl
  by_cases hlen : len = 0
  · have hoff0 : (fill_read t read d len).offset = t.offset := by
      rw [hoff, if_neg (by omega)]
    have hbuf0 : (fill_read t read d len).buffer = t.buffer := by
      simp only [fill_read, fill_buffer, hlen]
      funext i
      split_ifs <;> simp only [memcpy] <;> (try split_ifs) <;> (try rfl) <;> omega
    rw [hoff0, hbuf0, hB]
  · have hlen' : len ≤ fill_space t read := by omega
    have hmax : (fill_read t read d len).max_filepos = t.max_filepos + len := rfl
    obtain ⟨hm1, hm2⟩ := hm'
    rw [hoff, hmax] at hm1
    rw [hoff, hmax, hB] at hm2
    rw [hbuf, hB, emod_window (B := t.buffer_size) (by rw [hoff]; split_ifs <;> omega)
      (by rw [hoff]; split_ifs <;> omega), hoff,
      emod_window (B := t.buffer_size) (x := q - t.offset) (by omega) (by omega)]
    unfold fill_buffer
    cases hw : fill_wrap t read
    · have := hsp.1 hw
      simp only [memcpy, Bool.false_eq_true, if_false]
      split_ifs <;> first | omega | (congr 1; omega)
    · have := hsp.2 hw
      simp only [memcpy, if_true]
      split_ifs <;> first | omega | (congr 1; omega)

/-- The quantities of a fill that has just flushed: the write position is 0 and
the request fits the buffer, so the window starts at the Reader's position. -/
theorem fill_after_flush {s : cache_vars_t} (hB : 0 < s.buffer_size)
    (hsec : s.sector_size ≤ s.buffer_size) (hf : fill_flushes s = true) :
    (fill_seek s).min_filepos = s.read_filepos ∧ (fill_seek s).max_filepos = s.read_filepos ∧
    (fill_seek s).offset = s.read_filepos ∧ (fill_seek s).stream.pos = s.read_filepos ∧
    fill_pos (fill_seek s) = 0 ∧ fill_space (fill_seek s) s.read_filepos ≤ s.buffer_size ∧
    fill_min (fill_seek s) s.read_filepos = s.read_filepos := by
  have hk := fill_seek_consts s
  have e1 : (fill_seek s).min_filepos = s.read_filepos := by rw [fill_seek_of_flush hf]; rfl
  have e2 : (fill_seek s).max_filepos = s.read_filepos := by rw [fill_seek_of_flush hf]; rfl
  have e3 : (fill_seek s).offset = s.read_filepos := by rw [fill_seek_of_flush hf]; rfl
  have e4 : (fill_seek s).stream.pos = s.read_filepos := by rw [fill_seek_of_flush hf]; rfl
  have hpos : fill_pos (fill_seek s) = 0 := by
    unfold fill_pos; simp only []; rw [if_neg (by omega)]; omega
  have hnewb := fill_newb_eq (fill_seek s) s.read_filepos
  have hback := fill_back_eq (fill_seek s) s.read_filepos
  have hsp1 : fill_space1 (fill_seek s) s.read_filepos ≤ s.buffer_size := by
    unfold fill_space1 fill_space0
    split_ifs <;> omega
  have hsp := fill_space_le_space1 (fill_seek s) s.read_filepos
  refine ⟨e1, e2, e3, e4, hpos, by omega, ?_⟩
  unfold fill_min
  rw [if_neg (by omega)]
  exact e1

/-- When `cache_fill` flushes, and what the state is afterwards in either case. -/
theorem cache_fill_flush_spec (s : cache_vars_t) (d : Int → Nat) (rd : Int → Int)
    (hB : 0 < s.buffer_size) (hsec : s.sector_size ≤ s.buffer_size) (hrd : short_read rd) :
    ((cache_fill s d rd).flushed = true ↔
      ((s.read_filepos < s.min_filepos ∨ s.read_filepos > s.max_filepos) ∧
        (s.read_filepos < s.min_filepos ∨ s.read_filepos ≥ s.max_filepos + s.seek_limit))) ∧
    ((cache_fill s d rd).flushed = true →
      0 ≤ (cache_fill s d rd).ret ∧
      (cache_fill s d rd).s.min_filepos = s.read_filepos ∧
      (cache_fill s d rd).s.max_filepos = s.read_filepos + (cache_fill s d rd).ret ∧
      ((cache_fill s d rd).s.offset = s.read_filepos ∨
        (cache_fill s d rd).s.offset = s.read_filepos + s.buffer_size) ∧
      ((cache_fill s d rd).s.offset - s.read_filepos) % s.buffer_size = 0 ∧
      (cache_fill s d rd).s.stream.pos = s.read_filepos + (cache_fill s d rd).ret) ∧
    ((cache_fill s d rd).flushed = false →
      (cache_fill s d rd).s.stream.pos = s.stream.pos + (cache_fill s d rd).ret ∧
      (cache_fill s d rd).s.max_filepos = s.max_filepos + (cache_fill s d rd).ret) := by
  have hfl : (cache_fill s d rd).flushed = fill_flushes s := by
    rw [cache_fill_eq]; split_ifs <;> rfl
  have hk := fill_seek_consts s
  refine ⟨?_, ?_, ?_⟩
  · rw [hfl]; unfold fill_flushes
    simp only [Bool.and_eq_true, decide_eq_true_eq]
  · intro hf
    rw [hfl] at hf
    obtain ⟨e1, e2, e3, e4, hpos, hsp, hmin⟩ := fill_after_flush hB hsec hf
    have hl := hrd (fill_space (fill_seek s) s.read_filepos)
    rw [cache_fill_eq]
    split_ifs with hskip
    · simp only []
      refine ⟨le_refl _, e1, by omega, Or.inl e3, ?_, by omega⟩
      rw [e3]; simp
    · simp only [fill_read]
      refine ⟨hl.1, hmin, by omega, ?_, ?_, by omega⟩
      · split_ifs <;> omega
      · split_ifs
        · rw [e3, hk.1]; simp
        · rw [e3]; simp
  · intro hf
    rw [hfl] at hf
    have hseek := fill_seek_of_not_flush hf
    rw [cache_fill_eq, hseek]
    split_ifs with hskip
    · simp
    · simp [fill_read]

/-- C9. `cache_fill` discards the cached content and seeks the source to
`read_filepos` if and only if `read_filepos` lies outside
`[min_filepos, max_filepos]` and (`read_filepos < min_filepos` or
`read_filepos ≥ max_filepos + seek_limit`).  When it does and the source then
returns `len` bytes (0 when no read is issued), the resulting state has
`min_filepos = read_filepos`, `max_filepos = read_filepos + len`, `offset`
congruent to `read_filepos` modulo `buffer_size`, and the source stands at
`read_filepos + len`; when it does not, the source has only advanced by `len`.
The cache has a buffer (`0 < buffer_size`) that holds a sector. -/
theorem C9_flush_iff (s : cache_vars_t) (d : Int → Nat) (rd : Int → Int)
    (hB : 0 < s.buffer_size) (hsec : s.sector_size ≤ s.buffer_size) (hrd : short_read rd) :
    ((cache_fill s d rd).flushed = true ↔
      ((s.read_filepos < s.min_filepos ∨ s.read_filepos > s.max_filepos) ∧
        (s.read_filepos < s.min_filepos ∨ s.read_filepos ≥ s.max_filepos + s.seek_limit))) ∧
    ((cache_fill s d rd).flushed = true →
      0 ≤ (cache_fill s d rd).ret ∧
      (cache_fill s d rd).s.min_filepos = s.read_filepos ∧
      (cache_fill s d rd).s.max_filepos = s.read_filepos + (cache_fill s d rd).ret ∧
      ((cache_fill s d rd).s.offset = s.read_filepos ∨
        (cache_fill s d rd).s.offset = s.read_filepos + s.buffer_size) ∧
      ((cache_fill s d rd).s.offset - s.read_filepos) % s.buffer_size = 0 ∧
      (cache_fill s d rd).s.stream.pos = s.read_filepos + (cache_fill s d rd).ret) ∧
    ((cache_fill s d rd).flushed = false →
      (cache_fill s d rd).s.stream.pos = s.stream.pos + (cache_fill s d rd).ret ∧
      (cache_fill s d rd).s.max_filepos = s.max_filepos + (cache_fill s d rd).ret) :=
  cache_fill_flush_spec s d rd hB hsec hrd

/-- Witness of C9: the fill that follows `cache_seek(150000)` in the spec
scenario flushes; it leaves the window `[149504, 157696)`. -/
theorem C9_flush_iff_witness :
    (cache_fill (cache_seek ex_fresh 150000).2 ex_medium ex_full).flushed = true ∧
    (cache_fill (cache_seek ex_fresh 150000).2 ex_medium ex_full).s.min_filepos = 149504 ∧
    (cache_fill (cache_seek ex_fresh 150000).2 ex_medium ex_full).s.max_filepos = 157696 ∧
    (cache_fill (cache_seek ex_fresh 150000).2 ex_medium ex_full).s.min_filepos =
      (cache_seek ex_fresh 150000).2.read_filepos :=
  ⟨by decide, by decide, by decide,
    ((C9_flush_iff (cache_seek ex_fresh 150000).2 ex_medium ex_full (by decide) (by decide)
      ex_full_short).2.1 (by decide)).2.1⟩

set_option maxRecDepth 100000 in
theorem ex_filled_fields :
    ex_filled.min_filepos = 0 ∧ ex_filled.max_filepos = 40960 ∧ ex_filled.read_filepos = 0 ∧
    ex_filled.offset = 0 ∧ ex_filled.back_size = 32768 ∧ ex_filled.seek_limit = 16384 ∧
    ex_filled.buffer_size = 65536 ∧ ex_filled.sector_size = 2048 ∧
    ex_filled.fill_limit = 16384 ∧ ex_filled.stream.read_chunk = 0 := by
  decide

theorem ex_full_short_list (rds : List (Int → Int)) (h : ∀ rd ∈ rds, rd = ex_full) :
    ∀ rd ∈ rds, short_read rd := by
  intro rd hrd; rw [h rd hrd]; exact ex_full_short

theorem ex_ones_content (s : cache_vars_t) (h : s.buffer = fun _ => 1) : content ex_ones s := by
  intro q _ _; rw [h]; rfl

/-- After `cache_seek(p)` the window fields are those of the state before, and the
Reader stands at the aligned position. -/
theorem cache_seek_fields (s : cache_vars_t) (p : Int) (hp : 0 ≤ p) (hsec : 0 < s.sector_size) :
    (cache_seek s p).2.read_filepos = p - p % s.sector_size ∧
    (cache_seek s p).2.read_filepos ≤ p ∧
    (cache_seek s p).2.min_filepos = s.min_filepos ∧
    (cache_seek s p).2.max_filepos = s.max_filepos ∧
    (cache_seek s p).2.offset = s.offset ∧ (cache_seek s p).2.buffer = s.buffer ∧
    (cache_seek s p).2.buffer_size = s.buffer_size ∧
    (cache_seek s p).2.sector_size = s.sector_size ∧
    (cache_seek s p).2.seek_limit = s.seek_limit ∧ (cache_seek s p).2.stream = s.stream := by
  have hal := tdiv_align hp hsec
  have hr : (cache_seek s p).2.read_filepos = Int.tdiv p s.sector_size * s.sector_size := rfl
  refine ⟨by rw [hr]; exact hal.2.2, by rw [hr]; exact hal.1, rfl, rfl, rfl, rfl, rfl, rfl,
    rfl, rfl⟩

/-- C8 (as amended). Seek within the window keeps the cache: in every state that
satisfies the mapping bound, for every position `p ≥ 0` with
`p < max_filepos + seek_limit` (so also for `max_filepos < p`) whose sector-aligned target
`a = p - p mod sector_size` is not below `min_filepos`, the `cache_fill` that
follows `cache_seek(p)` performs no flush and no source seek (the source only
advances by the bytes read), `max_filepos` grows by the bytes read, and the
window loses bytes only at its old end, by the eviction rule
`min_filepos = max(min_filepos, a - (buffer_size - (request + newb)))`: every
position of the old window that is still in the window keeps its slot content. -/
theorem C8_seek_within_window (s : cache_vars_t) (d : Int → Nat) (rd : Int → Int) (p : Int)
    (hm : mapped s) (hsec : 0 < s.sector_size) (hsecB : s.sector_size ≤ s.buffer_size)
    (hrd : short_read rd) (hp : 0 ≤ p) (h2 : p < s.max_filepos + s.seek_limit)
    (h3 : s.min_filepos ≤ p - p % s.sector_size) :
    (cache_fill (cache_seek s p).2 d rd).flushed = false ∧
    (cache_fill (cache_seek s p).2 d rd).s.stream.pos =
      s.stream.pos + (cache_fill (cache_seek s p).2 d rd).ret ∧
    0 ≤ (cache_fill (cache_seek s p).2 d rd).ret ∧
    (cache_fill (cache_seek s p).2 d rd).s.max_filepos =
      s.max_filepos + (cache_fill (cache_seek s p).2 d rd).ret ∧
    ((cache_fill (cache_seek s p).2 d rd).request = none →
      (cache_fill (cache_seek s p).2 d rd).s.min_filepos = s.min_filepos) ∧
    (∀ rq : Int, (cache_fill (cache_seek s p).2 d rd).request = some rq →
      (cache_fill (cache_seek s p).2 d rd).s.min_filepos =
        max s.min_filepos
          (p - p % s.sector_size -
            (s.buffer_size - (rq + max (s.max_filepos - (p - p % s.sector_size)) 0)))) ∧
    (∀ q : Int, s.min_filepos ≤ q → q < s.max_filepos →
      (cache_fill (cache_seek s p).2 d rd).s.min_filepos ≤ q →
      (cache_fill (cache_seek s p).2 d rd).s.buffer
          ((q - (cache_fill (cache_seek s p).2 d rd).s.offset) %
            (cache_fill (cache_seek s p).2 d rd).s.buffer_size) =
        s.buffer ((q - s.offset) % s.buffer_size)) := by
  obtain ⟨ha, hap, e1, e2, e3, e4, e5, e6, e7, e8⟩ := cache_seek_fields s p hp hsec
  generalize cache_seek s p = cs at *
  obtain ⟨r, s1⟩ := cs
  simp only [] at ha hap e1 e2 e3 e4 e5 e6 e7 e8 ⊢
  have hm1 : mapped s1 := by unfold mapped; rw [e2, e3, e5]; exact hm
  have hnf : fill_flushes s1 = false := by
    unfold fill_flushes
    simp only [Bool.and_eq_false_imp, decide_eq_true_eq, decide_eq_false_iff_not]
    omega
  have hseek := fill_seek_of_not_flush hnf
  have hfl : (cache_fill s1 d rd).flushed = fill_flushes s1 := by
    rw [cache_fill_eq]; split_ifs <;> rfl
  have hl := hrd (fill_space s1 s1.read_filepos)
  refine ⟨by rw [hfl, hnf], ?_⟩
  rw [cache_fill_eq, hseek]
  split_ifs with hskip
  · simp only []
    refine ⟨by rw [e8]; omega, le_refl _, by omega, fun _ => e1, fun rq h => by simp at h, ?_⟩
    intro q _ _ _
    rw [e3, e4, e5]
  · simp only []
    have hnewb := fill_newb_eq s1 s1.read_filepos
    refine ⟨by simp only [fill_read]; rw [e8], hl.1, by simp only [fill_read]; omega,
      fun h => by simp at h, ?_, ?_⟩
    · intro rq hrq
      simp only [Option.some.injEq] at hrq
      simp only [fill_read, fill_min]
      rw [← hrq, hnewb, e1, e2, e5, ha]
      split_ifs <;> omega
    · intro q hq1 hq2 hq3
      rw [fill_read_old _ d _ hm1 (by omega) hl q hq3 (by omega), e3, e4, e5]

set_option maxRecDepth 100000 in
/-- Witness of C8: in the spec scenario after five fills (window `[0, 40960)`), a
seek to 45056 is followed by a fill that keeps the window and extends it. -/
theorem C8_seek_within_window_witness :
    (cache_fill (cache_seek ex_filled 45056).2 ex_medium ex_full).flushed = false ∧
    (cache_fill (cache_seek ex_filled 45056).2 ex_medium ex_full).s.max_filepos = 49152 ∧
    (cache_fill (cache_seek ex_filled 45056).2 ex_medium ex_full).s.min_filepos = 0 :=
  ⟨(C8_seek_within_window ex_filled ex_medium ex_full 45056 (by unfold mapped; decide)
      (by decide) (by decide) ex_full_short (by decide) (by decide) (by decide)).1,
    by decide, by decide⟩

/-- C8, counterexample to the claim as stated, in two states of the spec scenario
(capacity 65536, sector 2048, seek limit 16384) that satisfy the invariants.
In `ex_narrow` (window `[3000, 3500)`) the position 3600 lies between
`max_filepos` and `max_filepos + seek_limit`, but `cache_seek` aligns it to 2048,
below `min_filepos`, and the fill flushes.  In `ex_window` (window `[0, 65536)`)
the fill after `cache_seek(67584)` does not flush, but it moves `min_filepos` to
10240: the bytes 0..10239, cached before the seek, are no longer in the
window. -/
theorem C8_counterexample :
    (cache_inv ex_ones ex_narrow ∧
      ex_narrow.min_filepos ≤ ex_narrow.read_filepos ∧
      ex_narrow.read_filepos ≤ ex_narrow.max_filepos ∧
      ex_narrow.max_filepos < 3600 ∧ 3600 < ex_narrow.max_filepos + ex_narrow.seek_limit ∧
      (cache_fill (cache_seek ex_narrow 3600).2 ex_ones ex_full).flushed = true ∧
      (cache_fill (cache_seek ex_narrow 3600).2 ex_ones ex_full).s.min_filepos = 2048) ∧
    (cache_inv ex_ones ex_window ∧
      ex_window.min_filepos ≤ ex_window.read_filepos ∧
      ex_window.read_filepos ≤ ex_window.max_filepos ∧
      ex_window.max_filepos < 67584 ∧ 67584 < ex_window.max_filepos + ex_window.seek_limit ∧
      (cache_fill (cache_seek ex_window 67584).2 ex_ones ex_full).flushed = false ∧
      ex_window.min_filepos = 0 ∧
      (cache_fill (cache_seek ex_window 67584).2 ex_ones ex_full).s.min_filepos = 10240) := by
  refine ⟨⟨⟨by unfold mapped; decide, by decide, by decide, ex_ones_content _ rfl,
        by unfold source_at_max; decide⟩, by decide, by decide, by decide, by decide,
      by decide, by decide⟩,
    ⟨⟨by unfold mapped; decide, by decide, by decide, ex_ones_content _ rfl,
        by unfold source_at_max; decide⟩, by decide, by decide, by decide, by decide,
      by decide, by decide, by decide⟩⟩

/-- C10 (as amended). A backward seek below the window flushes: in every state of a
cache whose buffer holds a sector, for every target `p ≥ 0` whose
sector-aligned position `a = p - p mod sector_size` lies below `min_filepos`,
the `cache_fill` that follows `cache_seek(p)` discards all cached content: after
it `read_filepos = min_filepos = a`, `offset` is `a` or `a + buffer_size`, and the
window holds only the bytes just read (`max_filepos = a + len`).  A target with
`min_filepos ≤ a ≤ max_filepos` is served from the cache without a flush,
whatever its distance from `read_filepos`. -/
theorem C10_backward_seek (s : cache_vars_t) (d : Int → Nat) (rd : Int → Int) (p : Int)
    (hsec : 0 < s.sector_size) (hsecB : s.sector_size ≤ s.buffer_size)
    (hrd : short_read rd) (hp : 0 ≤ p) :
    (p - p % s.sector_size < s.min_filepos →
      (cache_fill (cache_seek s p).2 d rd).flushed = true ∧
      (cache_fill (cache_seek s p).2 d rd).s.read_filepos = p - p % s.sector_size ∧
      (cache_fill (cache_seek s p).2 d rd).s.min_filepos = p - p % s.sector_size ∧
      (cache_fill (cache_seek s p).2 d rd).s.max_filepos =
        p - p % s.sector_size + (cache_fill (cache_seek s p).2 d rd).ret ∧
      ((cache_fill (cache_seek s p).2 d rd).s.offset = p - p % s.sector_size ∨
        (cache_fill (cache_seek s p).2 d rd).s.offset =
          p - p % s.sector_size + s.buffer_size)) ∧
    (s.min_filepos ≤ p - p % s.sector_size → p - p % s.sector_size ≤ s.max_filepos →
      (cache_fill (cache_seek s p).2 d rd).flushed = false ∧
      (cache_fill (cache_seek s p).2 d rd).s.max_filepos =
        s.max_filepos + (cache_fill (cache_seek s p).2 d rd).ret) := by
  obtain ⟨ha, hap, e1, e2, e3, e4, e5, e6, e7, e8⟩ := cache_seek_fields s p hp hsec
  generalize cache_seek s p = cs at *
  obtain ⟨r, s1⟩ := cs
  simp only [] at ha hap e1 e2 e3 e4 e5 e6 e7 e8 ⊢
  have h9 := cache_fill_flush_spec s1 d rd (by omega) (by omega) hrd
  have hk := fill_seek_consts s1
  have hrf : (cache_fill s1 d rd).s.read_filepos = s1.read_filepos := by
    rw [cache_fill_eq]; split_ifs
    · exact hk.2.2.2.2.2.1
    · exact hk.2.2.2.2.2.1
  constructor
  · intro hlt
    have hf : (cache_fill s1 d rd).flushed = true := h9.1.2 ⟨Or.inl (by omega), Or.inl (by omega)⟩
    obtain ⟨-, a2, a3, a4, -, -⟩ := h9.2.1 hf
    exact ⟨hf, by omega, by omega, by omega, by omega⟩
  · intro hge hle
    have hf : (cache_fill s1 d rd).flushed = false := by
      cases hc : (cache_fill s1 d rd).flushed
      · rfl
      · have := h9.1.1 hc
        omega
    exact ⟨hf, by have := (h9.2.2 hf).2; omega⟩

/-- Witness of C10: in the state `ex_narrow` (window `[3000, 3500)`) a seek to 2500
is aligned to 2048, below the window, and the fill that follows flushes. -/
theorem C10_backward_seek_witness :
    (cache_fill (cache_seek ex_narrow 2500).2 ex_ones ex_full).flushed = true ∧
    (cache_fill (cache_seek ex_narrow 2500).2 ex_ones ex_full).s.read_filepos =
      2500 - 2500 % ex_narrow.sector_size ∧
    (cache_fill (cache_seek ex_narrow 2500).2 ex_ones ex_full).s.min_filepos =
      2500 - 2500 % ex_narrow.sector_size ∧
    (cache_fill (cache_seek ex_narrow 2500).2 ex_ones ex_full).s.max_filepos =
      2500 - 2500 % ex_narrow.sector_size +
        (cache_fill (cache_seek ex_narrow 2500).2 ex_ones ex_full).ret ∧
    ((cache_fill (cache_seek ex_narrow 2500).2 ex_ones ex_full).s.offset =
        2500 - 2500 % ex_narrow.sector_size ∨
      (cache_fill (cache_seek ex_narrow 2500).2 ex_ones ex_full).s.offset =
        2500 - 2500 % ex_narrow.sector_size + ex_narrow.buffer_size) :=
  (C10_backward_seek ex_narrow ex_ones ex_full 2500 (by decide) (by decide) ex_full_short
    (by decide)).1 (by decide)

set_option maxRecDepth 100000 in
/-- C10, counterexample to the claim as stated, in a state the spec scenario
reaches: the cache is initialised (capacity 65536, `back_size` 32768), the Filler
completes five fills (window `[0, 40960)`) and `cache_read` returns 40000 bytes,
so that `read_filepos = 40000`.  The target 0 lies more than `back_size` behind
`read_filepos`, but the fill that follows `cache_seek(0)` does not flush: the
window still starts at 0 and has grown to 49152. -/
theorem C10_counterexample :
    cache_read ex_medium ex_filled 40000 [] =
      some (40000, medium_bytes ex_medium 0 40000, ex_consumed) ∧
    (0 : Int) < ex_consumed.read_filepos - ex_consumed.back_size ∧
    (cache_fill (cache_seek ex_consumed 0).2 ex_medium ex_full).flushed = false ∧
    (cache_fill (cache_seek ex_consumed 0).2 ex_medium ex_full).s.min_filepos = 0 ∧
    (cache_fill (cache_seek ex_consumed 0).2 ex_medium ex_full).s.max_filepos = 49152 ∧
    (cache_fill (cache_seek ex_consumed 0).2 ex_medium ex_full).s.offset = 0 := by
  refine ⟨?_, by decide, by decide, by decide, by decide, by decide⟩
  have hinv : cache_inv ex_medium ex_filled :=
    run_fills_inv _ ex_fresh ex_fresh_inv
      (ex_full_short_list _ (by intro rd hrd; simp only [List.mem_cons, List.mem_singleton,
        List.not_mem_nil, or_false, or_self] at hrd; exact hrd))
  have h := cache_read_avail hinv 40000 [] (by decide) (by decide) (by decide)
  have e : ex_filled.read_filepos = 0 := by decide
  rw [h, e]
  rfl

theorem fill_min_le_read {t : cache_vars_t} (read : Int)
    (hs : t.sector_size ≤ t.fill_limit) (hb : 0 ≤ t.back_size)
    (hr : t.min_filepos ≤ read)
    (hfill : ¬ fill_space0 t read < t.fill_limit) :
    fill_min t read ≤ read := by
  have hnewb := fill_newb_eq t read
  have hback := fill_back_eq t read
  have hsp := fill_space_le_space1 t read
  have hsp1 : fill_space1 t read ≤ fill_space0 t read := by
    unfold fill_space1
    split_ifs <;> omega
  have hsp0 : fill_space0 t read = t.buffer_size - (fill_newb t read + fill_back t read) := rfl
  unfold fill_min
  split_ifs <;> omega

/-- A fill that reads keeps the Reader inside the window, whatever the fill limit:
the window start moves up to the Reader's position at most, and it stays at or
below `offset` unless the Reader is at least `back_size` beyond `offset`. -/
theorem fill_read_reader {t : cache_vars_t} (read len : Int)
    (h1 : 0 < t.sector_size) (h2 : t.sector_size ≤ t.back_size)
    (h3 : 2 * t.back_size ≤ t.buffer_size) (hm : mapped t)
    (hr : t.min_filepos ≤ read ∧ read ≤ t.max_filepos ∧
      (t.min_filepos ≤ t.offset ∨ t.offset + t.back_size ≤ read))
    (hl : 0 ≤ len ∧ len ≤ max (fill_space t read) 0) :
    fill_min t read ≤ read ∧ read ≤ t.max_filepos + len ∧
    (fill_min t read ≤
        (if fill_pos t + len ≥ t.buffer_size then t.offset + t.buffer_size else t.offset) ∨
      (if fill_pos t + len ≥ t.buffer_size then t.offset + t.buffer_size else t.offset) +
        t.back_size ≤ read) := by
  obtain ⟨hp, hp0, hpB⟩ := fill_pos_mapped hm
  have hnewb := fill_newb_eq t read
  have hback := fill_back_eq t read
  have hsp := fill_space_le_space1 t read
  have hsp0 : fill_space0 t read = t.buffer_size - (fill_newb t read + fill_back t read) := rfl
  obtain ⟨hm1, hm2⟩ := hm
  have hsp1 : fill_space1 t read =
      if fill_space0 t read > t.buffer_size - fill_pos t then
        if t.buffer_size - fill_pos t ≥ t.sector_size then t.buffer_size - fill_pos t
        else t.sector_size
      else fill_space0 t read := rfl
  have hmin : fill_min t read =
      if t.min_filepos < read - (t.buffer_size - (fill_space t read + fill_newb t read)) then
        read - (t.buffer_size - (fill_space t read + fill_newb t read))
      else t.min_filepos := rfl
  rw [hmin]
  split_ifs at hsp1 ⊢ <;> omega

theorem cache_fill_window_inv {b : Prop} {s : cache_vars_t} (d : Int → Nat) {rd : Int → Int}
    (h : window_inv b s) (hrd : short_read rd) : window_inv b (cache_fill s d rd).s := by
  obtain ⟨h1, h2, h3, h4, hm, hw, hb⟩ := h
  have hk := fill_seek_consts s
  have hm' := fill_seek_mapped hm
  have hw' := fill_seek_window hm hw
  have hl := hrd (fill_space (fill_seek s) s.read_filepos)
  have hR : b → (fill_seek s).min_filepos ≤ (fill_seek s).read_filepos ∧
      (fill_seek s).read_filepos ≤ (fill_seek s).max_filepos ∧
      ((fill_seek s).min_filepos ≤ (fill_seek s).offset ∨
        (fill_seek s).offset + (fill_seek s).back_size ≤ (fill_seek s).read_filepos) := by
    intro hb'
    cases hf : fill_flushes s
    · rw [fill_seek_of_not_flush hf]; exact hb hb'
    · rw [fill_seek_of_flush hf]; simp [cache_flush]
  have c1 : 0 < (fill_seek s).sector_size := by rw [hk.2.1]; exact h1
  have c2 : (fill_seek s).sector_size < 2 ^ 28 →
      (fill_seek s).sector_size ≤ (fill_seek s).fill_limit := by
    rw [hk.2.1, hk.2.2.2.1]; exact h2
  have c3 : (fill_seek s).sector_size ≤ (fill_seek s).back_size ∧
      2 * (fill_seek s).back_size ≤ (fill_seek s).buffer_size := by
    rw [hk.2.2.1, hk.2.1, hk.1]; exact h3
  have c4 : (fill_seek s).sector_size ≤ (fill_seek s).buffer_size := by
    rw [hk.2.1, hk.1]; exact h4
  rw [cache_fill_eq]
  split_ifs with hskip
  · exact ⟨c1, c2, c3, c4, hm', hw', hR⟩
  · refine ⟨c1, c2, c3, c4, fill_read_mapped _ d _ hm' c4 hl, fill_read_window _ d _ hw' hl,
      ?_⟩
    intro hb'
    have hR' := hR hb'
    rw [hk.2.2.2.2.2.1] at hR'
    have hrr := fill_read_reader (t := fill_seek s) s.read_filepos _ c1 c3.1 c3.2 hm' hR' hl
    have hrf : (fill_seek s).read_filepos = s.read_filepos := hk.2.2.2.2.2.1
    simp only [fill_read]
    rw [hrf]
    exact hrr

theorem run_fills_window_inv {b : Prop} (d : Int → Nat) :
    ∀ (rds : List (Int → Int)) (s : cache_vars_t), window_inv b s →
      (∀ rd ∈ rds, short_read rd) → window_inv b (run_fills d s rds) := by
  intro rds
  induction rds with
  | nil => intro s h _; exact h
  | cons rd rds ih =>
    intro s h hrd
    exact ih _ (cache_fill_window_inv d h (hrd rd (List.mem_cons_self _ _)))
      (fun r hr => hrd r (List.mem_cons_of_mem _ hr))

theorem cache_read_loop_window_inv {b : Prop} (d : Int → Nat) :
    ∀ (n : Nat) (s : cache_vars_t) (size total : Int) (out : List Nat) (env : List read_wait)
      (r : Int × List Nat × cache_vars_t),
      window_inv b s → (∀ w ∈ env, ∀ rd ∈ w.fills, short_read rd) →
      cache_read_loop d n s size total out env = some r → window_inv b r.2.2 := by
  intro n
  induction n with
  | zero => intro s size total out env r _ _ h; simp [cache_read_loop] at h
  | succ n ih =>
    intro s size total out env r hinv henv h
    unfold cache_read_loop at h
    by_cases hsz : size > 0
    · rw [if_pos hsz] at h
      by_cases hcond : s.read_filepos ≥ s.max_filepos ∨ s.read_filepos < s.min_filepos
      · rw [if_pos hcond] at h
        by_cases heof : s.eof = true
        · rw [if_pos heof] at h
          simp only [Option.some.injEq] at h
          subst h; exact hinv
        · rw [if_neg heof] at h
          cases env with
          | nil => simp at h
          | cons w env =>
            simp only [] at h
            have hinv1 := run_fills_window_inv d w.fills s hinv
              (henv w (List.mem_cons_self _ _))
            by_cases hi : w.interrupted = true
            · rw [if_pos hi] at h
              simp only [Option.some.injEq] at h
              subst h; exact hinv1
            · rw [if_neg hi] at h
              exact ih _ _ _ _ _ _ hinv1 (fun w' hw' => henv w' (List.mem_cons_of_mem _ hw')) h
      · rw [if_neg hcond] at h
        simp only [] at h
        obtain ⟨h1, h2, h3, h4, hm, hw, hb⟩ := hinv
        split_ifs at h with c1 c2 c3 c4 c5 c6
        all_goals
          refine ih _ _ _ _ _ _ ?_ henv h
          refine ⟨h1, h2, h3, h4, hm, hw, fun hb' => ?_⟩
          have hb2 := hb hb'
          simp only []
          omega
    · rw [if_neg hsz] at h
      simp only [Option.some.injEq] at h
      subst h; exact hinv

theorem cache_execute_control_eq (k : cache_consts) (s : cache_vars_t) (e : exec_env) :
    cache_execute_control k s e =
      if decide (s.control = -2) = true ∨ s.stream.control = false then
        ((if decide (s.control = -2) = true then 0 else 1),
          { s with stream_time_length := 0, stream_time_pos := k.MP_NOPTS_VALUE,
                   control_res := k.STREAM_UNSUPPORTED, control := -1 })
      else if decide (e.now - s.last > refresh_threshold) = true ∧ (exec_times k s e).ppid ≠ e.ppid then
        (0, exec_times k s e)
      else if (exec_refreshed k s e).control = -1 then (1, exec_refreshed k s e)
      else
        (1, { exec_flush k (exec_switch k (exec_refreshed k s e) e)
                (exec_needs_flush k (exec_refreshed k s e)) with control := -1 }) := rfl

theorem exec_times_fields (k : cache_consts) (s : cache_vars_t) (e : exec_env) :
    (exec_times k s e).buffer_size = s.buffer_size ∧
    (exec_times k s e).sector_size = s.sector_size ∧
    (exec_times k s e).fill_limit = s.fill_limit ∧
    (exec_times k s e).back_size = s.back_size ∧
    (exec_times k s e).seek_limit = s.seek_limit ∧
    (exec_times k s e).buffer = s.buffer ∧
    (exec_times k s e).min_filepos = s.min_filepos ∧
    (exec_times k s e).max_filepos = s.max_filepos ∧
    (exec_times k s e).offset = s.offset ∧
    (exec_times k s e).read_filepos = s.read_filepos ∧
    (exec_times k s e).eof = s.eof ∧ (exec_times k s e).control = s.control := by
  unfold exec_times
  simp only []
  split_ifs <;> simp

theorem exec_refreshed_fields (k : cache_consts) (s : cache_vars_t) (e : exec_env) :
    (exec_refreshed k s e).buffer_size = s.buffer_size ∧
    (exec_refreshed k s e).sector_size = s.sector_size ∧
    (exec_refreshed k s e).fill_limit = s.fill_limit ∧
    (exec_refreshed k s e).back_size = s.back_size ∧
    (exec_refreshed k s e).seek_limit = s.seek_limit ∧
    (exec_refreshed k s e).buffer = s.buffer ∧
    (exec_refreshed k s e).min_filepos = s.min_filepos ∧
    (exec_refreshed k s e).max_filepos = s.max_filepos ∧
    (exec_refreshed k s e).offset = s.offset ∧
    (exec_refreshed k s e).read_filepos = s.read_filepos ∧
    (exec_refreshed k s e).eof = s.eof ∧ (exec_refreshed k s e).control = s.control := by
  have h := exec_times_fields k s e
  unfold exec_refreshed
  split_ifs
  · exact h
  · exact h

theorem exec_switch_fields (k : cache_consts) (s : cache_vars_t) (e : exec_env) :
    (exec_switch k s e).buffer_size = s.buffer_size ∧
    (exec_switch k s e).sector_size = s.sector_size ∧
    (exec_switch k s e).fill_limit = s.fill_limit ∧
    (exec_switch k s e).back_size = s.back_size ∧
    (exec_switch k s e).seek_limit = s.seek_limit ∧
    (exec_switch k s e).buffer = s.buffer ∧
    (exec_switch k s e).min_filepos = s.min_filepos ∧
    (exec_switch k s e).max_filepos = s.max_filepos ∧
    (exec_switch k s e).offset = s.offset ∧
    (exec_switch k s e).read_filepos = s.read_filepos ∧
    (exec_switch k s e).eof = s.eof ∧ (exec_switch k s e).control = s.control := by
  unfold exec_switch
  simp only []
  split_ifs <;> simp

/-- The function `cache_execute_control` leaves the constants and the buffer alone; the window
and the Reader's position are either untouched or flushed to one position. -/
theorem cache_execute_control_fields (k : cache_consts) (s : cache_vars_t) (e : exec_env) :
    (cache_execute_control k s e).2.buffer_size = s.buffer_size ∧
    (cache_execute_control k s e).2.sector_size = s.sector_size ∧
    (cache_execute_control k s e).2.fill_limit = s.fill_limit ∧
    (cache_execute_control k s e).2.back_size = s.back_size ∧
    (cache_execute_control k s e).2.seek_limit = s.seek_limit ∧
    (cache_execute_control k s e).2.buffer = s.buffer ∧
    (((cache_execute_control k s e).2.min_filepos = s.min_filepos ∧
        (cache_execute_control k s e).2.max_filepos = s.max_filepos ∧
        (cache_execute_control k s e).2.offset = s.offset ∧
        (cache_execute_control k s e).2.read_filepos = s.read_filepos) ∨
      ((cache_execute_control k s e).2.min_filepos = (cache_execute_control k s e).2.read_filepos ∧
        (cache_execute_control k s e).2.max_filepos = (cache_execute_control k s e).2.read_filepos ∧
        (cache_execute_control k s e).2.offset = (cache_execute_control k s e).2.read_filepos)) := by
  have ht := exec_times_fields k s e
  have hr := exec_refreshed_fields k s e
  have hs := exec_switch_fields k (exec_refreshed k s e) e
  rw [cache_execute_control_eq]
  by_cases c1 : decide (s.control = -2) = true ∨ s.stream.control = false
  · rw [if_pos c1]
    exact ⟨rfl, rfl, rfl, rfl, rfl, rfl, Or.inl ⟨rfl, rfl, rfl, rfl⟩⟩
  rw [if_neg c1]
  by_cases c2 : decide (e.now - s.last > refresh_threshold) = true ∧ (exec_times k s e).ppid ≠ e.ppid
  · rw [if_pos c2]
    obtain ⟨a1, a2, a3, a4, a5, a6, a7, a8, a9, a10, -, -⟩ := ht
    exact ⟨a1, a2, a3, a4, a5, a6, Or.inl ⟨a7, a8, a9, a10⟩⟩
  rw [if_neg c2]
  obtain ⟨a1, a2, a3, a4, a5, a6, a7, a8, a9, a10, -, -⟩ := hr
  by_cases c3 : (exec_refreshed k s e).control = -1
  · rw [if_pos c3]
    exact ⟨a1, a2, a3, a4, a5, a6, Or.inl ⟨a7, a8, a9, a10⟩⟩
  rw [if_neg c3]
  obtain ⟨b1, b2, b3, b4, b5, b6, b7, b8, b9, b10, -, -⟩ := hs
  simp only []
  unfold exec_flush
  split_ifs
  · simp only [cache_flush]
    exact ⟨by rw [b1, a1], by rw [b2, a2], by rw [b3, a3], by rw [b4, a4], by rw [b5, a5],
      by rw [b6, a6], Or.inr ⟨trivial, trivial, trivial⟩⟩
  · exact ⟨by rw [b1, a1], by rw [b2, a2], by rw [b3, a3], by rw [b4, a4], by rw [b5, a5],
      by rw [b6, a6], Or.inl ⟨by rw [b7, a7], by rw [b8, a8], by rw [b9, a9], by rw [b10, a10]⟩⟩

theorem cache_execute_control_window_inv {b : Prop} (k : cache_consts) {s : cache_vars_t}
    (e : exec_env) (h : window_inv b s) : window_inv b (cache_execute_control k s e).2 := by
  obtain ⟨h1, h2, h3, h4, hm, hw, hb⟩ := h
  obtain ⟨e1, e2, e3, e4, -, -, hc⟩ := cache_execute_control_fields k s e
  obtain ⟨hm1, hm2⟩ := hm
  unfold window_inv mapped
  rw [e1, e2, e3, e4]
  rcases hc with ⟨c1, c2, c3, c4⟩ | ⟨c1, c2, c3⟩
  · rw [c1, c2, c3, c4]
    exact ⟨h1, h2, h3, h4, ⟨hm1, hm2⟩, hw, hb⟩
  · rw [c1, c2, c3]
    exact ⟨h1, h2, h3, h4, ⟨le_refl _, by omega⟩, by omega,
      fun _ => ⟨le_refl _, le_refl _, Or.inl (le_refl _)⟩⟩

theorem window_inv_congr {b : Prop} {s t : cache_vars_t} (h : window_inv b s)
    (e1 : t.sector_size = s.sector_size) (e2 : t.fill_limit = s.fill_limit)
    (e3 : t.back_size = s.back_size) (e4 : t.buffer_size = s.buffer_size)
    (e5 : t.offset = s.offset) (e6 : t.max_filepos = s.max_filepos)
    (e7 : t.min_filepos = s.min_filepos) (e8 : t.read_filepos = s.read_filepos) :
    window_inv b t := by
  unfold window_inv mapped at h ⊢
  rw [e1, e2, e3, e4, e5, e6, e7, e8]
  exact h

theorem cache_mainloop_iter_window_inv {b : Prop} (k : cache_consts) (d : Int → Nat)
    {s : cache_vars_t} (it : filler_iter) (h : window_inv b s) (hrd : short_read it.rd) :
    window_inv b (cache_mainloop_iter k d s it).2 := by
  unfold cache_mainloop_iter
  simp only []
  have h1 := cache_fill_window_inv d h hrd
  split_ifs
  · exact cache_execute_control_window_inv k _
      (window_inv_congr h1 rfl rfl rfl rfl rfl rfl rfl rfl)
  · exact cache_execute_control_window_inv k _
      (window_inv_congr h1 rfl rfl rfl rfl rfl rfl rfl rfl)

theorem cache_mainloop_window_inv {b : Prop} (k : cache_consts) (d : Int → Nat) :
    ∀ (its : List filler_iter) (s : cache_vars_t), window_inv b s →
      (∀ it ∈ its, short_read it.rd) → window_inv b (cache_mainloop k d s its).2 := by
  intro its
  induction its with
  | nil => intro s h _; exact h
  | cons it its ih =>
    intro s h hrd
    have h1 := cache_mainloop_iter_window_inv k d it h (hrd it (List.mem_cons_self _ _))
    unfold cache_mainloop
    simp only []
    split_ifs
    · exact h1
    · exact ih _ h1 (fun i hi => hrd i (List.mem_cons_of_mem _ hi))

theorem cache_control_wait_window_inv {b : Prop} (k : cache_consts) (d : Int → Nat) :
    ∀ (env : List control_wait) (s : cache_vars_t) (r : Bool × cache_vars_t),
      window_inv b s → (∀ w ∈ env, ∀ it ∈ w.iters, short_read it.rd) →
      cache_control_wait k d s env = some r → window_inv b r.2 := by
  intro env
  induction env with
  | nil =>
    intro s r h _ hr
    unfold cache_control_wait at hr
    split_ifs at hr
    simp only [Option.some.injEq] at hr
    subst hr; exact h
  | cons w env ih =>
    intro s r h henv hr
    unfold cache_control_wait at hr
    have h1 := cache_mainloop_window_inv k d w.iters s h (henv w (List.mem_cons_self _ _))
    split_ifs at hr
    · simp only [Option.some.injEq] at hr
      subst hr
      exact window_inv_congr h1 rfl rfl rfl rfl rfl rfl rfl rfl
    · exact ih _ _ h1 (fun w' hw' => henv w' (List.mem_cons_of_mem _ hw')) hr
    · simp only [Option.some.injEq] at hr
      subst hr; exact h

theorem cache_control_eq (k : cache_consts) (d : Int → Nat) (s : cache_vars_t) (cmd : Int)
    (arg : ctrl_arg) (env : List control_wait) :
    cache_control k d s cmd arg env =
      if cmd = k.STREAM_CTRL_GET_CACHE_SIZE then
        some (k.STREAM_OK, { arg with uint := s.buffer_size }, s)
      else if cmd = k.STREAM_CTRL_GET_CACHE_FILL then
        some (k.STREAM_OK, { arg with uint := s.max_filepos - s.read_filepos }, s)
      else if cmd = k.STREAM_CTRL_GET_CACHE_IDLE then
        some (k.STREAM_OK, { arg with uint := if s.idle then 1 else 0 }, s)
      else if cmd = k.STREAM_CTRL_GET_TIME_LENGTH then
        some ((if s.stream_time_length ≠ 0 then k.STREAM_OK else k.STREAM_UNSUPPORTED),
          { arg with dbl := s.stream_time_length }, s)
      else if cmd = k.STREAM_CTRL_GET_CURRENT_TIME then
        some ((if s.stream_time_pos ≠ k.MP_NOPTS_VALUE then k.STREAM_OK
            else k.STREAM_UNSUPPORTED),
          { arg with dbl := s.stream_time_pos }, s)
      else if cmd = k.STREAM_CTRL_GET_START_TIME then
        some ((if s.stream_start_time ≠ k.MP_NOPTS_VALUE then k.STREAM_OK
            else k.STREAM_UNSUPPORTED),
          { arg with dbl := s.stream_start_time }, s)
      else control_answer k d cmd arg env (control_posted k s cmd arg) s := by
  unfold cache_control control_answer
  rfl

theorem control_posted_window_inv {b : Prop} (k : cache_consts) {s s1 : cache_vars_t}
    (cmd : Int) (arg : ctrl_arg) (h : window_inv b s)
    (hp : control_posted k s cmd arg = some s1) : window_inv b s1 := by
  unfold control_posted at hp
  split_ifs at hp <;> simp only [Option.some.injEq] at hp <;> subst hp <;>
    exact window_inv_congr h rfl rfl rfl rfl rfl rfl rfl rfl

theorem control_adopt_window_inv {b : Prop} (k : cache_consts) {s : cache_vars_t} (cmd : Int)
    (h : window_inv b s) : window_inv b (control_adopt k s cmd) := by
  unfold control_adopt
  split_ifs
  · exact window_inv_congr h rfl rfl rfl rfl rfl rfl rfl rfl
  · exact h

theorem cache_control_window_inv {b : Prop} (k : cache_consts) (d : Int → Nat)
    {s : cache_vars_t} (cmd : Int) (arg : ctrl_arg) (env : List control_wait)
    (r : Int × ctrl_arg × cache_vars_t) (h : window_inv b s)
    (henv : ∀ w ∈ env, ∀ it ∈ w.iters, short_read it.rd)
    (hr : cache_control k d s cmd arg env = some r) : window_inv b r.2.2 := by
  rw [cache_control_eq] at hr
  split_ifs at hr
  any_goals (simp only [Option.some.injEq] at hr; subst hr; exact h)
  unfold control_answer at hr
  cases hp : control_posted k s cmd arg with
  | none =>
    rw [hp] at hr
    simp only [Option.some.injEq] at hr
    subst hr; exact h
  | some s1 =>
    rw [hp] at hr
    simp only [] at hr
    have h1 := control_posted_window_inv k cmd arg h hp
    cases hw : cache_control_wait k d s1 env with
    | none => rw [hw] at hr; simp at hr
    | some res =>
      rw [hw] at hr
      have h2 := cache_control_wait_window_inv k d env s1 res h1 henv hw
      obtain ⟨flag, s2⟩ := res
      cases flag
      · simp only [] at hr h2
        split_ifs at hr
        · simp only [Option.some.injEq] at hr
          subst hr; exact h2
        · simp only [Option.some.injEq] at hr
          subst hr; exact control_adopt_window_inv k cmd h2
      · simp only [Option.some.injEq] at hr h2
        subst hr; exact h2

theorem cache_step_window_inv {b : Prop} (k : cache_consts) (d : Int → Nat)
    {s s1 : cache_vars_t} (op : cache_op) (h : window_inv b s) (hop : op_reads_short op)
    (hb : b → ¬ op_is_seek op) (hs : cache_step k d s op = some s1) : window_inv b s1 := by
  cases op with
  | fill rd =>
    simp only [cache_step, Option.some.injEq] at hs
    subst hs; exact cache_fill_window_inv d h hop
  | read size env =>
    simp only [cache_step, Option.map_eq_some'] at hs
    obtain ⟨r, hr, rfl⟩ := hs
    unfold cache_read at hr
    exact cache_read_loop_window_inv d _ s size 0 [] env r h hop hr
  | seek pos =>
    simp only [cache_step, Option.some.injEq] at hs
    subst hs
    obtain ⟨h1, h2, h3, h4, hm, hw, hr⟩ := h
    exact ⟨h1, h2, h3, h4, hm, hw, fun hb' => absurd trivial (hb hb')⟩
  | control cmd arg env =>
    simp only [cache_step, Option.map_eq_some'] at hs
    obtain ⟨r, hr, rfl⟩ := hs
    exact cache_control_window_inv k d cmd arg env r h hop hr
  | execute_control e =>
    simp only [cache_step, Option.some.injEq] at hs
    subst hs; exact cache_execute_control_window_inv k e h

theorem cache_run_window_inv {b : Prop} (k : cache_consts) (d : Int → Nat) :
    ∀ (ops : List cache_op) (s s1 : cache_vars_t), window_inv b s →
      (∀ op ∈ ops, op_reads_short op) → (b → ∀ op ∈ ops, ¬ op_is_seek op) →
      cache_run k d s ops = some s1 → window_inv b s1 := by
  intro ops
  induction ops with
  | nil =>
    intro s s1 h _ _ hr
    simp only [cache_run, Option.some.injEq] at hr
    subst hr; exact h
  | cons op ops ih =>
    intro s s1 h hops hb hr
    unfold cache_run at hr
    cases hs : cache_step k d s op with
    | none => rw [hs] at hr; simp at hr
    | some s2 =>
      rw [hs] at hr
      simp only [] at hr
      have h2 := cache_step_window_inv k d op h (hops op (List.mem_cons_self _ _))
        (fun hb' => hb hb' op (List.mem_cons_self _ _)) hs
      exact ih s2 s1 h2 (fun o ho => hops o (List.mem_cons_of_mem _ ho))
        (fun hb' o ho => hb hb' o (List.mem_cons_of_mem _ ho)) hr

/-- The state `stream_cache_init` hands to the Filler satisfies the invariant of
the window, the Reader standing inside the (empty) window. -/
theorem stream_cache_init_vars_window_inv {k : cache_consts} {cache stream : stream_t}
    {size min seek_limit : Int} {e : init_env} {s : cache_vars_t} {m : Int}
    (h : stream_cache_init_vars k cache stream size min seek_limit e = some (s, m))
    (hsec : 0 < s.sector_size) : window_inv True s := by
  obtain ⟨⟨num, hnum, hB⟩, hback, hfl, -, hmin, hmax, hoff, hread, -, -, -, -⟩ :=
    stream_cache_init_vars_some h
  have hle : 2 * s.sector_size ≤ s.buffer_size := by rw [hB]; nlinarith
  have hbk : s.back_size = s.buffer_size / 2 := by
    rw [hback]; exact Int.tdiv_eq_ediv (by omega) (by omega)
  have hfit : s.sector_size < 2 ^ 28 → s.sector_size ≤ s.fill_limit := by
    intro hlt; rw [hfl]; unfold int_wrap; omega
  exact ⟨hsec, hfit, ⟨by omega, by omega⟩, by omega, ⟨by omega, by omega⟩, by omega,
    fun _ => ⟨by omega, by omega, Or.inl (by omega)⟩⟩

/-- C4 (as amended). For every state reached from the freshly initialised cache
(sector size positive) through any sequence of `cache_fill`, `cache_read`,
`cache_seek`, `cache_control` and `cache_execute_control` calls, every source read
returning between 0 and the requested number of bytes:
`max_filepos - min_filepos ≤ buffer_size` and
`offset ≤ max_filepos < offset + buffer_size`; and if no call of the sequence is
a `cache_seek`, also `min_filepos ≤ read_filepos ≤ max_filepos`. -/
theorem C4_reachable_window (k : cache_consts) (d : Int → Nat) (cache stream : stream_t)
    (size min seek_limit : Int) (e : init_env) (s0 : cache_vars_t) (m : Int)
    (ops : List cache_op) (s : cache_vars_t)
    (hinit : stream_cache_init_vars k cache stream size min seek_limit e = some (s0, m))
    (hsec : 0 < s0.sector_size)
    (hops : ∀ op ∈ ops, op_reads_short op)
    (hrun : cache_run k d s0 ops = some s) :
    s.max_filepos - s.min_filepos ≤ s.buffer_size ∧
    s.offset ≤ s.max_filepos ∧ s.max_filepos < s.offset + s.buffer_size ∧
    ((∀ op ∈ ops, ¬ op_is_seek op) →
      s.min_filepos ≤ s.read_filepos ∧ s.read_filepos ≤ s.max_filepos) := by
  have h0 := stream_cache_init_vars_window_inv hinit hsec
  have h0' : window_inv False s0 := by
    obtain ⟨h1, h2, h3, h4, hm, hw, -⟩ := h0
    exact ⟨h1, h2, h3, h4, hm, hw, fun hf => absurd hf id⟩
  have hF := cache_run_window_inv k d ops s0 s h0' hops (fun hf => absurd hf id) hrun
  obtain ⟨-, -, -, -, hm, hw, -⟩ := hF
  refine ⟨hw, hm.1, hm.2, ?_⟩
  intro hns
  by_cases hb : ∀ op ∈ ops, ¬ op_is_seek op
  · have hT : window_inv (∀ op ∈ ops, ¬ op_is_seek op) s0 := by
      obtain ⟨h1, h2, h3, h4, hm0, hw0, hr0⟩ := h0
      exact ⟨h1, h2, h3, h4, hm0, hw0, fun _ => hr0 trivial⟩
    have := cache_run_window_inv k d ops s0 s hT hops (fun hb' => hb') hrun
    exact ⟨(this.2.2.2.2.2.2 hb).1, (this.2.2.2.2.2.2 hb).2.1⟩
  · exact absurd hns hb

/-- Witness of C4: the cache of the spec scenario after a fill, a read of 100
bytes and a second fill. -/
theorem C4_reachable_window_witness :
    ∃ s : cache_vars_t,
      cache_run ex_consts ex_medium ex_fresh
        [cache_op.fill ex_full, cache_op.read 100 [], cache_op.fill ex_full] = some s ∧
      s.max_filepos - s.min_filepos ≤ s.buffer_size ∧
      s.min_filepos ≤ s.read_filepos ∧ s.read_filepos ≤ s.max_filepos := by
  have hfill : cache_step ex_consts ex_medium ex_fresh (cache_op.fill ex_full) =
      some (run_fills ex_medium ex_fresh [ex_full]) := rfl
  have hread : cache_step ex_consts ex_medium (run_fills ex_medium ex_fresh [ex_full])
      (cache_op.read 100 []) =
      some { run_fills ex_medium ex_fresh [ex_full] with
        read_filepos := (run_fills ex_medium ex_fresh [ex_full]).read_filepos + 100 } := by
    simp only [cache_step]
    rw [cache_read_avail
      (run_fills_inv [ex_full] ex_fresh ex_fresh_inv
        (ex_full_short_list _ (by intro rd hrd; rw [List.mem_singleton] at hrd; exact hrd)))
      100 [] (by decide) (by decide) (by decide)]
    rfl
  have hrun : cache_run ex_consts ex_medium ex_fresh
      [cache_op.fill ex_full, cache_op.read 100 [], cache_op.fill ex_full] =
      some (cache_fill { run_fills ex_medium ex_fresh [ex_full] with
        read_filepos := (run_fills ex_medium ex_fresh [ex_full]).read_filepos + 100 }
          ex_medium ex_full).s := by
    simp only [cache_run, hfill, hread]
    rfl
  have h := C4_reachable_window ex_consts ex_medium ex_stream ex_stream 65536 16384 16384
    ex_init_env ex_fresh 16384 _ _ ex_fresh_init (by decide)
    (by
      intro op hop
      simp only [List.mem_cons, List.mem_singleton, List.not_mem_nil, or_false] at hop
      rcases hop with rfl | rfl | rfl
      · exact ex_full_short
      · intro w hw; simp at hw
      · exact ex_full_short)
    hrun
  refine ⟨_, hrun, h.1, h.2.2.2 ?_⟩
  intro op hop
  simp only [List.mem_cons, List.mem_singleton, List.not_mem_nil, or_false] at hop
  rcases hop with rfl | rfl | rfl <;> exact fun hf => hf

/-- C4, counterexample to the claim as stated: from the freshly initialised cache
of the spec scenario, `cache_seek(2048)` leads to a state with
`read_filepos = 2048` and `max_filepos = 0`, so `read_filepos ≤ max_filepos` does
not hold. -/
theorem C4_counterexample :
    stream_cache_init_vars ex_consts ex_stream ex_stream 65536 16384 16384 ex_init_env =
      some (ex_fresh, 16384) ∧
    cache_run ex_consts ex_medium ex_fresh [cache_op.seek 2048] =
      some (cache_seek ex_fresh 2048).2 ∧
    (cache_seek ex_fresh 2048).2.read_filepos = 2048 ∧
    (cache_seek ex_fresh 2048).2.max_filepos = 0 ∧
    ¬ ((cache_seek ex_fresh 2048).2.read_filepos ≤ (cache_seek ex_fresh 2048).2.max_filepos) := by
  refine ⟨rfl, rfl, by decide, by decide, by decide⟩

/-- A copy of 0 bytes leaves the loop of `cache_read` where it was: the loop does
not end, whatever the bound. -/
theorem cache_read_loop_stuck (d : Int → Nat) (s : cache_vars_t) (size total : Int)
    (out : List Nat) (env : List read_wait) (hsz : size > 0)
    (hcond : ¬ (s.read_filepos ≥ s.max_filepos ∨ s.read_filepos < s.min_filepos))
    (hnb : (if (if s.max_filepos - s.read_filepos > s.buffer_size -
              (if s.read_filepos - s.offset < 0 then s.read_filepos - s.offset + s.buffer_size
                else if s.read_filepos - s.offset ≥ s.buffer_size then
                  s.read_filepos - s.offset - s.buffer_size
                else s.read_filepos - s.offset) then
            s.buffer_size -
              (if s.read_filepos - s.offset < 0 then s.read_filepos - s.offset + s.buffer_size
                else if s.read_filepos - s.offset ≥ s.buffer_size then
                  s.read_filepos - s.offset - s.buffer_size
                else s.read_filepos - s.offset)
          else s.max_filepos - s.read_filepos) > size then size
        else (if s.max_filepos - s.read_filepos > s.buffer_size -
              (if s.read_filepos - s.offset < 0 then s.read_filepos - s.offset + s.buffer_size
                else if s.read_filepos - s.offset ≥ s.buffer_size then
                  s.read_filepos - s.offset - s.buffer_size
                else s.read_filepos - s.offset) then
            s.buffer_size -
              (if s.read_filepos - s.offset < 0 then s.read_filepos - s.offset + s.buffer_size
                else if s.read_filepos - s.offset ≥ s.buffer_size then
                  s.read_filepos - s.offset - s.buffer_size
                else s.read_filepos - s.offset)
          else s.max_filepos - s.read_filepos)) = 0) :
    ∀ n : Nat, cache_read_loop d n s size total out env = none := by
  intro n
  induction n with
  | zero => rfl
  | succ n ih =>
    unfold cache_read_loop
    rw [if_pos hsz, if_neg hcond]
    simp only []
    rw [hnb, if_neg (by omega)]
    simp only [Int.toNat_zero, List.range_zero, List.map_nil, List.append_nil, add_zero,
      sub_zero]
    exact ih

/-- The bound on the iterations that `cache_read` uses loses nothing: any larger
bound gives the same result. -/
theorem cache_read_loop_fuel (d : Int → Nat) :
    ∀ (n : Nat) (s : cache_vars_t) (size total : Int) (out : List Nat) (env : List read_wait),
      size.toNat + env.length + 1 ≤ n →
      cache_read_loop d (n + 1) s size total out env =
        cache_read_loop d n s size total out env := by
  intro n
  induction n with
  | zero => intro s size total out env h; omega
  | succ n ih =>
    intro s size total out env h
    rw [cache_read_loop.eq_def d (n + 1 + 1), cache_read_loop.eq_def d (n + 1)]
    simp only []
    by_cases hsz : size > 0
    · rw [if_pos hsz, if_pos hsz]
      by_cases hcond : s.read_filepos ≥ s.max_filepos ∨ s.read_filepos < s.min_filepos
      · rw [if_pos hcond, if_pos hcond]
        by_cases heof : s.eof = true
        · rw [if_pos heof, if_pos heof]
        · rw [if_neg heof, if_neg heof]
          cases env with
          | nil => rfl
          | cons w env =>
            simp only []
            by_cases hi : w.interrupted = true
            · rw [if_pos hi, if_pos hi]
            · rw [if_neg hi, if_neg hi]
              apply ih
              simp only [List.length_cons] at h
              omega
      · rw [if_neg hcond, if_neg hcond]
        generalize hnb : (if (if s.max_filepos - s.read_filepos > s.buffer_size -
              (if s.read_filepos - s.offset < 0 then s.read_filepos - s.offset + s.buffer_size
                else if s.read_filepos - s.offset ≥ s.buffer_size then
                  s.read_filepos - s.offset - s.buffer_size
                else s.read_filepos - s.offset) then
            s.buffer_size -
              (if s.read_filepos - s.offset < 0 then s.read_filepos - s.offset + s.buffer_size
                else if s.read_filepos - s.offset ≥ s.buffer_size then
                  s.read_filepos - s.offset - s.buffer_size
                else s.read_filepos - s.offset)
          else s.max_filepos - s.read_filepos) > size then size
        else (if s.max_filepos - s.read_filepos > s.buffer_size -
              (if s.read_filepos - s.offset < 0 then s.read_filepos - s.offset + s.buffer_size
                else if s.read_filepos - s.offset ≥ s.buffer_size then
                  s.read_filepos - s.offset - s.buffer_size
                else s.read_filepos - s.offset) then
            s.buffer_size -
              (if s.read_filepos - s.offset < 0 then s.read_filepos - s.offset + s.buffer_size
                else if s.read_filepos - s.offset ≥ s.buffer_size then
                  s.read_filepos - s.offset - s.buffer_size
                else s.read_filepos - s.offset)
          else s.max_filepos - s.read_filepos)) = newb
        by_cases hneg : newb < 0
        · rw [if_pos hneg, if_pos hneg]
        · rw [if_neg hneg, if_neg hneg]
          by_cases hz : newb = 0
          · subst hz
            have hst := cache_read_loop_stuck d s size total out env hsz hcond hnb
            simp only [Int.toNat_zero, List.range_zero, List.map_nil, List.append_nil, add_zero,
              sub_zero]
            rw [hst, hst]
          · apply ih
            omega
    · rw [if_neg hsz, if_neg hsz]

/-- The result of `cache_read` is the result of its loop under any bound from
`size + (number of sleeps) + 1` on. -/
theorem cache_read_fuel (d : Int → Nat) (s : cache_vars_t) (size : Int)
    (env : List read_wait) (n : Nat) (h : size.toNat + env.length + 1 ≤ n) :
    cache_read_loop d n s size 0 [] env = cache_read d s size env := by
  unfold cache_read
  induction n with
  | zero => omega
  | succ n ih =>
    by_cases hn : size.toNat + env.length + 1 ≤ n
    · rw [cache_read_loop_fuel d n s size 0 [] env hn]
      exact ih hn
    · have : n + 1 = size.toNat + env.length + 1 := by omega
      rw [this]

theorem ex_consts_ok : consts_ok ex_consts := by
  unfold consts_ok control_labels answered_labels posted_labels
  decide

/-- A command that is posted is not one that is answered at once. -/
theorem posted_not_answered {k : cache_consts} (h : consts_ok k) {cmd : Int}
    (hc : cmd ∈ posted_labels k) : cmd ∉ answered_labels k := by
  have hd := List.disjoint_of_nodup_append h.1
  exact fun ha => hd ha hc

/-- A command that is not answered at once goes on to the posting `switch`. -/
theorem cache_control_not_answered (k : cache_consts) (d : Int → Nat) (s : cache_vars_t)
    (cmd : Int) (arg : ctrl_arg) (env : List control_wait) (h : cmd ∉ answered_labels k) :
    cache_control k d s cmd arg env =
      control_answer k d cmd arg env (control_posted k s cmd arg) s := by
  simp only [answered_labels, List.mem_cons, List.mem_singleton, not_or, List.not_mem_nil,
    not_false_eq_true, and_true] at h
  obtain ⟨h1, h2, h3, h4, h5, h6⟩ := h
  rw [cache_control_eq, if_neg h1, if_neg h2, if_neg h3, if_neg h4, if_neg h5, if_neg h6]

theorem answered_nodup {k : cache_consts} (h : consts_ok k) : (answered_labels k).Nodup :=
  (List.nodup_append.1 h.1).1

/-- The answer of `cache_control` to `STREAM_CTRL_GET_CACHE_FILL`. -/
theorem cache_control_fill (k : cache_consts) (d : Int → Nat) (s : cache_vars_t)
    (arg : ctrl_arg) (env : List control_wait) (h : consts_ok k) :
    cache_control k d s k.STREAM_CTRL_GET_CACHE_FILL arg env =
      some (k.STREAM_OK, { arg with uint := s.max_filepos - s.read_filepos }, s) := by
  have hn := answered_nodup h
  simp only [answered_labels, List.nodup_cons, List.mem_cons, List.mem_singleton, not_or,
    List.not_mem_nil, not_false_eq_true, List.nodup_nil, and_true] at hn
  rw [cache_control_eq, if_neg (Ne.symm hn.1.1), if_pos rfl]

/-- C11 (as amended). The fill level that `cache_control(STREAM_CTRL_GET_CACHE_FILL)`
reports is `max_filepos - read_filepos`, whatever the state; the call returns
`STREAM_OK` and changes nothing.  While `min_filepos ≤ read_filepos ≤ max_filepos`
this is the spec's `bytes_available_at(read_filepos)`, it is not negative, and
it does not exceed `buffer_size` when the window fits the buffer.  Right after
a `cache_seek(pos)` the reported value is `max_filepos` minus the aligned
position, inside the window or not. -/
theorem C11_cache_fill_level (k : cache_consts) (d : Int → Nat) (s : cache_vars_t)
    (arg : ctrl_arg) (env : List control_wait) (hk : consts_ok k) :
    cache_control k d s k.STREAM_CTRL_GET_CACHE_FILL arg env =
      some (k.STREAM_OK, { arg with uint := s.max_filepos - s.read_filepos }, s) ∧
    (s.min_filepos ≤ s.read_filepos → s.read_filepos ≤ s.max_filepos →
      s.max_filepos - s.read_filepos = spec_bytes_available_at s s.read_filepos ∧
      0 ≤ s.max_filepos - s.read_filepos ∧
      (s.max_filepos - s.min_filepos ≤ s.buffer_size →
        s.max_filepos - s.read_filepos ≤ s.buffer_size)) ∧
    (∀ pos : Int,
      cache_control k d (cache_seek s pos).2 k.STREAM_CTRL_GET_CACHE_FILL arg env =
        some (k.STREAM_OK,
          { arg with uint := s.max_filepos - Int.tdiv pos s.sector_size * s.sector_size },
          (cache_seek s pos).2)) := by
  refine ⟨cache_control_fill k d s arg env hk, ?_, fun pos => ?_⟩
  · intro h1 h2
    unfold spec_bytes_available_at
    rw [if_pos ⟨h1, h2⟩]
    omega
  · rw [cache_control_fill k d _ arg env hk]
    rfl

/-- Witness of C11: the cache of the spec scenario after five fills reports 40960
bytes. -/
theorem C11_cache_fill_level_witness :
    cache_control ex_consts ex_medium ex_filled ex_consts.STREAM_CTRL_GET_CACHE_FILL ex_arg [] =
      some (ex_consts.STREAM_OK,
        { ex_arg with uint := ex_filled.max_filepos - ex_filled.read_filepos }, ex_filled) :=
  (C11_cache_fill_level ex_consts ex_medium ex_filled ex_arg [] ex_consts_ok).1

/-- C11, counterexample to the claim as stated, in the spec scenario.  After
`cache_seek(2048)` on the fresh cache the reported fill level is -2048: it is
negative and it is not `bytes_available_at(read_filepos) = 0`.  After
`cache_seek(0)` in the state `ex_far` (window `[100000, 100100)`) the Reader
stands below the window and the reported fill level is 100100: it is not 0 and
it exceeds `buffer_size = 65536`. -/
theorem C11_counterexample :
    ((cache_control ex_consts ex_medium (cache_seek ex_fresh 2048).2
        ex_consts.STREAM_CTRL_GET_CACHE_FILL ex_arg []).map (fun r => (r.1, r.2.1.uint)) =
      some (ex_consts.STREAM_OK, -2048) ∧
      spec_bytes_available_at (cache_seek ex_fresh 2048).2
        (cache_seek ex_fresh 2048).2.read_filepos = 0) ∧
    ((cache_control ex_consts ex_medium (cache_seek ex_far 0).2
        ex_consts.STREAM_CTRL_GET_CACHE_FILL ex_arg []).map (fun r => (r.1, r.2.1.uint)) =
      some (ex_consts.STREAM_OK, 100100) ∧
      (cache_seek ex_far 0).2.read_filepos < (cache_seek ex_far 0).2.min_filepos ∧
      (cache_seek ex_far 0).2.buffer_size = 65536) := by
  refine ⟨⟨?_, by decide⟩, ⟨?_, by decide, by decide⟩⟩
  · rw [cache_control_fill _ _ _ _ _ ex_consts_ok]; decide
  · rw [cache_control_fill _ _ _ _ _ ex_consts_ok]; decide

theorem exec_times_ppid (k : cache_consts) (s : cache_vars_t) (e : exec_env) :
    (exec_times k s e).ppid = s.ppid ∧ (exec_times k s e).control_res = s.control_res := by
  unfold exec_times
  simp only []
  split_ifs <;> simp

theorem exec_flush_control_res (k : cache_consts) (t : cache_vars_t) (nf : Bool) :
    (exec_flush k t nf).control_res = t.control_res ∧
    (exec_flush k t nf).stream = t.stream := by
  unfold exec_flush
  split_ifs <;> simp [cache_flush]

/-- A command that changes the position is neither the quit code nor the marker
of a free slot. -/
theorem pos_change_code_ne {k : cache_consts} (hk : consts_ok k) {c : Int}
    (hc : c = k.STREAM_CTRL_SEEK_TO_TIME ∨ c = k.STREAM_CTRL_SEEK_TO_CHAPTER ∨
      c = k.STREAM_CTRL_SET_ANGLE) : c ≠ -2 ∧ c ≠ -1 ∧ c ∈ posted_labels k := by
  have hp : (posted_labels k).Nodup := (List.nodup_append.1 hk.1).2.1
  have hsplit : posted_labels k =
      [k.STREAM_CTRL_SEEK_TO_TIME, k.STREAM_CTRL_SEEK_TO_CHAPTER, k.STREAM_CTRL_SET_ANGLE] ++
      [k.STREAM_CTRL_GET_CHAPTER_TIME, k.STREAM_CTRL_GET_LANG, k.STREAM_CTRL_GET_DVD_INFO,
       k.STREAM_CTRL_GET_NUM_TITLES, k.STREAM_CTRL_GET_NUM_CHAPTERS,
       k.STREAM_CTRL_GET_CURRENT_TITLE, k.STREAM_CTRL_GET_CURRENT_CHAPTER,
       k.STREAM_CTRL_GET_ASPECT_RATIO, k.STREAM_CTRL_GET_NUM_ANGLES, k.STREAM_CTRL_GET_ANGLE,
       k.STREAM_CTRL_GET_SIZE, k.STREAM_CTRL_MANAGES_TIMELINE, -2] := rfl
  have hmem : c ∈ [k.STREAM_CTRL_SEEK_TO_TIME, k.STREAM_CTRL_SEEK_TO_CHAPTER,
      k.STREAM_CTRL_SET_ANGLE] := by
    simp only [List.mem_cons, List.mem_singleton, List.not_mem_nil, or_false]
    exact hc
  have hposted : c ∈ posted_labels k := by
    rw [hsplit]; exact List.mem_append_left _ hmem
  rw [hsplit] at hp
  have hd := List.disjoint_of_nodup_append hp
  refine ⟨?_, ?_, hposted⟩
  · intro h2
    apply hd hmem
    rw [h2]
    simp
  · intro h1
    apply hk.2.1
    rw [← h1]
    unfold control_labels
    exact List.mem_append_right _ hposted

/-- What `cache_execute_control` does to the window, the Reader's position and `eof`:
it flushes to the source's position exactly when the source was asked a command
that changes the position and answered `STREAM_OK`. -/
theorem cache_execute_control_position (k : cache_consts) (s : cache_vars_t) (e : exec_env)
    (hk : consts_ok k) :
    ((s.control = k.STREAM_CTRL_SEEK_TO_TIME ∨ s.control = k.STREAM_CTRL_SEEK_TO_CHAPTER ∨
        s.control = k.STREAM_CTRL_SET_ANGLE) →
      s.stream.control = true → ¬ (e.now - s.last > refresh_threshold ∧ s.ppid ≠ e.ppid) →
      (cache_execute_control k s e).2.control_res = k.STREAM_OK →
      (cache_execute_control k s e).2.read_filepos = (cache_execute_control k s e).2.stream.pos ∧
      (cache_execute_control k s e).2.eof = (cache_execute_control k s e).2.stream.eof ∧
      (cache_execute_control k s e).2.offset = (cache_execute_control k s e).2.read_filepos ∧
      (cache_execute_control k s e).2.min_filepos =
        (cache_execute_control k s e).2.read_filepos ∧
      (cache_execute_control k s e).2.max_filepos =
        (cache_execute_control k s e).2.read_filepos) ∧
    ((¬ (s.control = k.STREAM_CTRL_SEEK_TO_TIME ∨ s.control = k.STREAM_CTRL_SEEK_TO_CHAPTER ∨
          s.control = k.STREAM_CTRL_SET_ANGLE) ∨
        (cache_execute_control k s e).2.control_res ≠ k.STREAM_OK) →
      (cache_execute_control k s e).2.min_filepos = s.min_filepos ∧
      (cache_execute_control k s e).2.max_filepos = s.max_filepos ∧
      (cache_execute_control k s e).2.offset = s.offset ∧
      (cache_execute_control k s e).2.read_filepos = s.read_filepos ∧
      (cache_execute_control k s e).2.eof = s.eof) := by
  have ht := exec_times_fields k s e
  have htp := exec_times_ppid k s e
  have hr := exec_refreshed_fields k s e
  have hs := exec_switch_fields k (exec_refreshed k s e) e
  have hfl := exec_flush_control_res k (exec_switch k (exec_refreshed k s e) e)
    (exec_needs_flush k (exec_refreshed k s e))
  have hnf : exec_needs_flush k (exec_refreshed k s e) =
      decide (s.control = k.STREAM_CTRL_SEEK_TO_TIME ∨
        s.control = k.STREAM_CTRL_SEEK_TO_CHAPTER ∨ s.control = k.STREAM_CTRL_SET_ANGLE) := by
    unfold exec_needs_flush; rw [hr.2.2.2.2.2.2.2.2.2.2.2]
  rw [cache_execute_control_eq]
  constructor
  · intro hc hh hp hres
    obtain ⟨hq, h1, -⟩ := pos_change_code_ne hk hc
    have c1 : ¬ (decide (s.control = -2) = true ∨ s.stream.control = false) := by
      simp [hq, hh]
    have c2 : ¬ (decide (e.now - s.last > refresh_threshold) = true ∧
        (exec_times k s e).ppid ≠ e.ppid) := by
      rw [htp.1]; simpa using hp
    have c3 : ¬ (exec_refreshed k s e).control = -1 := by
      rw [hr.2.2.2.2.2.2.2.2.2.2.2]; exact h1
    rw [if_neg c1, if_neg c2, if_neg c3] at hres ⊢
    simp only [] at hres ⊢
    rw [hfl.1] at hres
    unfold exec_flush
    rw [if_pos ⟨hres, by rw [hnf]; simpa using hc⟩]
    simp [cache_flush]
  · intro hor
    by_cases c1 : decide (s.control = -2) = true ∨ s.stream.control = false
    · rw [if_pos c1]
      exact ⟨rfl, rfl, rfl, rfl, rfl⟩
    rw [if_neg c1] at hor ⊢
    by_cases c2 : decide (e.now - s.last > refresh_threshold) = true ∧ (exec_times k s e).ppid ≠ e.ppid
    · rw [if_pos c2]
      obtain ⟨-, -, -, -, -, -, a7, a8, a9, a10, a11, -⟩ := ht
      exact ⟨a7, a8, a9, a10, a11⟩
    rw [if_neg c2] at hor ⊢
    obtain ⟨-, -, -, -, -, -, a7, a8, a9, a10, a11, -⟩ := hr
    by_cases c3 : (exec_refreshed k s e).control = -1
    · rw [if_pos c3]
      exact ⟨a7, a8, a9, a10, a11⟩
    rw [if_neg c3] at hor ⊢
    obtain ⟨-, -, -, -, -, -, b7, b8, b9, b10, b11, -⟩ := hs
    simp only [] at hor ⊢
    rw [hfl.1] at hor
    have hno : ¬ ((exec_switch k (exec_refreshed k s e) e).control_res = k.STREAM_OK ∧
        exec_needs_flush k (exec_refreshed k s e) = true) := by
      rw [hnf]
      rintro ⟨x1, x2⟩
      rcases hor with h | h
      · exact h (by simpa using x2)
      · exact h x1
    unfold exec_flush
    rw [if_neg hno]
    exact ⟨by rw [b7, a7], by rw [b8, a8], by rw [b9, a9], by rw [b10, a10], by rw [b11, a11]⟩

/-- When no refresh is due, the refresh block of `cache_execute_control` changes
nothing. -/
theorem exec_refreshed_not_due (k : cache_consts) (s : cache_vars_t) (e : exec_env)
    (h : ¬ e.now - s.last > refresh_threshold) :
    exec_times k s e = s ∧ exec_refreshed k s e = s := by
  have h1 : exec_times k s e = s := by
    unfold exec_times
    simp only []
    rw [if_neg (by simpa using h)]
  refine ⟨h1, ?_⟩
  unfold exec_refreshed
  rw [if_neg (by simpa using h)]
  exact h1

theorem ex_exec_not_due (s : cache_vars_t) (h : s.last = 0) :
    ¬ ex_exec_env.now - s.last > refresh_threshold := by
  rw [h]
  show ¬ ((0 : Rat) - 0 > refresh_threshold)
  unfold refresh_threshold DOUBLE_0_099 DOUBLE_0_099_succ
  norm_num

theorem ex_seek_posted_exec :
    (cache_execute_control ex_consts ex_seek_posted ex_exec_env).2.control_res = 1 ∧
    (cache_execute_control ex_consts ex_seek_posted ex_exec_env).2.stream.pos = 4096 ∧
    (cache_execute_control ex_consts ex_seek_posted ex_exec_env).2.read_filepos = 4096 ∧
    (cache_execute_control ex_consts ex_seek_posted ex_exec_env).2.control = -1 ∧
    (cache_execute_control ex_consts ex_seek_posted ex_exec_env).1 = 1 := by
  have hd := ex_exec_not_due ex_seek_posted rfl
  have hr := exec_refreshed_not_due ex_consts ex_seek_posted ex_exec_env hd
  rw [cache_execute_control_eq, if_neg (by decide),
    if_neg (fun h => hd (by simpa using h.1)), hr.2, if_neg (by decide)]
  decide

theorem same_consts_refl (s : cache_vars_t) : same_consts s s :=
  ⟨rfl, rfl, rfl, rfl, rfl, rfl, rfl, rfl⟩

theorem same_consts_trans {s t u : cache_vars_t} (h1 : same_consts s t)
    (h2 : same_consts t u) : same_consts s u := by
  obtain ⟨a1, a2, a3, a4, a5, a6, a7, a8⟩ := h1
  obtain ⟨b1, b2, b3, b4, b5, b6, b7, b8⟩ := h2
  exact ⟨b1.trans a1, b2.trans a2, b3.trans a3, b4.trans a4, b5.trans a5, b6.trans a6,
    b7.trans a7, b8.trans a8⟩

theorem fill_seek_same_consts (s : cache_vars_t) : same_consts s (fill_seek s) := by
  cases h : fill_flushes s
  · rw [fill_seek_of_not_flush h]; exact same_consts_refl s
  · rw [fill_seek_of_flush h]; exact ⟨rfl, rfl, rfl, rfl, rfl, rfl, rfl, rfl⟩

theorem cache_fill_same_consts (s : cache_vars_t) (d : Int → Nat) (rd : Int → Int) :
    same_consts s (cache_fill s d rd).s := by
  have h := fill_seek_same_consts s
  rw [cache_fill_eq]
  split_ifs
  · exact h
  · exact same_consts_trans h ⟨rfl, rfl, rfl, rfl, rfl, rfl, rfl, rfl⟩

theorem exec_times_same_consts (k : cache_consts) (s : cache_vars_t) (e : exec_env) :
    same_consts s (exec_times k s e) := by
  unfold exec_times
  simp only []
  split_ifs <;> exact ⟨rfl, rfl, rfl, rfl, rfl, rfl, rfl, rfl⟩

theorem exec_refreshed_same_consts (k : cache_consts) (s : cache_vars_t) (e : exec_env) :
    same_consts s (exec_refreshed k s e) := by
  have h := exec_times_same_consts k s e
  unfold exec_refreshed
  split_ifs
  · exact same_consts_trans h ⟨rfl, rfl, rfl, rfl, rfl, rfl, rfl, rfl⟩
  · exact h

theorem exec_switch_same_consts (k : cache_consts) (s : cache_vars_t) (e : exec_env) :
    same_consts s (exec_switch k s e) := by
  unfold exec_switch
  simp only []
  split_ifs <;> exact ⟨rfl, rfl, rfl, rfl, rfl, rfl, rfl, rfl⟩

theorem exec_flush_same_consts (k : cache_consts) (t : cache_vars_t) (nf : Bool) :
    same_consts t (exec_flush k t nf) := by
  unfold exec_flush
  split_ifs
  · exact ⟨rfl, rfl, rfl, rfl, rfl, rfl, rfl, rfl⟩
  · exact same_consts_refl t

theorem cache_execute_control_same_consts (k : cache_consts) (s : cache_vars_t)
    (e : exec_env) : same_consts s (cache_execute_control k s e).2 := by
  have h1 := exec_times_same_consts k s e
  have h2 := exec_refreshed_same_consts k s e
  have h3 := exec_switch_same_consts k (exec_refreshed k s e) e
  have h4 := exec_flush_same_consts k (exec_switch k (exec_refreshed k s e) e)
    (exec_needs_flush k (exec_refreshed k s e))
  rw [cache_execute_control_eq]
  by_cases c1 : decide (s.control = -2) = true ∨ s.stream.control = false
  · rw [if_pos c1]; exact ⟨rfl, rfl, rfl, rfl, rfl, rfl, rfl, rfl⟩
  rw [if_neg c1]
  by_cases c2 : decide (e.now - s.last > refresh_threshold) = true ∧ (exec_times k s e).ppid ≠ e.ppid
  · rw [if_pos c2]; exact h1
  rw [if_neg c2]
  by_cases c3 : (exec_refreshed k s e).control = -1
  · rw [if_pos c3]; exact h2
  rw [if_neg c3]
  exact same_consts_trans (same_consts_trans (same_consts_trans h2 h3) h4)
    ⟨rfl, rfl, rfl, rfl, rfl, rfl, rfl, rfl⟩

theorem cache_mainloop_iter_same_consts (k : cache_consts) (d : Int → Nat) (s : cache_vars_t)
    (it : filler_iter) : same_consts s (cache_mainloop_iter k d s it).2 := by
  unfold cache_mainloop_iter
  simp only []
  have h1 := cache_fill_same_consts s d it.rd
  split_ifs
  · exact same_consts_trans (same_consts_trans h1 ⟨rfl, rfl, rfl, rfl, rfl, rfl, rfl, rfl⟩)
      (cache_execute_control_same_consts k _ _)
  · exact same_consts_trans (same_consts_trans h1 ⟨rfl, rfl, rfl, rfl, rfl, rfl, rfl, rfl⟩)
      (cache_execute_control_same_consts k _ _)

theorem cache_mainloop_same_consts (k : cache_consts) (d : Int → Nat) :
    ∀ (its : List filler_iter) (s : cache_vars_t), same_consts s (cache_mainloop k d s its).2 := by
  intro its
  induction its with
  | nil => intro s; exact same_consts_refl s
  | cons it its ih =>
    intro s
    have h1 := cache_mainloop_iter_same_consts k d s it
    unfold cache_mainloop
    simp only []
    split_ifs
    · exact h1
    · exact same_consts_trans h1 (ih _)

/-- What the wait of `cache_control` returns: the constants and the wrapper stream
are untouched; after an interruption `eof` is set; otherwise the slot is free. -/
theorem cache_control_wait_spec (k : cache_consts) (d : Int → Nat) :
    ∀ (env : List control_wait) (s : cache_vars_t) (flag : Bool) (s2 : cache_vars_t),
      cache_control_wait k d s env = some (flag, s2) →
      same_consts s s2 ∧ (flag = true → s2.eof = true ∧ ∃ w ∈ env, w.interrupted = true) ∧
      (flag = false → s2.control = -1) := by
  intro env
  induction env with
  | nil =>
    intro s flag s2 h
    unfold cache_control_wait at h
    split_ifs at h with c
    simp only [Option.some.injEq, Prod.mk.injEq] at h
    obtain ⟨rfl, rfl⟩ := h
    exact ⟨same_consts_refl s, fun hf => absurd hf (by decide), fun _ => by simpa using c⟩
  | cons w env ih =>
    intro s flag s2 h
    unfold cache_control_wait at h
    have hm := cache_mainloop_same_consts k d w.iters s
    split_ifs at h with c ci
    · simp only [Option.some.injEq, Prod.mk.injEq] at h
      obtain ⟨rfl, rfl⟩ := h
      exact ⟨same_consts_trans hm ⟨rfl, rfl, rfl, rfl, rfl, rfl, rfl, rfl⟩,
        fun _ => ⟨rfl, w, List.mem_cons_self _ _, ci⟩, fun hf => absurd hf (by decide)⟩
    · obtain ⟨a1, a2, a3⟩ := ih _ _ _ h
      refine ⟨same_consts_trans hm a1, fun hf => ?_, a3⟩
      obtain ⟨b1, w', hw', b2⟩ := a2 hf
      exact ⟨b1, w', List.mem_cons_of_mem _ hw', b2⟩
    · simp only [Option.some.injEq, Prod.mk.injEq] at h
      obtain ⟨rfl, rfl⟩ := h
      exact ⟨same_consts_refl s, fun hf => absurd hf (by decide), fun _ => by simpa using c⟩

/-- A command of the posting group is written into the control slot, whatever the
slot held; nothing else but the argument fields changes. -/
theorem control_posted_some (k : cache_consts) (s : cache_vars_t) (cmd : Int) (arg : ctrl_arg)
    (hc : cmd ∈ posted_labels k) :
    ∃ s1 : cache_vars_t, control_posted k s cmd arg = some s1 ∧ s1.control = cmd ∧
      same_consts s s1 ∧ s1.eof = s.eof ∧ s1.read_filepos = s.read_filepos ∧
      s1.min_filepos = s.min_filepos ∧ s1.max_filepos = s.max_filepos ∧
      s1.offset = s.offset ∧ s1.control_res = s.control_res := by
  simp only [posted_labels, List.mem_cons, List.mem_singleton, List.not_mem_nil, or_false] at hc
  unfold control_posted
  split_ifs with c1 c2 c3 c4 c5 c6
  all_goals first
    | exact ⟨_, rfl, rfl, ⟨rfl, rfl, rfl, rfl, rfl, rfl, rfl, rfl⟩, rfl, rfl, rfl, rfl, rfl, rfl⟩
    | (exfalso; tauto)

/-- The fields of the control slot and of the cached times are not written by
`cache_fill`. -/
theorem cache_fill_slot (s : cache_vars_t) (d : Int → Nat) (rd : Int → Int) :
    (cache_fill s d rd).s.control = s.control ∧
    (cache_fill s d rd).s.control_res = s.control_res ∧
    (cache_fill s d rd).s.last = s.last ∧
    (cache_fill s d rd).s.stream.control = s.stream.control ∧
    (cache_fill s d rd).s.stream_time_length = s.stream_time_length ∧
    (cache_fill s d rd).s.stream_time_pos = s.stream_time_pos ∧
    (cache_fill s d rd).s.stream_start_time = s.stream_start_time := by
  have h : (fill_seek s).control = s.control ∧ (fill_seek s).control_res = s.control_res ∧
      (fill_seek s).last = s.last ∧ (fill_seek s).stream.control = s.stream.control ∧
      (fill_seek s).stream_time_length = s.stream_time_length ∧
      (fill_seek s).stream_time_pos = s.stream_time_pos ∧
      (fill_seek s).stream_start_time = s.stream_start_time := by
    cases h : fill_flushes s
    · rw [fill_seek_of_not_flush h]; simp
    · rw [fill_seek_of_flush h]
      by_cases he : s.stream.eof = true <;>
        simp [cache_flush, stream_seek_unbuffered, stream_reset, he]
  rw [cache_fill_eq]
  split_ifs
  · exact h
  · exact h

/-- The call has not returned while the wait has not ended. -/
theorem control_answer_waiting (k : cache_consts) (d : Int → Nat) (cmd : Int) (arg : ctrl_arg)
    (env : List control_wait) (s1 s0 : cache_vars_t)
    (h : cache_control_wait k d s1 env = none) :
    control_answer k d cmd arg env (some s1) s0 = none := by
  unfold control_answer
  simp only [h]

/-- The return of `cache_control` at cache.c:562-565, the interruption having
fired. -/
theorem control_answer_interrupted (k : cache_consts) (d : Int → Nat) (cmd : Int)
    (arg : ctrl_arg) (env : List control_wait) (s1 s0 s2 : cache_vars_t)
    (h : cache_control_wait k d s1 env = some (true, s2)) :
    control_answer k d cmd arg env (some s1) s0 = some (k.STREAM_UNSUPPORTED, arg, s2) := by
  unfold control_answer
  simp only [h]

/-- The return of `cache_control` once the Filler has freed the slot
(cache.c:569-611). -/
theorem control_answer_answered (k : cache_consts) (d : Int → Nat) (cmd : Int)
    (arg : ctrl_arg) (env : List control_wait) (s1 s0 s2 : cache_vars_t)
    (h : cache_control_wait k d s1 env = some (false, s2)) :
    control_answer k d cmd arg env (some s1) s0 =
      if s2.control_res ≠ k.STREAM_OK then some (s2.control_res, arg, s2)
      else
        some ((control_adopt k s2 cmd).control_res,
          control_result_arg k (control_adopt k s2 cmd) cmd arg, control_adopt k s2 cmd) := by
  unfold control_answer
  simp only [h]

/-- C13. Reader side of a position-changing control.  Let `cache_control` return
for `STREAM_CTRL_SEEK_TO_TIME`, `STREAM_CTRL_SEEK_TO_CHAPTER` or
`STREAM_CTRL_SET_ANGLE`.  When it returns `STREAM_OK`, the Filler's result
`control_res` is `STREAM_OK` and the wrapper stream has the position
`read_filepos` and the `eof` of the shared state.  When it returns another code,
the wrapper stream (its `pos` and `eof` in particular) and the caller's argument
are as before the call.  When no interruption fires during the call, the value
returned is the Filler's result `control_res`, so the wrapper stream adopts the
position exactly when that result is `STREAM_OK`. -/
theorem C13_reader_position_change (k : cache_consts) (d : Int → Nat) (s : cache_vars_t)
    (cmd : Int) (arg : ctrl_arg) (env : List control_wait)
    (r : Int × ctrl_arg × cache_vars_t) (hk : consts_ok k)
    (hc : cmd = k.STREAM_CTRL_SEEK_TO_TIME ∨ cmd = k.STREAM_CTRL_SEEK_TO_CHAPTER ∨
      cmd = k.STREAM_CTRL_SET_ANGLE)
    (hr : cache_control k d s cmd arg env = some r) :
    (r.1 = k.STREAM_OK →
      r.2.2.control_res = k.STREAM_OK ∧ r.2.2.cache.pos = r.2.2.read_filepos ∧
      r.2.2.cache.eof = r.2.2.eof) ∧
    (r.1 ≠ k.STREAM_OK →
      r.2.2.cache = s.cache ∧ r.2.2.cache.pos = s.cache.pos ∧
      r.2.2.cache.eof = s.cache.eof ∧ r.2.1 = arg) ∧
    ((∀ w ∈ env, w.interrupted = false) → r.1 = r.2.2.control_res) := by
  obtain ⟨_, _, hp⟩ := pos_change_code_ne hk hc
  rw [cache_control_not_answered k d s cmd arg env (posted_not_answered hk hp)] at hr
  obtain ⟨s1, hs1, _, hsc, _⟩ := control_posted_some k s cmd arg hp
  have hpc : control_pos_change k cmd = true := by
    unfold control_pos_change; simpa using hc
  rw [hs1] at hr
  cases hw : cache_control_wait k d s1 env with
  | none => rw [control_answer_waiting k d cmd arg env s1 s hw] at hr; simp at hr
  | some p =>
    obtain ⟨flag, s2⟩ := p
    obtain ⟨hcc, hint, _⟩ := cache_control_wait_spec k d env s1 flag s2 hw
    have hcache : s2.cache = s.cache := hcc.2.2.2.2.2.1.trans hsc.2.2.2.2.2.1
    cases flag with
    | true =>
      rw [control_answer_interrupted k d cmd arg env s1 s s2 hw] at hr
      simp only [Option.some.injEq] at hr
      subst hr
      obtain ⟨_, w, hw1, hw2⟩ := hint rfl
      refine ⟨fun h => absurd h (Ne.symm hk.2.2), fun _ => ⟨hcache, ?_, ?_, rfl⟩, fun h => ?_⟩
      · show s2.cache.pos = s.cache.pos
        rw [hcache]
      · show s2.cache.eof = s.cache.eof
        rw [hcache]
      · rw [h w hw1] at hw2; exact absurd hw2 (by decide)
    | false =>
      rw [control_answer_answered k d cmd arg env s1 s s2 hw] at hr
      by_cases hres : s2.control_res ≠ k.STREAM_OK
      · rw [if_pos hres] at hr
        simp only [Option.some.injEq] at hr
        subst hr
        refine ⟨fun h => absurd h hres, fun _ => ⟨hcache, ?_, ?_, rfl⟩, fun _ => rfl⟩
        · show s2.cache.pos = s.cache.pos
          rw [hcache]
        · show s2.cache.eof = s.cache.eof
          rw [hcache]
      · rw [if_neg hres] at hr
        simp only [Option.some.injEq] at hr
        subst hr
        have hres' : s2.control_res = k.STREAM_OK := not_not.1 hres
        have had : control_adopt k s2 cmd =
            { s2 with cache := { s2.cache with pos := s2.read_filepos, eof := s2.eof } } := by
          unfold control_adopt; rw [if_pos hpc]
        refine ⟨fun _ => ?_, fun h => ?_, fun _ => rfl⟩
        · show (control_adopt k s2 cmd).control_res = k.STREAM_OK ∧
            (control_adopt k s2 cmd).cache.pos = (control_adopt k s2 cmd).read_filepos ∧
            (control_adopt k s2 cmd).cache.eof = (control_adopt k s2 cmd).eof
          rw [had]
          exact ⟨hres', rfl, rfl⟩
        · exfalso
          apply h
          show (control_adopt k s2 cmd).control_res = k.STREAM_OK
          rw [had]
          exact hres'

/-- With the clock at 0 and a source that answers `STREAM_OK`, the Filler executes
a posted `STREAM_CTRL_SEEK_TO_TIME` at once. -/
theorem ex_exec_answers (s : cache_vars_t) (h1 : s.control = 6)
    (h2 : s.stream.control = true) (h3 : s.last = 0) :
    (cache_execute_control ex_consts s ex_exec_env).1 = 1 ∧
    (cache_execute_control ex_consts s ex_exec_env).2.control = -1 ∧
    (cache_execute_control ex_consts s ex_exec_env).2.control_res = 1 ∧
    (cache_execute_control ex_consts s ex_exec_env).2.read_filepos = 4096 ∧
    (cache_execute_control ex_consts s ex_exec_env).2.eof = s.stream.eof := by
  have hd := ex_exec_not_due s h3
  have hr := exec_refreshed_not_due ex_consts s ex_exec_env hd
  rw [cache_execute_control_eq, if_neg (by simp [h1, h2]),
    if_neg (fun h => hd (by simpa using h.1)), hr.2, if_neg (by rw [h1]; decide)]
  simp [exec_flush, exec_switch, exec_needs_flush, h1, ex_consts, ex_exec_env, cache_flush]

/-- One iteration of `cache_mainloop`: `cache_execute_control` runs in the state
`cache_fill` leaves, `idle` telling whether the fill read nothing. -/
theorem cache_mainloop_iter_eq (k : cache_consts) (d : Int → Nat) (s : cache_vars_t)
    (it : filler_iter) :
    cache_mainloop_iter k d s it =
      cache_execute_control k
        { (cache_fill s d it.rd).s with idle := decide ((cache_fill s d it.rd).ret = 0) }
        it.exec := by
  unfold cache_mainloop_iter
  simp only []
  split_ifs with h <;> simp [h]

/-- One iteration of the Filler in `ex_seek_posted` answers the request. -/
theorem ex_seek_mainloop :
    (cache_mainloop ex_consts ex_medium ex_seek_posted [ex_iter]).2.control = -1 ∧
    (cache_mainloop ex_consts ex_medium ex_seek_posted [ex_iter]).2.control_res = 1 ∧
    (cache_mainloop ex_consts ex_medium ex_seek_posted [ex_iter]).2.read_filepos = 4096 := by
  have hf := cache_fill_slot ex_seek_posted ex_medium ex_iter.rd
  have hit := cache_mainloop_iter_eq ex_consts ex_medium ex_seek_posted ex_iter
  have ha := ex_exec_answers
    { (cache_fill ex_seek_posted ex_medium ex_iter.rd).s with
      idle := decide ((cache_fill ex_seek_posted ex_medium ex_iter.rd).ret = 0) }
    hf.1 hf.2.2.2.1 hf.2.2.1
  have he : ex_iter.exec = ex_exec_env := rfl
  rw [he] at hit
  rw [← hit] at ha
  have hm : cache_mainloop ex_consts ex_medium ex_seek_posted [ex_iter] =
      (true, (cache_mainloop_iter ex_consts ex_medium ex_seek_posted ex_iter).2) := by
    unfold cache_mainloop
    simp only []
    rw [if_neg (by rw [ha.1]; decide)]
    unfold cache_mainloop
    rfl
  rw [hm]
  exact ⟨ha.2.1, ha.2.2.1, ha.2.2.2.1⟩

/-- The call `cache_control(STREAM_CTRL_SEEK_TO_TIME)` in `ex_idle`, the Filler
completing one iteration during the first sleep, returns `STREAM_OK`. -/
theorem ex_seek_call :
    cache_control ex_consts ex_medium ex_idle 6 ex_arg [⟨[ex_iter], false⟩] =
      some (1, ex_arg, ex_seek_done) := by
  have hm := ex_seek_mainloop
  have hp : control_posted ex_consts ex_idle 6 ex_arg = some ex_seek_posted := by
    unfold control_posted
    rw [if_pos (by decide)]
    rfl
  have hw : cache_control_wait ex_consts ex_medium ex_seek_posted [⟨[ex_iter], false⟩] =
      some (false, (cache_mainloop ex_consts ex_medium ex_seek_posted [ex_iter]).2) := by
    unfold cache_control_wait
    rw [if_pos (by decide)]
    simp only []
    rw [if_neg (by decide)]
    unfold cache_control_wait
    rw [if_neg (by rw [hm.1]; decide)]
  rw [cache_control_not_answered ex_consts ex_medium ex_idle 6 ex_arg _ (by decide), hp,
    control_answer_answered ex_consts ex_medium 6 ex_arg _ ex_seek_posted ex_idle _ hw,
    if_neg (by rw [hm.2.1]; decide)]
  have hres : (control_adopt ex_consts
      (cache_mainloop ex_consts ex_medium ex_seek_posted [ex_iter]).2 6).control_res = 1 := by
    unfold control_adopt
    rw [if_pos (by decide)]
    exact hm.2.1
  have harg : control_result_arg ex_consts (control_adopt ex_consts
      (cache_mainloop ex_consts ex_medium ex_seek_posted [ex_iter]).2 6) 6 ex_arg = ex_arg := by
    unfold control_result_arg
    rw [if_neg (by decide), if_neg (by decide), if_neg (by decide), if_neg (by decide),
      if_neg (by decide)]
  rw [hres, harg]
  rfl

/-- Witness of C13: in the spec scenario `cache_control(STREAM_CTRL_SEEK_TO_TIME)`
returns `STREAM_OK` after one iteration of the Filler, and the wrapper stream
stands at the position the Filler reports. -/
theorem C13_reader_position_change_witness :
    ((1 : Int) = ex_consts.STREAM_OK →
      ex_seek_done.control_res = ex_consts.STREAM_OK ∧
      ex_seek_done.cache.pos = ex_seek_done.read_filepos ∧
      ex_seek_done.cache.eof = ex_seek_done.eof) ∧
    ((1 : Int) ≠ ex_consts.STREAM_OK →
      ex_seek_done.cache = ex_idle.cache ∧ ex_seek_done.cache.pos = ex_idle.cache.pos ∧
      ex_seek_done.cache.eof = ex_idle.cache.eof ∧ ex_arg = ex_arg) ∧
    ((∀ w ∈ [(⟨[ex_iter], false⟩ : control_wait)], w.interrupted = false) →
      (1 : Int) = ex_seek_done.control_res) :=
  C13_reader_position_change ex_consts ex_medium ex_idle 6 ex_arg [⟨[ex_iter], false⟩]
    (1, ex_arg, ex_seek_done) ex_consts_ok (Or.inl rfl) ex_seek_call


/-- A wait that has not ended after the sleeps `pre` ends at the next poll when the
interruption fires there. -/
theorem cache_control_wait_interrupt (k : cache_consts) (d : Int → Nat) (w : control_wait)
    (rest : List control_wait) (hw : w.interrupted = true) :
    ∀ (pre : List control_wait) (s : cache_vars_t), cache_control_wait k d s pre = none →
      ∃ s2, cache_control_wait k d s (pre ++ w :: rest) = some (true, s2) := by
  intro pre
  induction pre with
  | nil =>
    intro s h
    unfold cache_control_wait at h
    split_ifs at h with c
    refine ⟨{ (cache_mainloop k d s w.iters).2 with eof := true }, ?_⟩
    rw [List.nil_append]
    unfold cache_control_wait
    rw [if_pos c]
    simp only []
    rw [if_pos hw]
  | cons w1 pre ih =>
    intro s h
    unfold cache_control_wait at h
    split_ifs at h with c ci
    obtain ⟨s2, h2⟩ := ih _ h
    refine ⟨s2, ?_⟩
    rw [List.cons_append]
    unfold cache_control_wait
    rw [if_pos c]
    simp only []
    rw [if_neg ci]
    exact h2

/-- While the Filler completes no iteration and no interruption fires, the wait
does not end. -/
theorem cache_control_wait_stalled (k : cache_consts) (d : Int → Nat) :
    ∀ (env : List control_wait) (s : cache_vars_t), s.control ≠ -1 →
      (∀ w ∈ env, w.interrupted = false ∧ w.iters = []) →
      cache_control_wait k d s env = none := by
  intro env
  induction env with
  | nil =>
    intro s hs _
    unfold cache_control_wait
    rw [if_pos hs]
  | cons w env ih =>
    intro s hs h
    obtain ⟨h1, h2⟩ := h w (List.mem_cons_self _ _)
    unfold cache_control_wait
    rw [if_pos hs]
    simp only []
    rw [if_neg (by rw [h1]; decide), h2]
    exact ih _ hs (fun w' hw' => h w' (List.mem_cons_of_mem _ hw'))

/-- A call of `cache_control` for a posted command that returns without an
interruption returns with the control slot free. -/
theorem cache_control_returns_free (k : cache_consts) (d : Int → Nat) (s : cache_vars_t)
    (cmd : Int) (arg : ctrl_arg) (hk : consts_ok k) (hc : cmd ∈ posted_labels k)
    (env : List control_wait) (r : Int × ctrl_arg × cache_vars_t)
    (henv : ∀ w ∈ env, w.interrupted = false)
    (hr : cache_control k d s cmd arg env = some r) : r.2.2.control = -1 := by
  have hna := posted_not_answered hk hc
  obtain ⟨s1, hs1, _⟩ := control_posted_some k s cmd arg hc
  rw [cache_control_not_answered k d s cmd arg env hna, hs1] at hr
  cases h : cache_control_wait k d s1 env with
  | none => rw [control_answer_waiting k d cmd arg env s1 s h] at hr; simp at hr
  | some p =>
    obtain ⟨flag, s2⟩ := p
    obtain ⟨_, hint, hfree⟩ := cache_control_wait_spec k d env s1 flag s2 h
    cases flag with
    | true =>
      obtain ⟨_, w, hw1, hw2⟩ := hint rfl
      rw [henv w hw1] at hw2
      exact absurd hw2 (by decide)
    | false =>
      rw [control_answer_answered k d cmd arg env s1 s s2 h] at hr
      have hf := hfree rfl
      split_ifs at hr with c
      · simp only [Option.some.injEq] at hr
        subst hr
        exact hf
      · simp only [Option.some.injEq] at hr
        subst hr
        show (control_adopt k s2 cmd).control = -1
        unfold control_adopt
        split_ifs
        · exact hf
        · exact hf

/-- C14. Interruption during the wait of `cache_control`.  For every posted command:
if the call is still waiting after the sleeps `pre` and the caller's interruption
fires at the next poll, the call returns `STREAM_UNSUPPORTED` with `eof` set, the
caller's argument as it was and the wrapper stream (its `pos` in particular)
unchanged.  If no interruption fires and the Filler does not answer, the call has
not returned after any number of polls; and a call that returns without an
interruption returns with the slot freed by the Filler. -/
theorem C14_control_interrupted (k : cache_consts) (d : Int → Nat) (s : cache_vars_t)
    (cmd : Int) (arg : ctrl_arg) (hk : consts_ok k) (hc : cmd ∈ posted_labels k) :
    (∀ (pre : List control_wait) (w : control_wait) (rest : List control_wait),
      cache_control k d s cmd arg pre = none → w.interrupted = true →
      ∃ s2, cache_control k d s cmd arg (pre ++ w :: rest) =
          some (k.STREAM_UNSUPPORTED, arg, s2) ∧
        s2.eof = true ∧ s2.cache = s.cache ∧ s2.cache.pos = s.cache.pos) ∧
    (∀ env : List control_wait, (∀ w ∈ env, w.interrupted = false ∧ w.iters = []) →
      cache_control k d s cmd arg env = none) ∧
    (∀ (env : List control_wait) (r : Int × ctrl_arg × cache_vars_t),
      (∀ w ∈ env, w.interrupted = false) → cache_control k d s cmd arg env = some r →
      r.2.2.control = -1) := by
  have hna := posted_not_answered hk hc
  obtain ⟨s1, hs1, hctl, hsc, _⟩ := control_posted_some k s cmd arg hc
  have hne : s1.control ≠ -1 := by
    rw [hctl]
    intro h
    apply hk.2.1
    rw [← h]
    unfold control_labels
    exact List.mem_append_right _ hc
  refine ⟨?_, ?_, ?_⟩
  · intro pre w rest hpre hw
    rw [cache_control_not_answered k d s cmd arg pre hna, hs1] at hpre
    have hwait : cache_control_wait k d s1 pre = none := by
      cases h : cache_control_wait k d s1 pre with
      | none => rfl
      | some p =>
        obtain ⟨flag, s2⟩ := p
        cases flag with
        | true =>
          rw [control_answer_interrupted k d cmd arg pre s1 s s2 h] at hpre
          simp at hpre
        | false =>
          rw [control_answer_answered k d cmd arg pre s1 s s2 h] at hpre
          split_ifs at hpre
    obtain ⟨s2, h2⟩ := cache_control_wait_interrupt k d w rest hw pre s1 hwait
    obtain ⟨hcc, hint, _⟩ := cache_control_wait_spec k d _ s1 true s2 h2
    have hcache : s2.cache = s.cache := hcc.2.2.2.2.2.1.trans hsc.2.2.2.2.2.1
    refine ⟨s2, ?_, (hint rfl).1, hcache, by rw [hcache]⟩
    rw [cache_control_not_answered k d s cmd arg _ hna, hs1,
      control_answer_interrupted k d cmd arg _ s1 s s2 h2]
  · intro env henv
    rw [cache_control_not_answered k d s cmd arg env hna, hs1,
      control_answer_waiting k d cmd arg env s1 s
        (cache_control_wait_stalled k d env s1 hne henv)]
  · intro env r henv hr
    exact cache_control_returns_free k d s cmd arg hk hc env r henv hr

/-- Witness of C14: in the spec scenario with `STREAM_CTRL_SEEK_TO_TIME`, the call is
waiting before its first poll; an interruption at the first poll ends it, and
1001 polls without an answer or an interruption do not. -/
theorem C14_control_interrupted_witness :
    (∃ s2, cache_control ex_consts ex_medium ex_idle 6 ex_arg ([] ++ ⟨[], true⟩ :: []) =
        some (ex_consts.STREAM_UNSUPPORTED, ex_arg, s2) ∧
      s2.eof = true ∧ s2.cache = ex_idle.cache ∧ s2.cache.pos = ex_idle.cache.pos) ∧
    cache_control ex_consts ex_medium ex_idle 6 ex_arg
      (List.replicate 1001 ⟨[], false⟩) = none :=
  ⟨(C14_control_interrupted ex_consts ex_medium ex_idle 6 ex_arg ex_consts_ok (by decide)).1
      [] ⟨[], true⟩ [] rfl rfl,
    (C14_control_interrupted ex_consts ex_medium ex_idle 6 ex_arg ex_consts_ok (by decide)).2.1
      (List.replicate 1001 ⟨[], false⟩)
      (fun w hw => by rw [List.eq_of_mem_replicate hw]; exact ⟨rfl, rfl⟩)⟩

/-- Every call of `cache_execute_control` that returns 1 leaves the control slot
free. -/
theorem cache_execute_control_frees (k : cache_consts) (s : cache_vars_t) (e : exec_env)
    (h : (cache_execute_control k s e).1 = 1) : (cache_execute_control k s e).2.control = -1 := by
  rw [cache_execute_control_eq] at h ⊢
  by_cases c1 : decide (s.control = -2) = true ∨ s.stream.control = false
  · rw [if_pos c1]
  rw [if_neg c1] at h ⊢
  by_cases c2 : decide (e.now - s.last > refresh_threshold) = true ∧ (exec_times k s e).ppid ≠ e.ppid
  · rw [if_pos c2] at h
    have h0 : (0 : Int) = 1 := h
    exact absurd h0 (by decide)
  rw [if_neg c2]
  by_cases c3 : (exec_refreshed k s e).control = -1
  · rw [if_pos c3]; exact c3
  · rw [if_neg c3]

/-- A call of `cache_control` for a posted command that is interrupted at its first
poll, before the Filler ran, returns with the command in the control slot. -/
theorem cache_control_leaves_pending (k : cache_consts) (d : Int → Nat) (s : cache_vars_t)
    (cmd : Int) (arg : ctrl_arg) (hk : consts_ok k) (hc : cmd ∈ posted_labels k)
    (rest : List control_wait) :
    ∃ s2, cache_control k d s cmd arg (⟨[], true⟩ :: rest) =
        some (k.STREAM_UNSUPPORTED, arg, s2) ∧ s2.control = cmd := by
  have hna := posted_not_answered hk hc
  obtain ⟨s1, hs1, hctl, _⟩ := control_posted_some k s cmd arg hc
  have hne : s1.control ≠ -1 := by
    rw [hctl]
    intro h
    apply hk.2.1
    rw [← h]
    unfold control_labels
    exact List.mem_append_right _ hc
  have hw : cache_control_wait k d s1 (⟨[], true⟩ :: rest) =
      some (true, { s1 with eof := true }) := by
    unfold cache_control_wait
    rw [if_pos hne]
    rfl
  refine ⟨{ s1 with eof := true }, ?_, hctl⟩
  rw [cache_control_not_answered k d s cmd arg _ hna, hs1,
    control_answer_interrupted k d cmd arg _ s1 s _ hw]

/-- C15 (amended). The control slot.  For every posted command `cache_control`
writes the command into the slot whatever the slot holds; it does not wait for
the slot to be free, so a call interrupted at its first poll leaves its command
in the slot, also when a request was pending there.  A call that returns without
an interruption leaves the slot free, and so does every call of
`cache_execute_control` that returns 1.  In the state `cache_init` produces the
slot holds 0. -/
theorem C15_control_slot (k : cache_consts) (d : Int → Nat) (s : cache_vars_t)
    (cmd : Int) (arg : ctrl_arg) (hk : consts_ok k) (hc : cmd ∈ posted_labels k) :
    (∃ s1, control_posted k s cmd arg = some s1 ∧ s1.control = cmd) ∧
    (∀ rest : List control_wait,
      ∃ s2, cache_control k d s cmd arg (⟨[], true⟩ :: rest) =
          some (k.STREAM_UNSUPPORTED, arg, s2) ∧ s2.control = cmd) ∧
    (∀ (env : List control_wait) (r : Int × ctrl_arg × cache_vars_t),
      (∀ w ∈ env, w.interrupted = false) → cache_control k d s cmd arg env = some r →
      r.2.2.control = -1) ∧
    (∀ e : exec_env, (cache_execute_control k s e).1 = 1 →
      (cache_execute_control k s e).2.control = -1) ∧
    (∀ (size sector pid : Int) (av ab : Bool) (s0 : cache_vars_t),
      cache_init size sector av ab pid = some s0 → s0.control = 0) := by
  refine ⟨?_, cache_control_leaves_pending k d s cmd arg hk hc,
    cache_control_returns_free k d s cmd arg hk hc,
    fun e => cache_execute_control_frees k s e, ?_⟩
  · obtain ⟨s1, hs1, hctl, _⟩ := control_posted_some k s cmd arg hc
    exact ⟨s1, hs1, hctl⟩
  · intro size sector pid av ab s0 h
    unfold cache_init at h
    split_ifs at h
    simp only [Option.some.injEq] at h
    rw [← h]

/-- Witness of C15: in the state `ex_pending`, whose slot holds
`STREAM_CTRL_SEEK_TO_TIME`, a call for `STREAM_CTRL_SEEK_TO_CHAPTER` that is
interrupted at its first poll returns with `STREAM_CTRL_SEEK_TO_CHAPTER` in the
slot. -/
theorem C15_control_slot_witness :
    ∃ s2, cache_control ex_consts ex_medium ex_pending 2 ex_arg [⟨[], true⟩] =
        some (ex_consts.STREAM_UNSUPPORTED, ex_arg, s2) ∧ s2.control = 2 :=
  (C15_control_slot ex_consts ex_medium ex_pending 2 ex_arg ex_consts_ok (by decide)).2.1 []

/-- Counterexample to C15 as stated.  The call for `STREAM_CTRL_SEEK_TO_TIME` (6) in
`ex_idle`, interrupted at its first poll, returns -1 in the state `ex_pending`
with the request 6 pending in the slot.  The next call, for
`STREAM_CTRL_SEEK_TO_CHAPTER` (2), finds the slot occupied and nevertheless writes
2 into it: the pending request is overwritten.  And the state `cache_init`
produces has 0 in the slot, not -1. -/
theorem C15_counterexample :
    cache_control ex_consts ex_medium ex_idle 6 ex_arg [⟨[], true⟩] =
      some (-1, ex_arg, ex_pending) ∧
    ex_pending.control = 6 ∧ ex_pending.control ≠ -1 ∧
    (cache_control ex_consts ex_medium ex_pending 2 ex_arg [⟨[], true⟩]).map
      (fun r => (r.1, r.2.2.control)) = some (-1, 2) ∧
    (cache_init 65536 2048 true true 1000).map (fun s => s.control) = some 0 ∧
    ((cache_init 65536 2048 true true 1000).map (fun s => s.control) ≠ some (-1)) := by
  refine ⟨rfl, rfl, by decide, by decide, by decide, by decide⟩

/-- A command that no case label of `cache_control` lists is not posted. -/
theorem control_posted_none (k : cache_consts) (s : cache_vars_t) (cmd : Int) (arg : ctrl_arg)
    (hc : cmd ∉ posted_labels k) : control_posted k s cmd arg = none := by
  simp only [posted_labels, List.mem_cons, List.mem_singleton, List.not_mem_nil, or_false,
    not_or] at hc
  obtain ⟨h1, h2, h3, h4, h5, h6, h7, h8, h9, h10, h11, h12, h13, h14, h15, h16⟩ := hc
  unfold control_posted
  rw [if_neg h1, if_neg (by tauto), if_neg h4, if_neg h5, if_neg h6, if_neg (by tauto)]

/-- The `switch` of `cache_execute_control` on a code it does not list: only
`control_res` is written. -/
theorem exec_switch_default (k : cache_consts) (s : cache_vars_t) (e : exec_env)
    (hc : s.control ∉ exec_labels k) :
    exec_switch k s e = { s with control_res := k.STREAM_UNSUPPORTED } ∧
    exec_needs_flush k s = false := by
  simp only [exec_labels, List.mem_cons, List.mem_singleton, List.not_mem_nil, or_false,
    not_or] at hc
  obtain ⟨h1, h2, h3, h4, h5, h6, h7, h8, h9, h10, h11, h12, h13, h14, h15, h16, h17⟩ := hc
  constructor
  · unfold exec_switch
    simp only []
    rw [if_neg (by tauto), if_neg (by tauto), if_neg (by tauto), if_neg h14, if_neg h15,
      if_neg h16, if_neg h17]
  · unfold exec_needs_flush
    simp only [decide_eq_false_iff_not]
    tauto

/-- C16. Unknown control codes.  For every command that no case label of
`cache_control` lists, the call returns `STREAM_UNSUPPORTED` with the caller's
argument and the whole cache state unchanged, whatever the sleeps.  For every
posted code that no case label of `cache_execute_control` lists, in a call that
does not end at the check of the parent process (cache.c:305-309): the result
`control_res` is `STREAM_UNSUPPORTED`; `min_filepos`, `max_filepos`, `offset`,
`read_filepos` and `eof` are unchanged; the slot is freed; and the source is not
asked to execute the code, the state being the one the refresh of the cached
times leaves (or, for a source without control callback or for the quit code,
the state of entry with the cached length and position cleared) with only
`control_res` and `control` written. -/
theorem C16_unknown_codes (k : cache_consts) (d : Int → Nat) :
    (∀ (s : cache_vars_t) (cmd : Int) (arg : ctrl_arg) (env : List control_wait),
      cmd ∉ control_labels k →
      cache_control k d s cmd arg env = some (k.STREAM_UNSUPPORTED, arg, s)) ∧
    (∀ (s : cache_vars_t) (e : exec_env),
      s.control ∉ exec_labels k → s.control ≠ -1 →
      ¬ (e.now - s.last > refresh_threshold ∧ s.ppid ≠ e.ppid) →
      (cache_execute_control k s e).2.control_res = k.STREAM_UNSUPPORTED ∧
      (cache_execute_control k s e).2.min_filepos = s.min_filepos ∧
      (cache_execute_control k s e).2.max_filepos = s.max_filepos ∧
      (cache_execute_control k s e).2.offset = s.offset ∧
      (cache_execute_control k s e).2.read_filepos = s.read_filepos ∧
      (cache_execute_control k s e).2.eof = s.eof ∧
      (cache_execute_control k s e).2.control = -1 ∧
      (s.stream.control = true ∧ s.control ≠ -2 →
        cache_execute_control k s e =
          (1, { exec_refreshed k s e with
                control_res := k.STREAM_UNSUPPORTED, control := -1 })) ∧
      (¬ (s.stream.control = true ∧ s.control ≠ -2) →
        cache_execute_control k s e =
          ((if s.control = -2 then 0 else 1),
            { s with stream_time_length := 0, stream_time_pos := k.MP_NOPTS_VALUE,
                     control_res := k.STREAM_UNSUPPORTED, control := -1 })) ∧
      (¬ e.now - s.last > refresh_threshold → (cache_execute_control k s e).2.stream = s.stream)) := by
  constructor
  · intro s cmd arg env hc
    unfold control_labels at hc
    rw [List.mem_append, not_or] at hc
    rw [cache_control_not_answered k d s cmd arg env hc.1, control_posted_none k s cmd arg hc.2]
    rfl
  · intro s e hc hfree hp
    by_cases c1 : decide (s.control = -2) = true ∨ s.stream.control = false
    · have heq : cache_execute_control k s e =
          ((if s.control = -2 then 0 else 1),
            { s with stream_time_length := 0, stream_time_pos := k.MP_NOPTS_VALUE,
                     control_res := k.STREAM_UNSUPPORTED, control := -1 }) := by
        rw [cache_execute_control_eq, if_pos c1]
        by_cases hq : s.control = -2 <;> simp [hq]
      have hn : ¬ (s.stream.control = true ∧ s.control ≠ -2) := by
        rintro ⟨a, b⟩
        rcases c1 with c | c
        · exact b (by simpa using c)
        · rw [a] at c; exact absurd c (by decide)
      rw [heq]
      exact ⟨rfl, rfl, rfl, rfl, rfl, rfl, rfl, fun h => absurd h hn, fun _ => rfl, fun _ => rfl⟩
    · have hy : s.stream.control = true ∧ s.control ≠ -2 := by
        rw [not_or] at c1
        refine ⟨by simpa using c1.2, by simpa using c1.1⟩
      have hpp := (exec_times_ppid k s e).1
      have hf := exec_refreshed_fields k s e
      have hsw := exec_switch_default k (exec_refreshed k s e) e (by rw [hf.2.2.2.2.2.2.2.2.2.2.2]; exact hc)
      have heq : cache_execute_control k s e =
          (1, { exec_refreshed k s e with
                control_res := k.STREAM_UNSUPPORTED, control := -1 }) := by
        rw [cache_execute_control_eq, if_neg c1,
          if_neg (fun h => hp ⟨by simpa using h.1, by rw [← hpp]; exact h.2⟩),
          if_neg (by rw [hf.2.2.2.2.2.2.2.2.2.2.2]; exact hfree), hsw.1, hsw.2]
        unfold exec_flush
        rw [if_neg (by simp)]
      rw [heq]
      refine ⟨rfl, hf.2.2.2.2.2.2.1, hf.2.2.2.2.2.2.2.1, hf.2.2.2.2.2.2.2.2.1,
        hf.2.2.2.2.2.2.2.2.2.1, hf.2.2.2.2.2.2.2.2.2.2.1, rfl, fun _ => rfl,
        fun h => absurd hy h, fun hd => ?_⟩
      show (exec_refreshed k s e).stream = s.stream
      rw [(exec_refreshed_not_due k s e hd).2]

/-- Witness of C16: in the spec scenario `cache_control(99)` returns
`STREAM_UNSUPPORTED` in the unchanged state, and the Filler answers a posted 99
with `STREAM_UNSUPPORTED`, replacing the earlier result. -/
theorem C16_unknown_codes_witness :
    cache_control ex_consts ex_medium ex_fresh 99 ex_arg [] =
      some (ex_consts.STREAM_UNSUPPORTED, ex_arg, ex_fresh) ∧
    (cache_execute_control ex_consts ex_unknown_posted ex_exec_env).2.control_res =
      ex_consts.STREAM_UNSUPPORTED ∧
    (cache_execute_control ex_consts ex_unknown_posted ex_exec_env).2.min_filepos =
      ex_unknown_posted.min_filepos :=
  ⟨(C16_unknown_codes ex_consts ex_medium).1 ex_fresh 99 ex_arg [] (by decide),
    ((C16_unknown_codes ex_consts ex_medium).2 ex_unknown_posted ex_exec_env (by decide)
      (by decide) (fun h => ex_exec_not_due ex_unknown_posted rfl h.1)).1,
    ((C16_unknown_codes ex_consts ex_medium).2 ex_unknown_posted ex_exec_env (by decide)
      (by decide) (fun h => ex_exec_not_due ex_unknown_posted rfl h.1)).2.1⟩

/-- The answers of `cache_control` to the three time queries: the cached field,
in the unchanged state. -/
theorem cache_control_times (k : cache_consts) (d : Int → Nat) (s : cache_vars_t)
    (arg : ctrl_arg) (env : List control_wait) (hk : consts_ok k) :
    cache_control k d s k.STREAM_CTRL_GET_TIME_LENGTH arg env =
      some ((if s.stream_time_length ≠ 0 then k.STREAM_OK else k.STREAM_UNSUPPORTED),
        { arg with dbl := s.stream_time_length }, s) ∧
    cache_control k d s k.STREAM_CTRL_GET_CURRENT_TIME arg env =
      some ((if s.stream_time_pos ≠ k.MP_NOPTS_VALUE then k.STREAM_OK
          else k.STREAM_UNSUPPORTED),
        { arg with dbl := s.stream_time_pos }, s) ∧
    cache_control k d s k.STREAM_CTRL_GET_START_TIME arg env =
      some ((if s.stream_start_time ≠ k.MP_NOPTS_VALUE then k.STREAM_OK
          else k.STREAM_UNSUPPORTED),
        { arg with dbl := s.stream_start_time }, s) := by
  have hn := answered_nodup hk
  simp only [answered_labels, List.nodup_cons, List.mem_cons, List.mem_singleton, not_or,
    List.not_mem_nil, not_false_eq_true, List.nodup_nil, and_true] at hn
  obtain ⟨⟨_, _, ad, ae, af⟩, ⟨_, bd, be, bf⟩, ⟨cd, ce, cf⟩, ⟨de, df⟩, ef⟩ := hn
  refine ⟨?_, ?_, ?_⟩
  · rw [cache_control_eq, if_neg (Ne.symm ad), if_neg (Ne.symm bd), if_neg (Ne.symm cd),
      if_pos rfl]
  · rw [cache_control_eq, if_neg (Ne.symm ae), if_neg (Ne.symm be), if_neg (Ne.symm ce),
      if_neg (Ne.symm de), if_pos rfl]
  · rw [cache_control_eq, if_neg (Ne.symm af), if_neg (Ne.symm bf), if_neg (Ne.symm cf),
      if_neg (Ne.symm df), if_neg (Ne.symm ef), if_pos rfl]

theorem exec_switch_times (k : cache_consts) (s : cache_vars_t) (e : exec_env) :
    (exec_switch k s e).stream_time_length = s.stream_time_length ∧
    (exec_switch k s e).stream_time_pos = s.stream_time_pos ∧
    (exec_switch k s e).stream_start_time = s.stream_start_time ∧
    (exec_switch k s e).last = s.last := by
  unfold exec_switch
  simp only []
  split_ifs <;> exact ⟨rfl, rfl, rfl, rfl⟩

theorem exec_flush_times (k : cache_consts) (t : cache_vars_t) (nf : Bool) :
    (exec_flush k t nf).stream_time_length = t.stream_time_length ∧
    (exec_flush k t nf).stream_time_pos = t.stream_time_pos ∧
    (exec_flush k t nf).stream_start_time = t.stream_start_time ∧
    (exec_flush k t nf).last = t.last := by
  unfold exec_flush
  split_ifs <;> exact ⟨rfl, rfl, rfl, rfl⟩

/-- With a control callback and no quit request, the cached times after
`cache_execute_control` are those after its refresh block. -/
theorem cache_execute_control_times (k : cache_consts) (s : cache_vars_t) (e : exec_env)
    (hc : s.stream.control = true) (hq : s.control ≠ -2) :
    (cache_execute_control k s e).2.stream_time_length = (exec_times k s e).stream_time_length ∧
    (cache_execute_control k s e).2.stream_time_pos = (exec_times k s e).stream_time_pos ∧
    (cache_execute_control k s e).2.stream_start_time = (exec_times k s e).stream_start_time := by
  have c1 : ¬ (decide (s.control = -2) = true ∨ s.stream.control = false) := by
    rw [hc]; simpa using hq
  have hr : (exec_refreshed k s e).stream_time_length = (exec_times k s e).stream_time_length ∧
      (exec_refreshed k s e).stream_time_pos = (exec_times k s e).stream_time_pos ∧
      (exec_refreshed k s e).stream_start_time = (exec_times k s e).stream_start_time := by
    unfold exec_refreshed
    split_ifs <;> exact ⟨rfl, rfl, rfl⟩
  have h1 := exec_switch_times k (exec_refreshed k s e) e
  have h2 := exec_flush_times k (exec_switch k (exec_refreshed k s e) e)
    (exec_needs_flush k (exec_refreshed k s e))
  rw [cache_execute_control_eq, if_neg c1]
  by_cases c2 : decide (e.now - s.last > refresh_threshold) = true ∧ (exec_times k s e).ppid ≠ e.ppid
  · rw [if_pos c2]; exact ⟨rfl, rfl, rfl⟩
  rw [if_neg c2]
  by_cases c3 : (exec_refreshed k s e).control = -1
  · rw [if_pos c3]; exact hr
  rw [if_neg c3]
  exact ⟨(h2.1.trans h1.1).trans hr.1, (h2.2.1.trans h1.2.1).trans hr.2.1,
    (h2.2.2.1.trans h1.2.2.1).trans hr.2.2⟩

/-- C17 (amended). Time queries.  `cache_control` answers
`STREAM_CTRL_GET_TIME_LENGTH`, `STREAM_CTRL_GET_CURRENT_TIME` and
`STREAM_CTRL_GET_START_TIME` with the cached field, in the unchanged state (nothing
is posted, no sleep is taken), so a second call in any state with the same cached
fields returns the same value and code.  For a source with a control callback
and no quit request posted, `cache_execute_control` stores the answers of the
source to the three queries when the `double` difference of the clock and `last`
is greater than the `double` constant 0.099 (the exact difference is above
`refresh_threshold`, a little more than 99 ms), and otherwise leaves the cached
fields as they are, asking the source nothing when no request is posted.  For a
source without control callback, or with the quit request posted, it asks the
source nothing whatever the clock shows, and clears the cached length and
position. -/
theorem C17_time_queries (k : cache_consts) (d : Int → Nat) (s : cache_vars_t)
    (e : exec_env) (hk : consts_ok k) :
    (∀ (arg : ctrl_arg) (env : List control_wait),
      cache_control k d s k.STREAM_CTRL_GET_TIME_LENGTH arg env =
        some ((if s.stream_time_length ≠ 0 then k.STREAM_OK else k.STREAM_UNSUPPORTED),
          { arg with dbl := s.stream_time_length }, s) ∧
      cache_control k d s k.STREAM_CTRL_GET_CURRENT_TIME arg env =
        some ((if s.stream_time_pos ≠ k.MP_NOPTS_VALUE then k.STREAM_OK
            else k.STREAM_UNSUPPORTED),
          { arg with dbl := s.stream_time_pos }, s) ∧
      cache_control k d s k.STREAM_CTRL_GET_START_TIME arg env =
        some ((if s.stream_start_time ≠ k.MP_NOPTS_VALUE then k.STREAM_OK
            else k.STREAM_UNSUPPORTED),
          { arg with dbl := s.stream_start_time }, s)) ∧
    (∀ (t : cache_vars_t) (cmd : Int) (arg : ctrl_arg) (env env2 : List control_wait),
      cmd = k.STREAM_CTRL_GET_TIME_LENGTH ∨ cmd = k.STREAM_CTRL_GET_CURRENT_TIME ∨
        cmd = k.STREAM_CTRL_GET_START_TIME →
      t.stream_time_length = s.stream_time_length → t.stream_time_pos = s.stream_time_pos →
      t.stream_start_time = s.stream_start_time →
      (cache_control k d t cmd arg env2).map (fun r => (r.1, r.2.1)) =
        (cache_control k d s cmd arg env).map (fun r => (r.1, r.2.1))) ∧
    (s.stream.control = true → s.control ≠ -2 → e.now - s.last > refresh_threshold →
      (cache_execute_control k s e).2.stream_time_length =
        (if (e.control s.stream k.STREAM_CTRL_GET_TIME_LENGTH
              { dbl := 0, uint := 0, lang := 0, dvd_info := 0 }).1 = k.STREAM_OK then
          (e.control s.stream k.STREAM_CTRL_GET_TIME_LENGTH
            { dbl := 0, uint := 0, lang := 0, dvd_info := 0 }).2.1.dbl
         else 0) ∧
      (cache_execute_control k s e).2.stream_time_pos =
        (if (e.control
              (e.control s.stream k.STREAM_CTRL_GET_TIME_LENGTH
                { dbl := 0, uint := 0, lang := 0, dvd_info := 0 }).2.2
              k.STREAM_CTRL_GET_CURRENT_TIME
              { dbl := 0, uint := 0, lang := 0, dvd_info := 0 }).1 = k.STREAM_OK then
          (e.control
              (e.control s.stream k.STREAM_CTRL_GET_TIME_LENGTH
                { dbl := 0, uint := 0, lang := 0, dvd_info := 0 }).2.2
              k.STREAM_CTRL_GET_CURRENT_TIME
              { dbl := 0, uint := 0, lang := 0, dvd_info := 0 }).2.1.dbl
         else k.MP_NOPTS_VALUE) ∧
      (cache_execute_control k s e).2.stream_start_time =
        (if (e.control
              (e.control
                (e.control s.stream k.STREAM_CTRL_GET_TIME_LENGTH
                  { dbl := 0, uint := 0, lang := 0, dvd_info := 0 }).2.2
                k.STREAM_CTRL_GET_CURRENT_TIME
                { dbl := 0, uint := 0, lang := 0, dvd_info := 0 }).2.2
              k.STREAM_CTRL_GET_START_TIME
              { dbl := 0, uint := 0, lang := 0, dvd_info := 0 }).1 = k.STREAM_OK then
          (e.control
              (e.control
                (e.control s.stream k.STREAM_CTRL_GET_TIME_LENGTH
                  { dbl := 0, uint := 0, lang := 0, dvd_info := 0 }).2.2
                k.STREAM_CTRL_GET_CURRENT_TIME
                { dbl := 0, uint := 0, lang := 0, dvd_info := 0 }).2.2
              k.STREAM_CTRL_GET_START_TIME
              { dbl := 0, uint := 0, lang := 0, dvd_info := 0 }).2.1.dbl
         else k.MP_NOPTS_VALUE) ∧
      (s.ppid = e.ppid → (cache_execute_control k s e).2.last = e.now2)) ∧
    (s.stream.control = true → s.control ≠ -2 → ¬ e.now - s.last > refresh_threshold →
      (cache_execute_control k s e).2.stream_time_length = s.stream_time_length ∧
      (cache_execute_control k s e).2.stream_time_pos = s.stream_time_pos ∧
      (cache_execute_control k s e).2.stream_start_time = s.stream_start_time ∧
      (cache_execute_control k s e).2.last = s.last ∧
      (s.control = -1 → cache_execute_control k s e = (1, s))) ∧
    (¬ (s.stream.control = true ∧ s.control ≠ -2) →
      cache_execute_control k s e =
        ((if s.control = -2 then 0 else 1),
          { s with stream_time_length := 0, stream_time_pos := k.MP_NOPTS_VALUE,
                   control_res := k.STREAM_UNSUPPORTED, control := -1 })) := by
  have hc1 : s.stream.control = true → s.control ≠ -2 →
      ¬ (decide (s.control = -2) = true ∨ s.stream.control = false) := by
    intro hc hq
    rw [hc]; simpa using hq
  refine ⟨fun arg env => cache_control_times k d s arg env hk, ?_, ?_, ?_, ?_⟩
  · intro t cmd arg env env2 hcmd h1 h2 h3
    have hs := cache_control_times k d s arg env hk
    have ht' := cache_control_times k d t arg env2 hk
    rcases hcmd with h | h | h
    · rw [h, hs.1, ht'.1, h1]; rfl
    · rw [h, hs.2.1, ht'.2.1, h2]; rfl
    · rw [h, hs.2.2, ht'.2.2, h3]; rfl
  · intro hc hq hd
    have ht := cache_execute_control_times k s e hc hq
    have c1 := hc1 hc hq
    have hx : exec_times k s e =
        { s with
          stream := (e.control
              (e.control
                (e.control s.stream k.STREAM_CTRL_GET_TIME_LENGTH
                  { dbl := 0, uint := 0, lang := 0, dvd_info := 0 }).2.2
                k.STREAM_CTRL_GET_CURRENT_TIME
                { dbl := 0, uint := 0, lang := 0, dvd_info := 0 }).2.2
              k.STREAM_CTRL_GET_START_TIME
              { dbl := 0, uint := 0, lang := 0, dvd_info := 0 }).2.2
          stream_time_length :=
            (if (e.control s.stream k.STREAM_CTRL_GET_TIME_LENGTH
                  { dbl := 0, uint := 0, lang := 0, dvd_info := 0 }).1 = k.STREAM_OK then
              (e.control s.stream k.STREAM_CTRL_GET_TIME_LENGTH
                { dbl := 0, uint := 0, lang := 0, dvd_info := 0 }).2.1.dbl
             else 0)
          stream_time_pos :=
            (if (e.control
                  (e.control s.stream k.STREAM_CTRL_GET_TIME_LENGTH
                    { dbl := 0, uint := 0, lang := 0, dvd_info := 0 }).2.2
                  k.STREAM_CTRL_GET_CURRENT_TIME
                  { dbl := 0, uint := 0, lang := 0, dvd_info := 0 }).1 = k.STREAM_OK then
              (e.control
                  (e.control s.stream k.STREAM_CTRL_GET_TIME_LENGTH
                    { dbl := 0, uint := 0, lang := 0, dvd_info := 0 }).2.2
                  k.STREAM_CTRL_GET_CURRENT_TIME
                  { dbl := 0, uint := 0, lang := 0, dvd_info := 0 }).2.1.dbl
             else k.MP_NOPTS_VALUE)
          stream_start_time :=
            (if (e.control
                  (e.control
                    (e.control s.stream k.STREAM_CTRL_GET_TIME_LENGTH
                      { dbl := 0, uint := 0, lang := 0, dvd_info := 0 }).2.2
                    k.STREAM_CTRL_GET_CURRENT_TIME
                    { dbl := 0, uint := 0, lang := 0, dvd_info := 0 }).2.2
                  k.STREAM_CTRL_GET_START_TIME
                  { dbl := 0, uint := 0, lang := 0, dvd_info := 0 }).1 = k.STREAM_OK then
              (e.control
                  (e.control
                    (e.control s.stream k.STREAM_CTRL_GET_TIME_LENGTH
                      { dbl := 0, uint := 0, lang := 0, dvd_info := 0 }).2.2
                    k.STREAM_CTRL_GET_CURRENT_TIME
                    { dbl := 0, uint := 0, lang := 0, dvd_info := 0 }).2.2
                  k.STREAM_CTRL_GET_START_TIME
                  { dbl := 0, uint := 0, lang := 0, dvd_info := 0 }).2.1.dbl
             else k.MP_NOPTS_VALUE) } := by
      unfold exec_times
      simp only []
      rw [if_pos (by simpa using hd)]
    refine ⟨?_, ?_, ?_, ?_⟩
    · rw [ht.1, hx]
    · rw [ht.2.1, hx]
    · rw [ht.2.2, hx]
    · intro hpp
      have hpp' := (exec_times_ppid k s e).1
      have hl : (exec_refreshed k s e).last = e.now2 := by
        unfold exec_refreshed
        rw [if_pos (by simpa using hd)]
      have h1 := exec_switch_times k (exec_refreshed k s e) e
      have h2 := exec_flush_times k (exec_switch k (exec_refreshed k s e) e)
        (exec_needs_flush k (exec_refreshed k s e))
      rw [cache_execute_control_eq, if_neg c1,
        if_neg (fun h => h.2 (by rw [hpp']; exact hpp))]
      by_cases c3 : (exec_refreshed k s e).control = -1
      · rw [if_pos c3]; exact hl
      · rw [if_neg c3]
        exact (h2.2.2.2.trans h1.2.2.2).trans hl
  · intro hc hq hd
    have ht := cache_execute_control_times k s e hc hq
    have c1 := hc1 hc hq
    have hr := exec_refreshed_not_due k s e hd
    refine ⟨?_, ?_, ?_, ?_, ?_⟩
    · rw [ht.1, hr.1]
    · rw [ht.2.1, hr.1]
    · rw [ht.2.2, hr.1]
    · have h1 := exec_switch_times k s e
      have h2 := exec_flush_times k (exec_switch k s e) (exec_needs_flush k s)
      rw [cache_execute_control_eq, if_neg c1, if_neg (fun h => hd (by simpa using h.1)), hr.2]
      by_cases c3 : s.control = -1
      · rw [if_pos c3]
      · rw [if_neg c3]
        exact h2.2.2.2.trans h1.2.2.2
    · intro hfree
      rw [cache_execute_control_eq, if_neg c1, if_neg (fun h => hd (by simpa using h.1)), hr.2,
        if_pos hfree]
  · intro hn
    have c1 : decide (s.control = -2) = true ∨ s.stream.control = false := by
      by_cases hq : s.control = -2
      · exact Or.inl (by simpa using hq)
      · right
        cases hsc : s.stream.control
        · rfl
        · exact absurd ⟨hsc, hq⟩ hn
    rw [cache_execute_control_eq, if_pos c1]
    by_cases hq : s.control = -2 <;> simp [hq]

theorem ex_timed_due (s : cache_vars_t) (h : s.last = 0) :
    (ex_timed_env (150 / 1000)).now - s.last > refresh_threshold := by
  rw [h]
  show ((150 : Rat) / 1000 - 0 > refresh_threshold)
  unfold refresh_threshold DOUBLE_0_099 DOUBLE_0_099_succ
  norm_num

theorem ex_timed_not_due (s : cache_vars_t) (h : s.last = 0) :
    ¬ (ex_timed_env (50 / 1000)).now - s.last > refresh_threshold := by
  rw [h]
  show ¬ ((50 : Rat) / 1000 - 0 > refresh_threshold)
  unfold refresh_threshold DOUBLE_0_099 DOUBLE_0_099_succ
  norm_num

/-- Witness of C17: over a source that reports the time 7, the Filler of the spec
scenario leaves the cached position at its old value 0 when it runs 50 ms after
the last refresh, and stores 7 when it runs 150 ms after it. -/
theorem C17_time_queries_witness :
    (cache_execute_control ex_consts ex_idle (ex_timed_env (50 / 1000))).2.stream_time_pos =
      ex_idle.stream_time_pos ∧
    (cache_execute_control ex_consts ex_idle (ex_timed_env (150 / 1000))).2.stream_time_pos =
      7 :=
  ⟨((C17_time_queries ex_consts ex_medium ex_idle (ex_timed_env (50 / 1000))
      ex_consts_ok).2.2.2.1 rfl (by decide) (ex_timed_not_due ex_idle rfl)).2.1,
    ((C17_time_queries ex_consts ex_medium ex_idle (ex_timed_env (150 / 1000))
      ex_consts_ok).2.2.1 rfl (by decide) (ex_timed_due ex_idle rfl)).2.1⟩

/-- Counterexample to C17 as stated.  In `ex_quit_posted` the source has a control
callback and reports 7, the cached times are 7 and the last refresh was at
clock 0.  A call of `cache_execute_control` at clock 0.05 replaces the cached
length by 0 and the cached position by `MP_NOPTS_VALUE` (the old value is not
seen again), and a call at clock 0.15 does the same (the source is not asked).
In `ex_fresh`, whose source has no control callback, a call at clock 0.15 does
not ask the source either. -/
theorem C17_counterexample :
    ex_quit_posted.stream.control = true ∧ ex_quit_posted.stream_time_length = 7 ∧
    ¬ (ex_timed_env (50 / 1000)).now - ex_quit_posted.last > refresh_threshold ∧
    (ex_timed_env (150 / 1000)).now - ex_quit_posted.last > refresh_threshold ∧
    (cache_execute_control ex_consts ex_quit_posted
      (ex_timed_env (50 / 1000))).2.stream_time_length = 0 ∧
    (cache_execute_control ex_consts ex_quit_posted
      (ex_timed_env (50 / 1000))).2.stream_time_pos = ex_consts.MP_NOPTS_VALUE ∧
    (cache_execute_control ex_consts ex_quit_posted
      (ex_timed_env (150 / 1000))).2.stream_time_length = 0 ∧
    (cache_execute_control ex_consts ex_quit_posted
      (ex_timed_env (150 / 1000))).2.stream_time_pos = ex_consts.MP_NOPTS_VALUE ∧
    (ex_timed_env (150 / 1000)).now - ex_fresh.last > refresh_threshold ∧
    (cache_execute_control ex_consts ex_fresh
      (ex_timed_env (150 / 1000))).2.stream_time_pos = ex_consts.MP_NOPTS_VALUE ∧
    ((7 : Rat) ≠ 0 ∧ (7 : Rat) ≠ ex_consts.MP_NOPTS_VALUE) := by
  refine ⟨rfl, rfl, ex_timed_not_due _ rfl, ex_timed_due _ rfl, ?_, ?_, ?_, ?_,
    ex_timed_due _ rfl, ?_, ?_⟩
  · rw [cache_execute_control_eq, if_pos (Or.inl (by decide))]
  · rw [cache_execute_control_eq, if_pos (Or.inl (by decide))]
  · rw [cache_execute_control_eq, if_pos (Or.inl (by decide))]
  · rw [cache_execute_control_eq, if_pos (Or.inl (by decide))]
  · rw [cache_execute_control_eq, if_pos (Or.inr (by decide))]
  · constructor
    · norm_num
    · show (7 : Rat) ≠ -9223372036854775808
      norm_num

theorem cache_init_none_iff (size sector : Int) (av ab : Bool) (pid : Int) :
    cache_init size sector av ab pid = none ↔ av = false ∨ ab = false := by
  unfold cache_init
  cases av <;> cases ab <;> simp

/-- The cases in which `stream_cache_init` returns -1 before the `fork`. -/
theorem stream_cache_init_vars_none_iff (k : cache_consts) (cache stream : stream_t)
    (size mn seek_limit : Int) (e : init_env) :
    stream_cache_init_vars k cache stream size mn seek_limit e = none ↔
      ((if size < 0 then stream.cache_size * 1024 else size) = 0 ∨
       (if size < 0 then stream.cache_size * 1024 else size) > k.SIZE_MAX ∨
       e.alloc_vars = false ∨ e.alloc_buffer = false) := by
  unfold stream_cache_init_vars
  simp only []
  by_cases h0 : (if size < 0 then stream.cache_size * 1024 else size) = 0
  · rw [if_pos h0]; simp [h0]
  rw [if_neg h0]
  by_cases h1 : (if size < 0 then stream.cache_size * 1024 else size) > k.SIZE_MAX
  · rw [if_pos h1]; simp [h1]
  rw [if_neg h1]
  have hi := cache_init_none_iff (if size < 0 then stream.cache_size * 1024 else size)
    (if stream.sector_size ≠ 0 then stream.sector_size else k.STREAM_BUFFER_SIZE)
    e.alloc_vars e.alloc_buffer e.pid
  cases hc : cache_init (if size < 0 then stream.cache_size * 1024 else size)
    (if stream.sector_size ≠ 0 then stream.sector_size else k.STREAM_BUFFER_SIZE)
    e.alloc_vars e.alloc_buffer e.pid with
  | none =>
    have := hi.1 hc
    simp only [true_iff]
    tauto
  | some s1 =>
    rw [hc] at hi
    simp only [false_iff, reduceCtorEq] at hi ⊢
    tauto

/-- The prefill threshold `stream_cache_init` waits for. -/
theorem stream_cache_init_vars_min {k : cache_consts} {cache stream : stream_t}
    {size mn seek_limit : Int} {e : init_env} {s : cache_vars_t} {m : Int}
    (h : stream_cache_init_vars k cache stream size mn seek_limit e = some (s, m)) :
    m = max 1 (min mn (s.buffer_size - s.fill_limit)) := by
  unfold stream_cache_init_vars at h
  simp only [] at h
  split_ifs at h with h1 h2
  all_goals
    split at h
    · exact absurd h (by simp)
    · simp only [Option.some.injEq, Prod.mk.injEq] at h
      obtain ⟨hs, hm⟩ := h
      rw [hs] at hm
      rw [← hm]
      split_ifs <;> omega

/-- What the prefill loop of `stream_cache_init` returns. -/
theorem stream_cache_init_wait_spec (k : cache_consts) (d : Int → Nat) (m : Int) :
    ∀ (env : List control_wait) (s : cache_vars_t) (r : Int) (s2 : cache_vars_t),
      stream_cache_init_wait k d m s env = some (r, s2) →
      same_consts s s2 ∧
      ((r = 1 ∧ (s2.eof = true ∨
          (s2.min_filepos ≤ s2.read_filepos ∧ m ≤ s2.max_filepos - s2.read_filepos))) ∨
       (r = 0 ∧ ∃ w ∈ env, w.interrupted = true)) := by
  intro env
  induction env with
  | nil =>
    intro s r s2 h
    unfold stream_cache_init_wait at h
    split_ifs at h with c ce
    · simp only [Option.some.injEq, Prod.mk.injEq] at h
      obtain ⟨rfl, rfl⟩ := h
      exact ⟨same_consts_refl s, Or.inl ⟨rfl, Or.inl ce⟩⟩
    · simp only [Option.some.injEq, Prod.mk.injEq] at h
      obtain ⟨rfl, rfl⟩ := h
      exact ⟨same_consts_refl s, Or.inl ⟨rfl, Or.inr (by omega)⟩⟩
  | cons w env ih =>
    intro s r s2 h
    unfold stream_cache_init_wait at h
    have hm := cache_mainloop_same_consts k d w.iters s
    split_ifs at h with c ce ci
    · simp only [Option.some.injEq, Prod.mk.injEq] at h
      obtain ⟨rfl, rfl⟩ := h
      exact ⟨same_consts_refl s, Or.inl ⟨rfl, Or.inl ce⟩⟩
    · simp only [Option.some.injEq, Prod.mk.injEq] at h
      obtain ⟨rfl, rfl⟩ := h
      exact ⟨hm, Or.inr ⟨rfl, w, List.mem_cons_self _ _, ci⟩⟩
    · obtain ⟨a1, a2⟩ := ih _ _ _ h
      refine ⟨same_consts_trans hm a1, ?_⟩
      rcases a2 with a2 | ⟨a2, w', hw', a3⟩
      · exact Or.inl a2
      · exact Or.inr ⟨a2, w', List.mem_cons_of_mem _ hw', a3⟩
    · simp only [Option.some.injEq, Prod.mk.injEq] at h
      obtain ⟨rfl, rfl⟩ := h
      exact ⟨same_consts_refl s, Or.inl ⟨rfl, Or.inr (by omega)⟩⟩

/-- A prefill that has not ended after the sleeps `pre` ends with 0 when the
interruption fires at the next poll. -/
theorem stream_cache_init_wait_interrupt (k : cache_consts) (d : Int → Nat) (m : Int)
    (w : control_wait) (rest : List control_wait) (hw : w.interrupted = true) :
    ∀ (pre : List control_wait) (s : cache_vars_t),
      stream_cache_init_wait k d m s pre = none →
      ∃ s2, stream_cache_init_wait k d m s (pre ++ w :: rest) = some (0, s2) := by
  intro pre
  induction pre with
  | nil =>
    intro s h
    unfold stream_cache_init_wait at h
    split_ifs at h with c ce
    refine ⟨(cache_mainloop k d s w.iters).2, ?_⟩
    rw [List.nil_append]
    unfold stream_cache_init_wait
    rw [if_pos c, if_neg ce]
    simp only []
    rw [if_pos hw]
  | cons w1 pre ih =>
    intro s h
    unfold stream_cache_init_wait at h
    split_ifs at h with c ce ci
    obtain ⟨s2, h2⟩ := ih _ h
    refine ⟨s2, ?_⟩
    rw [List.cons_append]
    unfold stream_cache_init_wait
    rw [if_pos c, if_neg ce]
    simp only []
    rw [if_neg ci]
    exact h2

/-- The function `stream_cache_init` after a successful `fork`, in the parent. -/
theorem stream_cache_init_parent (k : cache_consts) (d : Int → Nat) (cache stream : stream_t)
    (size mn seek_limit : Int) (e : init_env) (s0 : cache_vars_t) (m : Int)
    (hv : stream_cache_init_vars k cache stream size mn seek_limit e = some (s0, m))
    (h0 : e.child_pid ≠ 0) (h1 : e.child_pid ≠ -1) :
    stream_cache_init k d cache stream size mn seek_limit e =
      (stream_cache_init_wait k d m { s0 with cache_pid := e.child_pid } e.waits).map
        (fun p => (p.1, some p.2)) := by
  unfold stream_cache_init
  rw [hv]
  simp only []
  rw [if_neg h0, if_neg h1, if_neg h0]
  cases stream_cache_init_wait k d m { s0 with cache_pid := e.child_pid } e.waits with
  | none => rfl
  | some p => rfl

/-- The function `stream_cache_init` when the `fork` fails. -/
theorem stream_cache_init_fork_failed (k : cache_consts) (d : Int → Nat)
    (cache stream : stream_t) (size mn seek_limit : Int) (e : init_env) (s0 : cache_vars_t)
    (m : Int)
    (hv : stream_cache_init_vars k cache stream size mn seek_limit e = some (s0, m))
    (h1 : e.child_pid = -1) :
    stream_cache_init k d cache stream size mn seek_limit e = some (-1, some s0) := by
  unfold stream_cache_init
  rw [hv]
  simp only []
  rw [if_neg (by rw [h1]; decide), if_pos h1, if_pos rfl]

/-- The function `stream_cache_init` when it returns before the `fork`. -/
theorem stream_cache_init_no_vars (k : cache_consts) (d : Int → Nat)
    (cache stream : stream_t) (size mn seek_limit : Int) (e : init_env)
    (hv : stream_cache_init_vars k cache stream size mn seek_limit e = none) :
    stream_cache_init k d cache stream size mn seek_limit e = some (-1, none) := by
  unfold stream_cache_init
  rw [hv]

/-- C18. The three outcomes of `stream_cache_init`.  Whenever the call returns (in
the parent process), the value is -1, 0 or 1.  It is -1 exactly when the size,
a negative size being replaced by `cache_size * 1024` of the stream, is 0 or
exceeds `SIZE_MAX`, or one of the two allocations fails, or the `fork` fails.  It
is 0 only if the interruption fired at a poll of the prefill loop, and it is 0
whenever the call was still waiting when the interruption fired at the next
poll.  When it is 1, a cache state is attached in which `eof` is set or
`read_filepos ≥ min_filepos` and `max_filepos - read_filepos ≥ m`, where
`m = max 1 (min mn (buffer_size - fill_limit))` is the requested prefill `mn`
clamped into `[1, buffer_size - fill_limit]` (a non-empty range when the sector
size is positive). -/
theorem C18_stream_cache_init (k : cache_consts) (d : Int → Nat) (cache stream : stream_t)
    (size mn seek_limit : Int) (e : init_env) (r : Int) (os : Option cache_vars_t)
    (h : stream_cache_init k d cache stream size mn seek_limit e = some (r, os)) :
    (r = -1 ∨ r = 0 ∨ r = 1) ∧
    (r = -1 ↔
      ((if size < 0 then stream.cache_size * 1024 else size) = 0 ∨
       (if size < 0 then stream.cache_size * 1024 else size) > k.SIZE_MAX ∨
       e.alloc_vars = false ∨ e.alloc_buffer = false ∨ e.child_pid = -1)) ∧
    (r = 0 → ∃ w ∈ e.waits, w.interrupted = true) ∧
    (∀ (pre : List control_wait) (w : control_wait) (rest : List control_wait),
      e.waits = pre ++ w :: rest → w.interrupted = true →
      stream_cache_init k d cache stream size mn seek_limit { e with waits := pre } = none →
      r = 0) ∧
    (r = 1 → ∃ s, os = some s) ∧
    (∀ s : cache_vars_t, r = 1 → os = some s →
      (s.eof = true ∨
        (s.min_filepos ≤ s.read_filepos ∧
          max 1 (min mn (s.buffer_size - s.fill_limit)) ≤ s.max_filepos - s.read_filepos)) ∧
      (0 < s.sector_size →
        1 ≤ max 1 (min mn (s.buffer_size - s.fill_limit)) ∧
        max 1 (min mn (s.buffer_size - s.fill_limit)) ≤ s.buffer_size - s.fill_limit)) := by
  have hiff := stream_cache_init_vars_none_iff k cache stream size mn seek_limit e
  cases hv : stream_cache_init_vars k cache stream size mn seek_limit e with
  | none =>
    rw [stream_cache_init_no_vars k d cache stream size mn seek_limit e hv] at h
    simp only [Option.some.injEq, Prod.mk.injEq] at h
    obtain ⟨hr, hos⟩ := h
    subst hr
    have hc := hiff.1 hv
    refine ⟨Or.inl rfl, ⟨fun _ => by tauto, fun _ => rfl⟩, fun h0 => absurd h0 (by decide),
      ?_, fun h1 => absurd h1 (by decide), fun s h1 => absurd h1 (by decide)⟩
    intro pre w rest _ _ hn
    have hv2 : stream_cache_init_vars k cache stream size mn seek_limit
        { e with waits := pre } = none := hv
    rw [stream_cache_init_no_vars k d cache stream size mn seek_limit _ hv2] at hn
    exact absurd hn (by simp)
  | some p =>
    obtain ⟨s0, m⟩ := p
    have hnv : ¬ ((if size < 0 then stream.cache_size * 1024 else size) = 0 ∨
       (if size < 0 then stream.cache_size * 1024 else size) > k.SIZE_MAX ∨
       e.alloc_vars = false ∨ e.alloc_buffer = false) := by
      intro hc
      rw [hiff.2 hc] at hv
      exact absurd hv (by simp)
    by_cases h0 : e.child_pid = 0
    · unfold stream_cache_init at h
      rw [hv] at h
      simp only [] at h
      rw [if_pos h0] at h
      exact absurd h (by simp)
    by_cases h1 : e.child_pid = -1
    · rw [stream_cache_init_fork_failed k d cache stream size mn seek_limit e s0 m hv h1] at h
      simp only [Option.some.injEq, Prod.mk.injEq] at h
      obtain ⟨hr, hos⟩ := h
      subst hr
      refine ⟨Or.inl rfl, ⟨fun _ => by tauto, fun _ => rfl⟩, fun h0 => absurd h0 (by decide),
        ?_, fun h1 => absurd h1 (by decide), fun s h1 => absurd h1 (by decide)⟩
      intro pre w rest _ _ hn
      have hv2 : stream_cache_init_vars k cache stream size mn seek_limit
          { e with waits := pre } = some (s0, m) := hv
      rw [stream_cache_init_fork_failed k d cache stream size mn seek_limit _ s0 m hv2 h1] at hn
      exact absurd hn (by simp)
    rw [stream_cache_init_parent k d cache stream size mn seek_limit e s0 m hv h0 h1] at h
    cases hw : stream_cache_init_wait k d m { s0 with cache_pid := e.child_pid } e.waits with
    | none => rw [hw] at h; exact absurd h (by simp)
    | some q =>
      obtain ⟨r1, s2⟩ := q
      rw [hw] at h
      simp only [Option.map_some', Option.some.injEq, Prod.mk.injEq] at h
      obtain ⟨hr, hos⟩ := h
      subst hr
      obtain ⟨hsc, hcases⟩ := stream_cache_init_wait_spec k d m e.waits _ r1 s2 hw
      have hm := stream_cache_init_vars_min hv
      obtain ⟨⟨num, hnum, hB⟩, -, hfl, -⟩ := stream_cache_init_vars_some hv
      have hB2 : s2.buffer_size = s0.buffer_size := hsc.1
      have hS2 : s2.sector_size = s0.sector_size := hsc.2.1
      have hF2 : s2.fill_limit = s0.fill_limit := hsc.2.2.1
      have hr01 : r1 = 0 ∨ r1 = 1 := by
        rcases hcases with ⟨a, _⟩ | ⟨a, _⟩
        · exact Or.inr a
        · exact Or.inl a
      refine ⟨Or.inr hr01, ⟨fun hneg => ?_, fun hc => ?_⟩, fun hz => ?_, ?_,
        fun _ => ⟨s2, hos.symm⟩, fun s hone hs => ?_⟩
      · rcases hr01 with a | a <;> rw [a] at hneg <;> exact absurd hneg (by decide)
      · exfalso
        rcases hc with c | c | c | c | c
        · exact hnv (Or.inl c)
        · exact hnv (Or.inr (Or.inl c))
        · exact hnv (Or.inr (Or.inr (Or.inl c)))
        · exact hnv (Or.inr (Or.inr (Or.inr c)))
        · exact h1 c
      · rcases hcases with ⟨a, _⟩ | ⟨_, b⟩
        · rw [a] at hz; exact absurd hz (by decide)
        · exact b
      · intro pre w rest hwaits hint hn
        have hv2 : stream_cache_init_vars k cache stream size mn seek_limit
            { e with waits := pre } = some (s0, m) := hv
        rw [stream_cache_init_parent k d cache stream size mn seek_limit _ s0 m hv2 h0 h1] at hn
        have hpre : stream_cache_init_wait k d m { s0 with cache_pid := e.child_pid } pre =
            none := by
          cases hp : stream_cache_init_wait k d m { s0 with cache_pid := e.child_pid } pre with
          | none => rfl
          | some q =>
            have hn2 : (stream_cache_init_wait k d m { s0 with cache_pid := e.child_pid } pre).map
                (fun p => (p.1, some p.2)) = none := hn
            rw [hp] at hn2
            exact absurd hn2 (by simp)
        obtain ⟨s3, h3⟩ := stream_cache_init_wait_interrupt k d m w rest hint pre _ hpre
        rw [hwaits, h3] at hw
        simp only [Option.some.injEq, Prod.mk.injEq] at hw
        exact hw.1.symm
      · rw [← hos] at hs
        simp only [Option.some.injEq] at hs
        subst hs
        rw [hB2, hF2]
        constructor
        · rcases hcases with ⟨_, b⟩ | ⟨a, _⟩
          · rw [← hm]; exact b
          · rw [a] at hone; exact absurd hone (by decide)
        · intro hsec
          rw [hS2] at hsec
          have hwr : int_wrap (8 * s0.sector_size) ≤ 8 * s0.sector_size := by
            unfold int_wrap; omega
          have h32 : 32 * s0.sector_size ≤ num * s0.sector_size := by nlinarith
          have h24 : 24 * s0.sector_size ≤ s0.buffer_size - s0.fill_limit := by
            rw [hB, hfl]; omega
          omega

/-- The spec scenario: `stream_cache_init` with size 65536 and prefill 1 returns 1
after one iteration of the Filler. -/
theorem ex_prefill_call :
    stream_cache_init ex_consts ex_medium ex_stream ex_stream 65536 1 16384 ex_prefill_env =
      some (1, some ex_prefilled) := by
  have hv : stream_cache_init_vars ex_consts ex_stream ex_stream 65536 1 16384
      ex_prefill_env = some (ex_fresh, 1) := rfl
  rw [stream_cache_init_parent ex_consts ex_medium ex_stream ex_stream 65536 1 16384
    ex_prefill_env ex_fresh 1 hv (by decide) (by decide)]
  have hw : stream_cache_init_wait ex_consts ex_medium 1
      { ex_fresh with cache_pid := ex_prefill_env.child_pid } ex_prefill_env.waits =
      some (1, ex_prefilled) := by
    show stream_cache_init_wait ex_consts ex_medium 1
      { ex_fresh with cache_pid := 1001 } [⟨[ex_iter], false⟩] = some (1, ex_prefilled)
    unfold stream_cache_init_wait
    rw [if_pos (by decide), if_neg (by decide)]
    simp only []
    rw [if_neg (by decide)]
    unfold stream_cache_init_wait
    rw [if_neg (by decide)]
    rfl
  rw [hw]
  rfl

/-- Witness of C18: in the spec scenario the call returns 1 after one iteration of
the Filler, with at least one byte ahead of the Reader. -/
theorem C18_stream_cache_init_witness :
    stream_cache_init ex_consts ex_medium ex_stream ex_stream 65536 1 16384 ex_prefill_env =
      some (1, some ex_prefilled) ∧
    (ex_prefilled.eof = true ∨
      (ex_prefilled.min_filepos ≤ ex_prefilled.read_filepos ∧
        max 1 (min 1 (ex_prefilled.buffer_size - ex_prefilled.fill_limit)) ≤
          ex_prefilled.max_filepos - ex_prefilled.read_filepos)) :=
  ⟨ex_prefill_call,
    ((C18_stream_cache_init ex_consts ex_medium ex_stream ex_stream 65536 1 16384
      ex_prefill_env 1 (some ex_prefilled) ex_prefill_call).2.2.2.2.2 ex_prefilled rfl rfl).1⟩

/-- C19 (amended). The failure values of `stream_cache_init`.  When the allocation
of the state or of the buffer fails the call returns -1, and when both
allocations succeed and the `fork` fails the call returns -1 as well: the two
failures have the same return value.  They differ only in the cache state left
behind: none after an allocation failure, the allocated state after a failed
`fork`. -/
theorem C19_failure_codes (k : cache_consts) (d : Int → Nat) (cache stream : stream_t)
    (size mn seek_limit : Int) (e1 e2 : init_env)
    (ha : e1.alloc_vars = false ∨ e1.alloc_buffer = false)
    (hs : e2.alloc_vars = true ∧ e2.alloc_buffer = true ∧
      (if size < 0 then stream.cache_size * 1024 else size) ≠ 0 ∧
      ¬ (if size < 0 then stream.cache_size * 1024 else size) > k.SIZE_MAX)
    (hf : e2.child_pid = -1) :
    stream_cache_init k d cache stream size mn seek_limit e1 = some (-1, none) ∧
    (∃ s0, stream_cache_init k d cache stream size mn seek_limit e2 = some (-1, some s0)) ∧
    (stream_cache_init k d cache stream size mn seek_limit e1).map (fun p => p.1) =
      (stream_cache_init k d cache stream size mn seek_limit e2).map (fun p => p.1) := by
  have h1 : stream_cache_init k d cache stream size mn seek_limit e1 = some (-1, none) := by
    apply stream_cache_init_no_vars
    rw [stream_cache_init_vars_none_iff]
    tauto
  have hv : stream_cache_init_vars k cache stream size mn seek_limit e2 ≠ none := by
    rw [Ne, stream_cache_init_vars_none_iff]
    obtain ⟨a, b, c, d⟩ := hs
    rw [a, b]
    simp only [Bool.true_eq_false, or_false]
    tauto
  obtain ⟨p, hp⟩ := Option.ne_none_iff_exists.1 hv
  obtain ⟨s0, m⟩ := p
  have h2 := stream_cache_init_fork_failed k d cache stream size mn seek_limit e2 s0 m hp.symm hf
  refine ⟨h1, ⟨s0, h2⟩, ?_⟩
  rw [h1, h2]
  rfl

/-- Witness of C19: in the spec scenario the call returns -1 when the allocation
of the buffer fails and -1 when the `fork` fails. -/
theorem C19_failure_codes_witness :
    stream_cache_init ex_consts ex_medium ex_stream ex_stream 65536 1 16384 ex_alloc_fails =
      some (-1, none) ∧
    (∃ s0, stream_cache_init ex_consts ex_medium ex_stream ex_stream 65536 1 16384
      ex_fork_fails = some (-1, some s0)) ∧
    (stream_cache_init ex_consts ex_medium ex_stream ex_stream 65536 1 16384
        ex_alloc_fails).map (fun p => p.1) =
      (stream_cache_init ex_consts ex_medium ex_stream ex_stream 65536 1 16384
        ex_fork_fails).map (fun p => p.1) :=
  C19_failure_codes ex_consts ex_medium ex_stream ex_stream 65536 1 16384 ex_alloc_fails
    ex_fork_fails (Or.inr rfl) ⟨rfl, rfl, by decide, by decide⟩ rfl

/-- Counterexample to C19 as stated.  In the spec scenario `stream_cache_init`
returns -1 when the allocation of the state fails, -1 when the allocation of
the buffer fails, and -1 when the `fork` fails: the value does not tell the
failures apart. -/
theorem C19_counterexample :
    (stream_cache_init ex_consts ex_medium ex_stream ex_stream 65536 1 16384
      ex_vars_alloc_fails).map (fun p => p.1) = some (-1) ∧
    (stream_cache_init ex_consts ex_medium ex_stream ex_stream 65536 1 16384
      ex_alloc_fails).map (fun p => p.1) = some (-1) ∧
    (stream_cache_init ex_consts ex_medium ex_stream ex_stream 65536 1 16384
      ex_fork_fails).map (fun p => p.1) = some (-1) := by
  refine ⟨by decide, by decide, by decide⟩

/-- The value `cache_execute_control` returns: 0 when the quit request is posted,
or when the source has a control callback, the refresh of the cached times is
due and the parent id recorded differs from `getppid()`; 1 otherwise. -/
theorem cache_execute_control_ret (k : cache_consts) (s : cache_vars_t) (e : exec_env) :
    (cache_execute_control k s e).1 =
      if s.control = -2 ∨
          (s.stream.control = true ∧ e.now - s.last > refresh_threshold ∧ s.ppid ≠ e.ppid) then 0
      else 1 := by
  have hpp := (exec_times_ppid k s e).1
  rw [cache_execute_control_eq]
  by_cases hq : s.control = -2
  · rw [if_pos (Or.inl (by simpa using hq)), if_pos (Or.inl hq)]
    simp [hq]
  cases hc : s.stream.control
  · rw [if_pos (Or.inr rfl), if_neg (by simp [hq])]
    simp [hq]
  · have c1 : ¬ (decide (s.control = -2) = true ∨ true = false) := by simp [hq]
    rw [if_neg c1]
    by_cases c2 : decide (e.now - s.last > refresh_threshold) = true ∧ (exec_times k s e).ppid ≠ e.ppid
    · rw [if_pos c2, if_pos (Or.inr ⟨rfl, by simpa using c2.1, by rw [← hpp]; exact c2.2⟩)]
    · rw [if_neg c2]
      have hn : ¬ (s.control = -2 ∨
          (true = true ∧ e.now - s.last > refresh_threshold ∧ s.ppid ≠ e.ppid)) := by
        rintro (h | ⟨_, h1, h2⟩)
        · exact hq h
        · exact c2 ⟨by simpa using h1, by rw [hpp]; exact h2⟩
      rw [if_neg hn]
      by_cases c3 : (exec_refreshed k s e).control = -1
      · rw [if_pos c3]
      · rw [if_neg c3]

/-- The request code, the clock base, the parent id and the control callback of
the source are the same when `cache_execute_control` runs in an iteration of
`cache_mainloop` as at the start of the iteration. -/
theorem cache_mainloop_iter_ret (k : cache_consts) (d : Int → Nat) (s : cache_vars_t)
    (it : filler_iter) :
    (cache_mainloop_iter k d s it).1 =
      if s.control = -2 ∨
          (s.stream.control = true ∧ it.exec.now - s.last > refresh_threshold ∧
            s.ppid ≠ it.exec.ppid) then 0
      else 1 := by
  have hf := cache_fill_slot s d it.rd
  have hc := cache_fill_same_consts s d it.rd
  rw [cache_mainloop_iter_eq, cache_execute_control_ret]
  show (if (cache_fill s d it.rd).s.control = -2 ∨
      ((cache_fill s d it.rd).s.stream.control = true ∧
        it.exec.now - (cache_fill s d it.rd).s.last > refresh_threshold ∧
        (cache_fill s d it.rd).s.ppid ≠ it.exec.ppid) then (0 : Int) else 1) = _
  rw [hf.1, hf.2.2.1, hf.2.2.2.1, hc.2.2.2.2.2.2.1]

/-- C21 (amended). Filler termination.  `cache_execute_control` returns 0 or 1.  It
returns 0 exactly when the quit request -2 is posted, or when the source has a
control callback, the `double` difference of the clock and `last` is greater
than the `double` constant 0.099 (the exact difference is above
`refresh_threshold`), and the parent id recorded differs from the current one: the
parent check is part of the refresh block and is not made in the other
iterations.  The same holds for the iteration of `cache_mainloop` that starts in
the state, and the loop ends with the first iteration in which the value is 0. -/
theorem C21_filler_termination (k : cache_consts) (d : Int → Nat) (s : cache_vars_t)
    (e : exec_env) (it : filler_iter) (rest : List filler_iter) :
    ((cache_execute_control k s e).1 = 0 ∨ (cache_execute_control k s e).1 = 1) ∧
    ((cache_execute_control k s e).1 = 0 ↔
      (s.control = -2 ∨
        (s.stream.control = true ∧ e.now - s.last > refresh_threshold ∧ s.ppid ≠ e.ppid))) ∧
    ((cache_mainloop_iter k d s it).1 = 0 ↔
      (s.control = -2 ∨
        (s.stream.control = true ∧ it.exec.now - s.last > refresh_threshold ∧
          s.ppid ≠ it.exec.ppid))) ∧
    ((cache_mainloop_iter k d s it).1 = 0 →
      cache_mainloop k d s (it :: rest) = (false, (cache_mainloop_iter k d s it).2)) ∧
    ((cache_mainloop_iter k d s it).1 ≠ 0 →
      cache_mainloop k d s (it :: rest) =
        cache_mainloop k d (cache_mainloop_iter k d s it).2 rest) := by
  have h1 := cache_execute_control_ret k s e
  have h2 := cache_mainloop_iter_ret k d s it
  refine ⟨?_, ?_, ?_, ?_, ?_⟩
  · rw [h1]; split_ifs
    · exact Or.inl rfl
    · exact Or.inr rfl
  · rw [h1]; split_ifs with h
    · exact ⟨fun _ => h, fun _ => rfl⟩
    · exact ⟨fun h0 => absurd h0 (by decide), fun h0 => absurd h0 h⟩
  · rw [h2]; split_ifs with h
    · exact ⟨fun _ => h, fun _ => rfl⟩
    · exact ⟨fun h0 => absurd h0 (by decide), fun h0 => absurd h0 h⟩
  · intro h0
    show (if (cache_mainloop_iter k d s it).1 = 0 then (false, (cache_mainloop_iter k d s it).2)
      else cache_mainloop k d (cache_mainloop_iter k d s it).2 rest) = _
    rw [if_pos h0]
  · intro h0
    show (if (cache_mainloop_iter k d s it).1 = 0 then (false, (cache_mainloop_iter k d s it).2)
      else cache_mainloop k d (cache_mainloop_iter k d s it).2 rest) = _
    rw [if_neg h0]

/-- Witness of C21: with the quit request posted `cache_execute_control` returns 0,
and the loop of `cache_mainloop` ends in that iteration. -/
theorem C21_filler_termination_witness :
    (cache_execute_control ex_consts ex_quit_posted ex_exec_env).1 = 0 ∧
    cache_mainloop ex_consts ex_medium ex_quit_posted (ex_iter :: [ex_iter]) =
      (false, (cache_mainloop_iter ex_consts ex_medium ex_quit_posted ex_iter).2) :=
  ⟨(C21_filler_termination ex_consts ex_medium ex_quit_posted ex_exec_env ex_iter
      [ex_iter]).2.1.2 (Or.inl rfl),
    (C21_filler_termination ex_consts ex_medium ex_quit_posted ex_exec_env ex_iter
      [ex_iter]).2.2.2.1
      ((C21_filler_termination ex_consts ex_medium ex_quit_posted ex_exec_env ex_iter
        [ex_iter]).2.2.1.2 (Or.inl rfl))⟩

/-- Counterexample to C21 as stated.  In `ex_idle` the source has a control
callback and the parent id recorded is 1000.  With the parent gone (`getppid()`
is 1) and the clock at 0, so that no refresh is due, `cache_execute_control`
returns 1.  In `ex_fresh`, whose source has no control callback, it returns 1
with the parent gone even when the clock shows 0.15. -/
theorem C21_counterexample :
    ex_idle.ppid ≠ ex_orphan_env.ppid ∧
    (cache_execute_control ex_consts ex_idle ex_orphan_env).1 = 1 ∧
    ex_fresh.ppid ≠ (ex_orphan_timed_env (150 / 1000)).ppid ∧
    (ex_orphan_timed_env (150 / 1000)).now - ex_fresh.last > refresh_threshold ∧
    (cache_execute_control ex_consts ex_fresh (ex_orphan_timed_env (150 / 1000))).1 = 1 := by
  refine ⟨by decide, ?_, by decide, ex_timed_due ex_fresh rfl, ?_⟩
  · rw [cache_execute_control_ret, if_neg]
    rintro (h | ⟨_, h, _⟩)
    · exact absurd h (by decide)
    · exact ex_exec_not_due ex_idle rfl h
  · rw [cache_execute_control_ret, if_neg]
    rintro (h | ⟨h, _, _⟩)
    · exact absurd h (by decide)
    · exact absurd h (by decide)

theorem filler_fields_eq_refl (s : cache_vars_t) : filler_fields_eq s s :=
  ⟨rfl, rfl, rfl, rfl, rfl⟩

theorem filler_fields_eq_trans {s t u : cache_vars_t} (h1 : filler_fields_eq s t)
    (h2 : filler_fields_eq t u) : filler_fields_eq s u := by
  obtain ⟨a1, a2, a3, a4, a5⟩ := h1
  obtain ⟨b1, b2, b3, b4, b5⟩ := h2
  exact ⟨b1.trans a1, b2.trans a2, b3.trans a3, b4.trans a4, b5.trans a5⟩

/-- What `cache_read` writes when the Filler is not running: `read_filepos`, and
`eof` when the interruption fires. -/
theorem cache_read_loop_frame (d : Int → Nat) :
    ∀ (n : Nat) (s : cache_vars_t) (size total : Int) (out : List Nat) (env : List read_wait)
      (r : Int × List Nat × cache_vars_t),
      (∀ w ∈ env, w.fills = []) →
      cache_read_loop d n s size total out env = some r →
      filler_fields_eq s r.2.2 ∧
      (r.2.2.eof = s.eof ∨ (r.2.2.eof = true ∧ ∃ w ∈ env, w.interrupted = true)) := by
  intro n
  induction n with
  | zero => intro s size total out env r _ h; simp [cache_read_loop] at h
  | succ n ih =>
    intro s size total out env r henv h
    unfold cache_read_loop at h
    by_cases hsz : size > 0
    · rw [if_pos hsz] at h
      by_cases hcond : s.read_filepos ≥ s.max_filepos ∨ s.read_filepos < s.min_filepos
      · rw [if_pos hcond] at h
        by_cases heof : s.eof = true
        · rw [if_pos heof] at h
          simp only [Option.some.injEq] at h
          subst h; exact ⟨filler_fields_eq_refl s, Or.inl rfl⟩
        · rw [if_neg heof] at h
          cases env with
          | nil => simp at h
          | cons w env =>
            simp only [] at h
            have hw : w.fills = [] := henv w (List.mem_cons_self _ _)
            rw [hw] at h
            have hrun : run_fills d s [] = s := rfl
            rw [hrun] at h
            by_cases hi : w.interrupted = true
            · rw [if_pos hi] at h
              simp only [Option.some.injEq] at h
              subst h
              exact ⟨⟨rfl, rfl, rfl, rfl, rfl⟩, Or.inr ⟨rfl, w, List.mem_cons_self _ _, hi⟩⟩
            · rw [if_neg hi] at h
              obtain ⟨a, b⟩ := ih _ _ _ _ _ _ (fun w' hw' => henv w' (List.mem_cons_of_mem _ hw')) h
              refine ⟨a, ?_⟩
              rcases b with b | ⟨b, w', hw', b2⟩
              · exact Or.inl b
              · exact Or.inr ⟨b, w', List.mem_cons_of_mem _ hw', b2⟩
      · rw [if_neg hcond] at h
        simp only [] at h
        split_ifs at h
        all_goals
          obtain ⟨a, b⟩ := ih _ _ _ _ _ _ henv h
          exact ⟨filler_fields_eq_trans ⟨rfl, rfl, rfl, rfl, rfl⟩ a, b⟩
    · rw [if_neg hsz] at h
      simp only [Option.some.injEq] at h
      subst h; exact ⟨filler_fields_eq_refl s, Or.inl rfl⟩

/-- What the wait of `cache_control` writes when the Filler is not running: `eof`,
when the interruption fires. -/
theorem cache_control_wait_frame (k : cache_consts) (d : Int → Nat) :
    ∀ (env : List control_wait) (s : cache_vars_t) (flag : Bool) (s2 : cache_vars_t),
      (∀ w ∈ env, w.iters = []) →
      cache_control_wait k d s env = some (flag, s2) →
      (flag = false → s2 = s) ∧ (flag = true → s2 = { s with eof := true }) := by
  intro env
  induction env with
  | nil =>
    intro s flag s2 _ h
    unfold cache_control_wait at h
    split_ifs at h
    simp only [Option.some.injEq, Prod.mk.injEq] at h
    obtain ⟨rfl, rfl⟩ := h
    exact ⟨fun _ => rfl, fun hf => absurd hf (by decide)⟩
  | cons w env ih =>
    intro s flag s2 henv h
    unfold cache_control_wait at h
    have hw : w.iters = [] := henv w (List.mem_cons_self _ _)
    have hm : (cache_mainloop k d s w.iters).2 = s := by rw [hw]; rfl
    split_ifs at h with c ci
    · simp only [Option.some.injEq, Prod.mk.injEq] at h
      obtain ⟨rfl, rfl⟩ := h
      refine ⟨fun hf => absurd hf (by decide), fun _ => ?_⟩
      rw [hm]
    · rw [hm] at h
      exact ih _ _ _ (fun w' hw' => henv w' (List.mem_cons_of_mem _ hw')) h
    · simp only [Option.some.injEq, Prod.mk.injEq] at h
      obtain ⟨rfl, rfl⟩ := h
      exact ⟨fun _ => rfl, fun hf => absurd hf (by decide)⟩

/-- Posting a command writes the code and the argument fields only. -/
theorem control_posted_frame (k : cache_consts) {s s1 : cache_vars_t} (cmd : Int)
    (arg : ctrl_arg) (hp : control_posted k s cmd arg = some s1) :
    filler_fields_eq s s1 ∧ s1.eof = s.eof ∧ s1.read_filepos = s.read_filepos := by
  unfold control_posted at hp
  split_ifs at hp <;> simp only [Option.some.injEq] at hp <;> subst hp <;>
    exact ⟨⟨rfl, rfl, rfl, rfl, rfl⟩, rfl, rfl⟩

theorem control_adopt_frame (k : cache_consts) (s : cache_vars_t) (cmd : Int) :
    filler_fields_eq s (control_adopt k s cmd) ∧ (control_adopt k s cmd).eof = s.eof := by
  unfold control_adopt
  split_ifs <;> exact ⟨⟨rfl, rfl, rfl, rfl, rfl⟩, rfl⟩

/-- What `cache_control` writes of the Filler's fields when the Filler is not
running: `eof`, when the interruption fires. -/
theorem cache_control_frame (k : cache_consts) (d : Int → Nat) (s : cache_vars_t) (cmd : Int)
    (arg : ctrl_arg) (env : List control_wait) (r : Int × ctrl_arg × cache_vars_t)
    (henv : ∀ w ∈ env, w.iters = [])
    (h : cache_control k d s cmd arg env = some r) :
    filler_fields_eq s r.2.2 ∧
    (r.2.2.eof = s.eof ∨ (r.2.2.eof = true ∧ ∃ w ∈ env, w.interrupted = true)) := by
  rw [cache_control_eq] at h
  split_ifs at h
  any_goals
    simp only [Option.some.injEq] at h
    subst h
    exact ⟨filler_fields_eq_refl s, Or.inl rfl⟩
  cases hp : control_posted k s cmd arg with
  | none =>
    rw [hp] at h
    have h2 : some (k.STREAM_UNSUPPORTED, arg, s) = some r := h
    simp only [Option.some.injEq] at h2
    subst h2
    exact ⟨filler_fields_eq_refl s, Or.inl rfl⟩
  | some s1 =>
    rw [hp] at h
    obtain ⟨f1, e1, _⟩ := control_posted_frame k cmd arg hp
    cases hw : cache_control_wait k d s1 env with
    | none => rw [control_answer_waiting k d cmd arg env s1 s hw] at h; simp at h
    | some p =>
      obtain ⟨flag, s2⟩ := p
      obtain ⟨g1, g2⟩ := cache_control_wait_frame k d env s1 flag s2 henv hw
      obtain ⟨_, hint, _⟩ := cache_control_wait_spec k d env s1 flag s2 hw
      cases flag with
      | true =>
        rw [control_answer_interrupted k d cmd arg env s1 s s2 hw] at h
        simp only [Option.some.injEq] at h
        subst h
        have hs2 := g2 rfl
        subst hs2
        exact ⟨filler_fields_eq_trans f1 ⟨rfl, rfl, rfl, rfl, rfl⟩,
          Or.inr ⟨rfl, (hint rfl).2⟩⟩
      | false =>
        rw [control_answer_answered k d cmd arg env s1 s s2 hw] at h
        have hs2 := g1 rfl
        subst hs2
        obtain ⟨a1, a2⟩ := control_adopt_frame k s2 cmd
        split_ifs at h
        · simp only [Option.some.injEq] at h
          subst h
          exact ⟨f1, Or.inl e1⟩
        · simp only [Option.some.injEq] at h
          subst h
          exact ⟨filler_fields_eq_trans f1 a1, Or.inl (a2.trans e1)⟩

/-- The Reader's position and the request fields are not written by `cache_fill`. -/
theorem cache_fill_request (s : cache_vars_t) (d : Int → Nat) (rd : Int → Int) :
    (cache_fill s d rd).s.read_filepos = s.read_filepos ∧
    request_fields_eq s (cache_fill s d rd).s := by
  have h : (fill_seek s).read_filepos = s.read_filepos ∧ request_fields_eq s (fill_seek s) := by
    cases h : fill_flushes s
    · rw [fill_seek_of_not_flush h]; exact ⟨rfl, rfl, rfl, rfl, rfl, rfl⟩
    · rw [fill_seek_of_flush h]; exact ⟨rfl, rfl, rfl, rfl, rfl, rfl⟩
  rw [cache_fill_eq]
  split_ifs
  · exact h
  · exact h

theorem exec_refreshed_request (k : cache_consts) (s : cache_vars_t) (e : exec_env) :
    request_fields_eq s (exec_times k s e) ∧ request_fields_eq s (exec_refreshed k s e) := by
  have h1 : request_fields_eq s (exec_times k s e) := by
    unfold exec_times
    simp only []
    split_ifs <;> exact ⟨rfl, rfl, rfl, rfl, rfl⟩
  refine ⟨h1, ?_⟩
  unfold exec_refreshed
  split_ifs
  · exact h1
  · exact h1

/-- What `cache_execute_control` writes of the Reader's fields. -/
theorem cache_execute_control_writes (k : cache_consts) (s : cache_vars_t) (e : exec_env) :
    (s.control = -1 →
      (cache_execute_control k s e).2.read_filepos = s.read_filepos ∧
      request_fields_eq s (cache_execute_control k s e).2) ∧
    ((cache_execute_control k s e).2.control = s.control ∨
      (cache_execute_control k s e).2.control = -1) ∧
    ((cache_execute_control k s e).2.read_filepos = s.read_filepos ∨
      ((cache_execute_control k s e).2.read_filepos =
          (cache_execute_control k s e).2.stream.pos ∧
        (cache_execute_control k s e).2.eof = (cache_execute_control k s e).2.stream.eof ∧
        (cache_execute_control k s e).2.control_res = k.STREAM_OK)) := by
  have ht := exec_times_fields k s e
  have hr := exec_refreshed_fields k s e
  have hq := exec_refreshed_request k s e
  have hs := exec_switch_fields k (exec_refreshed k s e) e
  rw [cache_execute_control_eq]
  by_cases c1 : decide (s.control = -2) = true ∨ s.stream.control = false
  · rw [if_pos c1]
    exact ⟨fun h => ⟨rfl, h.symm, rfl, rfl, rfl, rfl⟩, Or.inr rfl, Or.inl rfl⟩
  rw [if_neg c1]
  by_cases c2 : decide (e.now - s.last > refresh_threshold) = true ∧ (exec_times k s e).ppid ≠ e.ppid
  · rw [if_pos c2]
    exact ⟨fun _ => ⟨ht.2.2.2.2.2.2.2.2.2.1, hq.1⟩, Or.inl hq.1.1,
      Or.inl ht.2.2.2.2.2.2.2.2.2.1⟩
  rw [if_neg c2]
  by_cases c3 : (exec_refreshed k s e).control = -1
  · rw [if_pos c3]
    exact ⟨fun _ => ⟨hr.2.2.2.2.2.2.2.2.2.1, hq.2⟩, Or.inl hq.2.1,
      Or.inl hr.2.2.2.2.2.2.2.2.2.1⟩
  rw [if_neg c3]
  refine ⟨fun h => absurd (hq.2.1.trans h) c3, Or.inr rfl, ?_⟩
  unfold exec_flush
  split_ifs with hf
  · exact Or.inr ⟨rfl, rfl, hf.1⟩
  · left
    exact hs.2.2.2.2.2.2.2.2.2.1.trans hr.2.2.2.2.2.2.2.2.2.1

/-- C22 (amended). Field ownership.  With the Filler not running during the call,
`cache_seek`, `cache_read` and `cache_control` leave `max_filepos`, `offset`,
`min_filepos`, `idle` and the buffer as they are; they do write `eof`:
`cache_seek` clears it, `cache_read` and `cache_control` set it when the
interruption fires.  `cache_fill` writes neither `read_filepos` nor the code or
the argument fields of the request.  `cache_execute_control` writes none of
these while no request is posted; otherwise it may set `control` to -1, store
the values the source returns in the argument fields, and, together with `eof`,
set `read_filepos` to the position of the source, which it does only with the
result `STREAM_OK`. -/
theorem C22_field_ownership (k : cache_consts) (d : Int → Nat) (s : cache_vars_t) :
    (∀ pos : Int, filler_fields_eq s (cache_seek s pos).2 ∧ (cache_seek s pos).2.eof = false) ∧
    (∀ (size : Int) (env : List read_wait) (r : Int × List Nat × cache_vars_t),
      (∀ w ∈ env, w.fills = []) → cache_read d s size env = some r →
      filler_fields_eq s r.2.2 ∧
      (r.2.2.eof = s.eof ∨ (r.2.2.eof = true ∧ ∃ w ∈ env, w.interrupted = true))) ∧
    (∀ (cmd : Int) (arg : ctrl_arg) (env : List control_wait)
      (r : Int × ctrl_arg × cache_vars_t),
      (∀ w ∈ env, w.iters = []) → cache_control k d s cmd arg env = some r →
      filler_fields_eq s r.2.2 ∧
      (r.2.2.eof = s.eof ∨ (r.2.2.eof = true ∧ ∃ w ∈ env, w.interrupted = true))) ∧
    (∀ rd : Int → Int,
      (cache_fill s d rd).s.read_filepos = s.read_filepos ∧
      request_fields_eq s (cache_fill s d rd).s) ∧
    (∀ e : exec_env,
      (s.control = -1 →
        (cache_execute_control k s e).2.read_filepos = s.read_filepos ∧
        request_fields_eq s (cache_execute_control k s e).2) ∧
      ((cache_execute_control k s e).2.control = s.control ∨
        (cache_execute_control k s e).2.control = -1) ∧
      ((cache_execute_control k s e).2.read_filepos = s.read_filepos ∨
        ((cache_execute_control k s e).2.read_filepos =
            (cache_execute_control k s e).2.stream.pos ∧
          (cache_execute_control k s e).2.eof = (cache_execute_control k s e).2.stream.eof ∧
          (cache_execute_control k s e).2.control_res = k.STREAM_OK))) :=
  ⟨fun _ => ⟨⟨rfl, rfl, rfl, rfl, rfl⟩, rfl⟩,
    fun size env r henv h => cache_read_loop_frame d _ s size 0 [] env r henv h,
    fun cmd arg env r henv h => cache_control_frame k d s cmd arg env r henv h,
    fun rd => cache_fill_request s d rd,
    fun e => cache_execute_control_writes k s e⟩

/-- The call `cache_read(1)` on the fresh cache, interrupted at its first sleep. -/
theorem ex_read_interrupted :
    cache_read ex_medium ex_fresh 1 [⟨[], true⟩] = some (0, [], { ex_fresh with eof := true }) := by
  rfl

/-- Witness of C22: a `cache_read` on the fresh cache that is interrupted at its
first sleep leaves the Filler's fields and sets `eof`. -/
theorem C22_field_ownership_witness :
    filler_fields_eq ex_fresh { ex_fresh with eof := true } ∧
    (({ ex_fresh with eof := true } : cache_vars_t).eof = ex_fresh.eof ∨
      (({ ex_fresh with eof := true } : cache_vars_t).eof = true ∧
        ∃ w ∈ [(⟨[], true⟩ : read_wait)], w.interrupted = true)) :=
  (C22_field_ownership ex_consts ex_medium ex_fresh).2.1 1 [⟨[], true⟩]
    (0, [], { ex_fresh with eof := true })
    (fun w hw => by rw [List.mem_singleton.1 hw]) ex_read_interrupted

/-- Counterexample to C22 as stated.  `cache_seek` clears `eof` in `ex_at_eof`;
`cache_read` and `cache_control` set `eof` on the fresh cache and in `ex_idle`
when the interruption fires at the first sleep, the Filler not running.
`cache_execute_control`, run in `ex_seek_posted` over a source that answers
`STREAM_OK` and stands at 4096, changes `read_filepos` from 0 to 4096 and the
request code from 6 to -1. -/
theorem C22_counterexample :
    (ex_at_eof.eof = true ∧ (cache_seek ex_at_eof 0).2.eof = false) ∧
    (ex_fresh.eof = false ∧
      (cache_read ex_medium ex_fresh 1 [⟨[], true⟩]).map (fun r => r.2.2.eof) = some true) ∧
    (ex_idle.eof = false ∧
      (cache_control ex_consts ex_medium ex_idle 6 ex_arg [⟨[], true⟩]).map
        (fun r => r.2.2.eof) = some true) ∧
    (ex_seek_posted.read_filepos = 0 ∧ ex_seek_posted.control = 6 ∧
      (cache_execute_control ex_consts ex_seek_posted ex_exec_env).2.read_filepos = 4096 ∧
      (cache_execute_control ex_consts ex_seek_posted ex_exec_env).2.control = -1) := by
  refine ⟨⟨rfl, rfl⟩, ⟨rfl, by decide⟩, ⟨rfl, by decide⟩, rfl, rfl, ?_, ?_⟩
  · exact ex_seek_posted_exec.2.2.1
  · exact ex_seek_posted_exec.2.2.2.1

/-- C23 (amended). Fill threshold.  In every state with
`min_filepos ≤ read_filepos ≤ max_filepos` (and `back_size` not negative)
`cache_fill` does not seek, and the value it compares with `fill_limit` is
`buffer_size - ((max_filepos - read_filepos) + min (read_filepos - min_filepos) back_size)`:
only `back_size` of the bytes behind the Reader count as occupied.  The value is
at least `space_free() = buffer_size - (max_filepos - min_filepos)` and equals it
exactly when `read_filepos - min_filepos ≤ back_size`.  When the value is below
`fill_limit`, `cache_fill` returns 0 without a source read and with the state
unchanged; otherwise it issues a source read. -/
theorem C23_fill_threshold (s : cache_vars_t) (d : Int → Nat) (rd : Int → Int)
    (hmin : s.min_filepos ≤ s.read_filepos) (hmax : s.read_filepos ≤ s.max_filepos)
    (hb : 0 ≤ s.back_size) :
    fill_seek s = s ∧
    fill_space0 s s.read_filepos =
      s.buffer_size -
        ((s.max_filepos - s.read_filepos) + min (s.read_filepos - s.min_filepos) s.back_size) ∧
    s.buffer_size - (s.max_filepos - s.min_filepos) ≤ fill_space0 s s.read_filepos ∧
    (fill_space0 s s.read_filepos = s.buffer_size - (s.max_filepos - s.min_filepos) ↔
      s.read_filepos - s.min_filepos ≤ s.back_size) ∧
    ((cache_fill s d rd).request = none ↔ fill_space0 s s.read_filepos < s.fill_limit) ∧
    (fill_space0 s s.read_filepos < s.fill_limit →
      (cache_fill s d rd).ret = 0 ∧ (cache_fill s d rd).request = none ∧
      (cache_fill s d rd).s = s) ∧
    (¬ fill_space0 s s.read_filepos < s.fill_limit →
      (cache_fill s d rd).request = some (fill_space s s.read_filepos) ∧
      (cache_fill s d rd).ret = rd (fill_space s s.read_filepos)) := by
  have hnf : fill_flushes s = false := by
    unfold fill_flushes
    simp only [Bool.and_eq_false_imp, decide_eq_true_eq, decide_eq_false_iff_not]
    intro h
    omega
  have hseek : fill_seek s = s := fill_seek_of_not_flush hnf
  have hsp : fill_space0 s s.read_filepos =
      s.buffer_size -
        ((s.max_filepos - s.read_filepos) + min (s.read_filepos - s.min_filepos) s.back_size) := by
    unfold fill_space0
    rw [fill_newb_eq, fill_back_eq]
    omega
  refine ⟨hseek, hsp, by rw [hsp]; omega, by rw [hsp]; omega, ?_, ?_, ?_⟩
  · rw [cache_fill_eq, hseek]
    split_ifs with h
    · exact ⟨fun _ => h, fun _ => rfl⟩
    · exact ⟨fun h0 => by simp at h0, fun h0 => absurd h0 h⟩
  · intro h
    rw [cache_fill_eq, hseek, if_pos h]
    exact ⟨rfl, rfl, rfl⟩
  · intro h
    rw [cache_fill_eq, hseek, if_neg h]
    exact ⟨rfl, rfl⟩

/-- Witness of C23: in the spec scenario after five fills, with the Reader at the
start of the window, the value compared is `space_free()`, and it is not below
`fill_limit`. -/
theorem C23_fill_threshold_witness :
    (fill_space0 ex_filled ex_filled.read_filepos =
        ex_filled.buffer_size - (ex_filled.max_filepos - ex_filled.min_filepos) ↔
      ex_filled.read_filepos - ex_filled.min_filepos ≤ ex_filled.back_size) ∧
    ((cache_fill ex_filled ex_medium ex_full).request = none ↔
      fill_space0 ex_filled ex_filled.read_filepos < ex_filled.fill_limit) :=
  ⟨(C23_fill_threshold ex_filled ex_medium ex_full (by decide) (by decide)
      (by decide)).2.2.2.1,
    (C23_fill_threshold ex_filled ex_medium ex_full (by decide) (by decide)
      (by decide)).2.2.2.2.1⟩

/-- Counterexample to C23 as stated.  In `ex_read_ahead` the window is `[0, 57344)`
and the Reader stands at 57000, inside it.  `space_free()` is 8192, below
`fill_limit = 16384`, but the value `cache_fill` compares with `fill_limit` is
32424, and `cache_fill` issues a source read of 8192 bytes. -/
theorem C23_counterexample :
    ex_read_ahead.min_filepos ≤ ex_read_ahead.read_filepos ∧
    ex_read_ahead.read_filepos ≤ ex_read_ahead.max_filepos ∧
    ex_read_ahead.buffer_size - (ex_read_ahead.max_filepos - ex_read_ahead.min_filepos) =
      8192 ∧
    ex_read_ahead.fill_limit = 16384 ∧
    fill_space0 (fill_seek ex_read_ahead) ex_read_ahead.read_filepos = 32424 ∧
    (cache_fill ex_read_ahead ex_medium ex_full).request = some 8192 ∧
    (cache_fill ex_read_ahead ex_medium ex_full).ret = 8192 := by
  refine ⟨by decide, by decide, by decide, rfl, by decide, by decide, by decide⟩

/-- C24. Bounds on the source read of `cache_fill`.  In every state with the
constants of `cache_init` (a positive sector size, `fill_limit` of 8 sectors) and
`0 ≤ max_filepos - offset < buffer_size`, every source read issued has a size
`r` with `r ≤ c`, where `c` is the `read_chunk` of the source or 4 sectors when
that is 0; `r` is at most the free space computed in this call; `r` is at least
`min(sector_size, c)`, so at least a sector when `c` is; and unless the
wraparound copy is used the region `[pos, pos + r)` written lies inside
`[0, buffer_size)`. -/
theorem C24_read_size_bounds (s : cache_vars_t) (d : Int → Nat) (rd : Int → Int) (r : Int)
    (hsec : 0 < s.sector_size) (hfl : s.fill_limit = 8 * s.sector_size) (hm : mapped s)
    (hreq : (cache_fill s d rd).request = some r) :
    r ≤ (if s.stream.read_chunk = 0 then 4 * s.sector_size else s.stream.read_chunk) ∧
    r ≤ fill_space0 (fill_seek s) s.read_filepos ∧
    min s.sector_size
      (if s.stream.read_chunk = 0 then 4 * s.sector_size else s.stream.read_chunk) ≤ r ∧
    (s.sector_size ≤
        (if s.stream.read_chunk = 0 then 4 * s.sector_size else s.stream.read_chunk) →
      s.sector_size ≤ r) ∧
    ((cache_fill s d rd).wraparound_copy = false →
      0 ≤ (cache_fill s d rd).pos ∧ (cache_fill s d rd).pos + r ≤ s.buffer_size) ∧
    ((cache_fill s d rd).wraparound_copy = true →
      r ≤ s.sector_size ∧ s.buffer_size - (cache_fill s d rd).pos < s.sector_size) := by
  have hk := fill_seek_consts s
  have hfl2 : (fill_seek s).fill_limit = 8 * (fill_seek s).sector_size := by
    rw [hk.2.2.2.1, hk.2.1]; exact hfl
  have hsec2 : 0 < (fill_seek s).sector_size := by rw [hk.2.1]; exact hsec
  have hpos := fill_pos_mapped (fill_seek_mapped hm)
  have hle := fill_space_le (t := fill_seek s) s.read_filepos
  have hch : fill_chunk (fill_seek s) =
      (if s.stream.read_chunk = 0 then 4 * s.sector_size else s.stream.read_chunk) := by
    unfold fill_chunk
    rw [hk.2.2.2.2.2.2.2, hk.2.1]
  rw [cache_fill_eq] at hreq ⊢
  by_cases hfull : fill_space0 (fill_seek s) s.read_filepos < (fill_seek s).fill_limit
  · rw [if_pos hfull] at hreq
    exact absurd hreq (by simp)
  rw [if_neg hfull] at hreq ⊢
  simp only [Option.some.injEq] at hreq
  have hr : r = min (fill_space1 (fill_seek s) s.read_filepos) (fill_chunk (fill_seek s)) := by
    rw [← hreq]; rfl
  have h1 : (fill_seek s).sector_size ≤ fill_space1 (fill_seek s) s.read_filepos ∧
      fill_space1 (fill_seek s) s.read_filepos ≤ fill_space0 (fill_seek s) s.read_filepos := by
    unfold fill_space1
    split_ifs <;> omega
  rw [hk.2.1] at h1
  rw [hch] at hr
  rw [hk.1, hk.2.1] at hle
  refine ⟨by omega, by omega, by omega, fun _ => by omega, fun hw => ?_, fun hw => ?_⟩
  · have hw2 : fill_wrap (fill_seek s) s.read_filepos = false := hw
    have h2 := hle.1 hw2
    rw [hreq] at h2
    show 0 ≤ fill_pos (fill_seek s) ∧ fill_pos (fill_seek s) + r ≤ s.buffer_size
    exact ⟨hpos.2.1, by omega⟩
  · have hw2 : fill_wrap (fill_seek s) s.read_filepos = true := hw
    have h2 := hle.2 hw2
    rw [hreq] at h2
    exact h2

/-- Witness of C24: the first source read of the spec scenario asks for 8192
bytes, four sectors. -/
theorem C24_read_size_bounds_witness :
    (8192 : Int) ≤
      (if ex_fresh.stream.read_chunk = 0 then 4 * ex_fresh.sector_size
        else ex_fresh.stream.read_chunk) ∧
    (8192 : Int) ≤ fill_space0 (fill_seek ex_fresh) ex_fresh.read_filepos ∧
    min ex_fresh.sector_size
      (if ex_fresh.stream.read_chunk = 0 then 4 * ex_fresh.sector_size
        else ex_fresh.stream.read_chunk) ≤ 8192 :=
  ⟨(C24_read_size_bounds ex_fresh ex_medium ex_full 8192 (by decide) (by decide)
      ⟨by decide, by decide⟩ (by decide)).1,
    (C24_read_size_bounds ex_fresh ex_medium ex_full 8192 (by decide) (by decide)
      ⟨by decide, by decide⟩ (by decide)).2.1,
    (C24_read_size_bounds ex_fresh ex_medium ex_full 8192 (by decide) (by decide)
      ⟨by decide, by decide⟩ (by decide)).2.2.1⟩

/-- An iteration of `cache_read` that copies: the bytes are taken from the physical
position `read_pos`. -/
theorem cache_read_loop_copy (d : Int → Nat) (n : Nat) (s : cache_vars_t) (size total : Int)
    (out : List Nat) (env : List read_wait) (hsz : size > 0)
    (hc : ¬ (s.read_filepos ≥ s.max_filepos ∨ s.read_filepos < s.min_filepos)) :
    cache_read_loop d (n + 1) s size total out env =
      if read_newb s size < 0 then none
      else
        cache_read_loop d n { s with read_filepos := s.read_filepos + read_newb s size }
          (size - read_newb s size) (total + read_newb s size)
          (out ++ (List.range (read_newb s size).toNat).map
            (fun (i : Nat) => s.buffer (read_pos s + (i : Int)))) env := by
  conv_lhs => unfold cache_read_loop
  rw [if_pos hsz, if_neg hc]
  rfl

/-- Every state reached from the state `stream_cache_init` hands to the Filler
satisfies the invariant of the window. -/
theorem cache_run_from_init (k : cache_consts) (d : Int → Nat) (cache stream : stream_t)
    (size mn seek_limit : Int) (e : init_env) (s0 : cache_vars_t) (m : Int)
    (ops : List cache_op) (s : cache_vars_t)
    (hinit : stream_cache_init_vars k cache stream size mn seek_limit e = some (s0, m))
    (hsec : 0 < s0.sector_size)
    (hops : ∀ op ∈ ops, op_reads_short op)
    (hrun : cache_run k d s0 ops = some s) : window_inv False s := by
  have h0 := stream_cache_init_vars_window_inv hinit hsec
  have h0' : window_inv False s0 := by
    obtain ⟨h1, h2, h3, h4, hm, hw, -⟩ := h0
    exact ⟨h1, h2, h3, h4, hm, hw, fun hf => absurd hf id⟩
  exact cache_run_window_inv k d ops s0 s h0' hops (fun hf => absurd hf id) hrun

/-- The positions `cache_fill` writes at and `cache_read` copies from, in a state
that satisfies the invariant of the window. -/
theorem mapping_of_window_inv {s : cache_vars_t} (h : window_inv False s) (d : Int → Nat)
    (rd : Int → Int) :
    mapped s ∧
    ((cache_fill s d rd).pos =
        ((fill_seek s).max_filepos - (fill_seek s).offset) % s.buffer_size ∧
      0 ≤ (cache_fill s d rd).pos ∧ (cache_fill s d rd).pos < s.buffer_size) ∧
    ((cache_fill s d rd).flushed = false →
      (cache_fill s d rd).pos = (s.max_filepos - s.offset) % s.buffer_size) ∧
    (s.min_filepos ≤ s.read_filepos → s.read_filepos < s.max_filepos →
      read_pos s = (s.read_filepos - s.offset) % s.buffer_size ∧
      0 ≤ read_pos s ∧ read_pos s < s.buffer_size) := by
  obtain ⟨h1, h2, h3, h4, hm, hw, -⟩ := h
  have hB : 0 < s.buffer_size := by omega
  have hk := fill_seek_consts s
  have hp := fill_pos_mapped (fill_seek_mapped hm)
  rw [hk.1] at hp
  have hpos : (cache_fill s d rd).pos = fill_pos (fill_seek s) := by
    rw [cache_fill_eq]; split_ifs <;> rfl
  have hfl : (cache_fill s d rd).flushed = fill_flushes s := by
    rw [cache_fill_eq]; split_ifs <;> rfl
  have hmod : ((fill_seek s).max_filepos - (fill_seek s).offset) % s.buffer_size =
      fill_pos (fill_seek s) := by
    rw [← hp.1]; exact Int.emod_eq_of_lt hp.2.1 hp.2.2
  refine ⟨hm, ⟨by rw [hpos, hmod], by rw [hpos]; exact hp.2.1, by rw [hpos]; exact hp.2.2⟩,
    fun hnf => ?_, fun hr1 hr2 => ?_⟩
  · rw [hfl] at hnf
    rw [hpos, ← hmod, fill_seek_of_not_flush hnf]
  · have he := read_pos_eq hm hw hr1 hr2
    have he' : read_pos s = (s.read_filepos - s.offset) % s.buffer_size := he
    rw [he']
    exact ⟨rfl, Int.emod_nonneg _ (ne_of_gt hB), Int.emod_lt_of_pos _ hB⟩

/-- C25. Logical-to-physical mapping.  In every state reached from the state
`stream_cache_init` builds with `cache_init` (sector size positive) through any
sequence of `cache_fill` (source reads returning between 0 and the requested
number of bytes), `cache_read`, `cache_seek`, `cache_control` and
`cache_execute_control` calls: `offset ≤ max_filepos < offset + buffer_size`; the
position `cache_fill` writes at is `(max_filepos - offset) mod buffer_size`, taken
after its seek block (so in the state itself when the call does not flush), and
lies in `[0, buffer_size)`; and whenever `cache_read` copies bytes, which it does
for `min_filepos ≤ read_filepos < max_filepos`, the position it copies from is
`(read_filepos - offset) mod buffer_size` and lies in `[0, buffer_size)`. -/
theorem C25_mapping (k : cache_consts) (d : Int → Nat) (cache stream : stream_t)
    (size mn seek_limit : Int) (e : init_env) (s0 : cache_vars_t) (m : Int)
    (ops : List cache_op) (s : cache_vars_t) (rd : Int → Int)
    (hinit : stream_cache_init_vars k cache stream size mn seek_limit e = some (s0, m))
    (hsec : 0 < s0.sector_size)
    (hops : ∀ op ∈ ops, op_reads_short op)
    (hrun : cache_run k d s0 ops = some s) :
    (s.offset ≤ s.max_filepos ∧ s.max_filepos < s.offset + s.buffer_size) ∧
    ((cache_fill s d rd).pos =
        ((fill_seek s).max_filepos - (fill_seek s).offset) % s.buffer_size ∧
      0 ≤ (cache_fill s d rd).pos ∧ (cache_fill s d rd).pos < s.buffer_size) ∧
    ((cache_fill s d rd).flushed = false →
      (cache_fill s d rd).pos = (s.max_filepos - s.offset) % s.buffer_size) ∧
    (s.min_filepos ≤ s.read_filepos → s.read_filepos < s.max_filepos →
      read_pos s = (s.read_filepos - s.offset) % s.buffer_size ∧
      0 ≤ read_pos s ∧ read_pos s < s.buffer_size) :=
  mapping_of_window_inv
    (cache_run_from_init k d cache stream size mn seek_limit e s0 m ops s hinit hsec hops hrun)
    d rd

/-- Witness of C25: the cache of the spec scenario after one fill; the next fill
writes at `(max_filepos - offset) mod buffer_size`. -/
theorem C25_mapping_witness :
    (cache_fill (run_fills ex_medium ex_fresh [ex_full]) ex_medium ex_full).pos =
      ((run_fills ex_medium ex_fresh [ex_full]).max_filepos -
        (run_fills ex_medium ex_fresh [ex_full]).offset) %
        (run_fills ex_medium ex_fresh [ex_full]).buffer_size :=
  (C25_mapping ex_consts ex_medium ex_stream ex_stream 65536 16384 16384 ex_init_env ex_fresh
    16384 [cache_op.fill ex_full] (run_fills ex_medium ex_fresh [ex_full]) ex_full
    ex_fresh_init (by decide)
    (fun op hop => by rw [List.mem_singleton.1 hop]; exact ex_full_short) rfl).2.2.1
    (by decide)

/-- C26. The window stays within the capacity.  For every state reached from the
state `stream_cache_init` builds with `cache_init` (sector size positive) through
any sequence of cache operations, and every source read returning between 0 and
the requested number of bytes, the state after `cache_fill` satisfies
`max_filepos - min_filepos ≤ buffer_size`, whichever branch the call takes; the
capacity itself is unchanged, `0 ≤ max_filepos - offset < buffer_size` holds
before and after, and `sector_size ≤ fill_limit` holds when the sector size is
below `2^28`, so that the `int` product `8 * sector` of `cache_init` has not
overflowed. -/
theorem C26_window_capacity (k : cache_consts) (d : Int → Nat) (cache stream : stream_t)
    (size mn seek_limit : Int) (e : init_env) (s0 : cache_vars_t) (m : Int)
    (ops : List cache_op) (s : cache_vars_t) (rd : Int → Int)
    (hinit : stream_cache_init_vars k cache stream size mn seek_limit e = some (s0, m))
    (hsec : 0 < s0.sector_size)
    (hops : ∀ op ∈ ops, op_reads_short op)
    (hrun : cache_run k d s0 ops = some s) (hrd : short_read rd) :
    (cache_fill s d rd).s.max_filepos - (cache_fill s d rd).s.min_filepos ≤
      (cache_fill s d rd).s.buffer_size ∧
    (cache_fill s d rd).s.buffer_size = s.buffer_size ∧
    ((s.sector_size < 2 ^ 28 → s.sector_size ≤ s.fill_limit) ∧
      0 ≤ s.max_filepos - s.offset ∧ s.max_filepos - s.offset < s.buffer_size) ∧
    (0 ≤ (cache_fill s d rd).s.max_filepos - (cache_fill s d rd).s.offset ∧
      (cache_fill s d rd).s.max_filepos - (cache_fill s d rd).s.offset <
        (cache_fill s d rd).s.buffer_size) := by
  have h := cache_run_from_init k d cache stream size mn seek_limit e s0 m ops s hinit hsec
    hops hrun
  have h2 := cache_fill_window_inv d h hrd
  have hc := cache_fill_same_consts s d rd
  obtain ⟨-, a2, -, -, am, -, -⟩ := h
  obtain ⟨-, -, -, -, bm, bw, -⟩ := h2
  unfold mapped at am bm
  exact ⟨bw, hc.1, ⟨a2, by omega, by omega⟩, by omega, by omega⟩

/-- Witness of C26: the cache of the spec scenario after one fill; the window
after the next fill fits the buffer. -/
theorem C26_window_capacity_witness :
    (cache_fill (run_fills ex_medium ex_fresh [ex_full]) ex_medium ex_full).s.max_filepos -
        (cache_fill (run_fills ex_medium ex_fresh [ex_full]) ex_medium ex_full).s.min_filepos ≤
      (cache_fill (run_fills ex_medium ex_fresh [ex_full]) ex_medium ex_full).s.buffer_size :=
  (C26_window_capacity ex_consts ex_medium ex_stream ex_stream 65536 16384 16384 ex_init_env
    ex_fresh 16384 [cache_op.fill ex_full] (run_fills ex_medium ex_fresh [ex_full]) ex_full
    ex_fresh_init (by decide)
    (fun op hop => by rw [List.mem_singleton.1 hop]; exact ex_full_short) rfl
    ex_full_short).1

theorem ex_short_short : short_read ex_short := by
  intro n; unfold ex_short; omega

/-- C27 (amended). `cache_fill` does not move `min_filepos` past `max_filepos` when
the chunk size of the source is at most `fill_limit`.  For every state with
`min_filepos ≤ max_filepos` and the mapping bound, constants with
`0 < buffer_size`, `sector_size ≤ buffer_size`, `0 ≤ back_size` and
`seek_limit ≤ buffer_size - fill_limit`, every `read_filepos` and every source
read returning between 0 and the requested number of bytes: if the chunk size
(`read_chunk`, or 4 sectors when that is 0) is at most `fill_limit`, or the
Reader does not stand beyond `max_filepos`, or the call flushes, the state after
`cache_fill` satisfies `0 ≤ max_filepos - min_filepos`. -/
theorem C27_min_le_max (s : cache_vars_t) (d : Int → Nat) (rd : Int → Int)
    (hB : 0 < s.buffer_size) (hsB : s.sector_size ≤ s.buffer_size) (hb : 0 ≤ s.back_size)
    (hm : mapped s) (hw : s.min_filepos ≤ s.max_filepos)
    (hsl : s.seek_limit ≤ s.buffer_size - s.fill_limit) (hrd : short_read rd)
    (hch : (if s.stream.read_chunk = 0 then 4 * s.sector_size else s.stream.read_chunk) ≤
        s.fill_limit ∨ s.read_filepos ≤ s.max_filepos ∨
        (cache_fill s d rd).flushed = true) :
    0 ≤ (cache_fill s d rd).s.max_filepos - (cache_fill s d rd).s.min_filepos := by
  have hlen := hrd (fill_space (fill_seek s) s.read_filepos)
  have hfl : (cache_fill s d rd).flushed = fill_flushes s := by
    rw [cache_fill_eq]; split_ifs <;> rfl
  rw [hfl] at hch
  rw [cache_fill_eq]
  cases hf : fill_flushes s
  · -- no seek
    have hseek := fill_seek_of_not_flush hf
    rw [hseek] at hlen ⊢
    have hnf : ¬ ((s.read_filepos < s.min_filepos ∨ s.read_filepos > s.max_filepos) ∧
        (s.read_filepos < s.min_filepos ∨ s.read_filepos ≥ s.max_filepos + s.seek_limit)) := by
      unfold fill_flushes at hf
      simpa using hf
    split_ifs with hfull
    · show 0 ≤ s.max_filepos - s.min_filepos
      omega
    · show 0 ≤ s.max_filepos + rd (fill_space s s.read_filepos) - fill_min s s.read_filepos
      have hp := fill_pos_mapped hm
      have h1 := fill_space_le_space1 s s.read_filepos
      have hnb := fill_newb_eq s s.read_filepos
      have hbk := fill_back_eq s s.read_filepos
      have hs1 : fill_space1 s s.read_filepos ≤ s.buffer_size := by
        unfold fill_space1 fill_space0
        split_ifs <;> omega
      have hc : fill_chunk s =
          (if s.stream.read_chunk = 0 then 4 * s.sector_size else s.stream.read_chunk) := rfl
      rw [hc] at h1
      unfold fill_min
      split_ifs with hmv
      · by_cases hr : s.read_filepos ≤ s.max_filepos
        · omega
        · rcases hch with hch | hch | hch
          · have hlt : s.read_filepos < s.max_filepos + s.seek_limit := by
              by_contra hge
              exact hnf ⟨Or.inr (by omega), Or.inr (by omega)⟩
            omega
          · exact absurd hch hr
          · rw [hf] at hch
            exact absurd hch (by decide)
      · omega
  · -- flush and seek
    obtain ⟨a1, a2, -, -, -, -, a7⟩ := fill_after_flush hB hsB hf
    split_ifs with hfull
    · show 0 ≤ (fill_seek s).max_filepos - (fill_seek s).min_filepos
      omega
    · show 0 ≤ (fill_seek s).max_filepos + rd (fill_space (fill_seek s) s.read_filepos) -
        fill_min (fill_seek s) s.read_filepos
      omega

/-- Witness of C27: the first fill of the spec scenario. -/
theorem C27_min_le_max_witness :
    0 ≤ (cache_fill ex_fresh ex_medium ex_full).s.max_filepos -
      (cache_fill ex_fresh ex_medium ex_full).s.min_filepos :=
  C27_min_le_max ex_fresh ex_medium ex_full (by decide) (by decide) (by decide)
    ⟨by decide, by decide⟩ (by decide) (by decide) ex_full_short (Or.inl (by decide))

/-- Counterexample to C27 as stated.  In `ex_gap` the window is empty
(`min_filepos = max_filepos = 0`), `seek_limit = buffer_size - fill_limit` and the
Reader stands at 40960, so `cache_fill` does not flush.  The source prefers
chunks of 65536 bytes; `cache_fill` asks for 32768 bytes, moves `min_filepos` to
8192, and the source returns 100 bytes: afterwards `max_filepos = 100` lies below
`min_filepos = 8192`. -/
theorem C27_counterexample :
    ex_gap.min_filepos ≤ ex_gap.max_filepos ∧
    ex_gap.seek_limit ≤ ex_gap.buffer_size - ex_gap.fill_limit ∧
    short_read ex_short ∧
    (cache_fill ex_gap ex_medium ex_short).flushed = false ∧
    (cache_fill ex_gap ex_medium ex_short).request = some 32768 ∧
    (cache_fill ex_gap ex_medium ex_short).ret = 100 ∧
    (cache_fill ex_gap ex_medium ex_short).s.min_filepos = 8192 ∧
    (cache_fill ex_gap ex_medium ex_short).s.max_filepos = 100 ∧
    (cache_fill ex_gap ex_medium ex_short).s.max_filepos -
      (cache_fill ex_gap ex_medium ex_short).s.min_filepos < 0 := by
  refine ⟨by decide, by decide, ex_short_short, by decide, by decide, by decide, by decide,
    by decide, by decide⟩

/-- Every index outside `fill_written` keeps its byte. -/
theorem fill_buffer_frame (t : cache_vars_t) (read : Int) (d : Int → Nat) (len i : Int)
    (h : ¬ fill_written t read len i) : fill_buffer t read d len i = t.buffer i := by
  unfold fill_written at h
  unfold fill_buffer
  cases hw : fill_wrap t read
  · rw [hw] at h
    simp only [Bool.false_eq_true, if_false] at h ⊢
    unfold memcpy
    rw [if_neg h]
  · rw [hw] at h
    simp only [if_true] at h ⊢
    rw [not_or] at h
    unfold memcpy
    simp only [zero_add]
    rw [if_neg h.2, if_neg h.1]

/-- The size of the source read is at most the free space first computed, when
`cache_fill` reads. -/
theorem fill_space_le_space0 {t : cache_vars_t} (read : Int)
    (hs : t.sector_size ≤ t.fill_limit)
    (hfull : ¬ fill_space0 t read < t.fill_limit) :
    fill_space t read ≤ fill_space0 t read := by
  have h1 := fill_space_le_space1 t read
  have h2 : fill_space1 t read ≤ fill_space0 t read := by
    unfold fill_space1
    split_ifs <;> omega
  omega

/-- C28. The Filler does not overwrite unread bytes.  For every state with
`min_filepos ≤ read_filepos ≤ max_filepos`, `max_filepos - min_filepos ≤ buffer_size`
and `0 ≤ max_filepos - offset < buffer_size` (the constants being those of a
cache: `sector_size ≤ fill_limit`, `sector_size ≤ buffer_size`,
`0 ≤ back_size`) and every source read returning between 0 and the requested
number of bytes: no physical slot `(q - offset) mod buffer_size` of a logical
position `q` in `[read_filepos, max_filepos)` is among the indices `cache_fill`
writes; every index it does not write keeps its byte; the bytes of
`[read_filepos, max_filepos)` are found at their slots afterwards; and
`min_filepos ≤ read_filepos` still holds. -/
theorem C28_no_overwrite (s : cache_vars_t) (d : Int → Nat) (rd : Int → Int)
    (hsf : s.sector_size ≤ s.fill_limit)
    (hsB : s.sector_size ≤ s.buffer_size) (hb : 0 ≤ s.back_size)
    (hmin : s.min_filepos ≤ s.read_filepos) (hmax : s.read_filepos ≤ s.max_filepos)
    (hw : s.max_filepos - s.min_filepos ≤ s.buffer_size) (hm : mapped s)
    (hrd : short_read rd) :
    (∀ q : Int, s.read_filepos ≤ q → q < s.max_filepos →
      ¬ fill_written s s.read_filepos (cache_fill s d rd).ret
        ((q - s.offset) % s.buffer_size)) ∧
    (∀ i : Int, ¬ fill_written s s.read_filepos (cache_fill s d rd).ret i →
      (cache_fill s d rd).s.buffer i = s.buffer i) ∧
    (∀ q : Int, s.read_filepos ≤ q → q < s.max_filepos →
      (cache_fill s d rd).s.buffer
          ((q - (cache_fill s d rd).s.offset) % (cache_fill s d rd).s.buffer_size) =
        s.buffer ((q - s.offset) % s.buffer_size)) ∧
    (cache_fill s d rd).s.min_filepos ≤ (cache_fill s d rd).s.read_filepos := by
  have hnf : fill_flushes s = false := by
    unfold fill_flushes
    simp only [Bool.and_eq_false_imp, decide_eq_true_eq, decide_eq_false_iff_not]
    intro h
    omega
  have hseek : fill_seek s = s := fill_seek_of_not_flush hnf
  obtain ⟨hp, hp0, hpB⟩ := fill_pos_mapped hm
  have hlen := hrd (fill_space s s.read_filepos)
  have hnb := fill_newb_eq s s.read_filepos
  have hbk := fill_back_eq s s.read_filepos
  have hsp := fill_space_le (t := s) s.read_filepos
  obtain ⟨hm1, hm2⟩ := hm
  rw [cache_fill_eq, hseek]
  by_cases hfull : fill_space0 s s.read_filepos < s.fill_limit
  · rw [if_pos hfull]
    refine ⟨fun q hq1 hq2 => ?_, fun i _ => rfl, fun q _ _ => rfl, hmin⟩
    show ¬ fill_written s s.read_filepos 0 ((q - s.offset) % s.buffer_size)
    unfold fill_written
    split_ifs <;> omega
  · rw [if_neg hfull]
    have hle := fill_space_le_space0 s.read_filepos hsf hfull
    have hs0 : fill_space0 s s.read_filepos =
        s.buffer_size - (fill_newb s s.read_filepos + fill_back s s.read_filepos) := rfl
    have hl : 0 ≤ rd (fill_space s s.read_filepos) ∧
        rd (fill_space s s.read_filepos) ≤ max (fill_space s s.read_filepos) 0 := hlen
    refine ⟨fun q hq1 hq2 => ?_, fun i hi => ?_, fun q hq1 hq2 => ?_, ?_⟩
    · show ¬ fill_written s s.read_filepos (rd (fill_space s s.read_filepos))
        ((q - s.offset) % s.buffer_size)
      rw [emod_window (B := s.buffer_size) (x := q - s.offset) (by omega) (by omega)]
      unfold fill_written
      cases hwr : fill_wrap s s.read_filepos
      · have := hsp.1 hwr
        simp only [Bool.false_eq_true, if_false]
        split_ifs <;> omega
      · have := hsp.2 hwr
        simp only [if_true]
        split_ifs <;> omega
    · exact fill_buffer_frame s s.read_filepos d _ i hi
    · have hfm := fill_min_le_read (t := s) s.read_filepos hsf hb hmin hfull
      exact fill_read_old s.read_filepos d _ ⟨hm1, hm2⟩ hsB hl q (by omega) hq2
    · exact fill_min_le_read (t := s) s.read_filepos hsf hb hmin hfull

/-- Witness of C28: in the spec scenario after five fills, with the Reader at the
start of the window, the next fill does not write the slot of position 100. -/
theorem C28_no_overwrite_witness :
    ¬ fill_written ex_filled ex_filled.read_filepos
      (cache_fill ex_filled ex_medium ex_full).ret
      (((100 : Int) - ex_filled.offset) % ex_filled.buffer_size) :=
  (C28_no_overwrite ex_filled ex_medium ex_full (by decide) (by decide)
    (by decide) (by decide) (by decide) (by decide) ⟨by decide, by decide⟩
    ex_full_short).1 100 (by decide) (by decide)

/-- C29. No stall while the Reader is starved.  For every state with the constants
of `cache_init` (a positive sector size, `buffer_size` of at least 32 sectors,
`fill_limit` of 8 sectors, `back_size = buffer_size / 2`) over a source whose
`read_chunk` is not negative, in which the Reader has nothing to read
(`read_filepos ≥ max_filepos` or `read_filepos < min_filepos`): the free space
`cache_fill` computes is not below `fill_limit`, so the call does not return
through the buffer-full branch, and it issues a source read of at least one
byte. -/
theorem C29_no_stall (s : cache_vars_t) (d : Int → Nat) (rd : Int → Int)
    (hsec : 0 < s.sector_size) (hB : 32 * s.sector_size ≤ s.buffer_size)
    (hfl : s.fill_limit = 8 * s.sector_size) (hbk : s.back_size = Int.tdiv s.buffer_size 2)
    (hchunk : 0 ≤ s.stream.read_chunk)
    (hst : s.read_filepos ≥ s.max_filepos ∨ s.read_filepos < s.min_filepos) :
    ¬ fill_space0 (fill_seek s) s.read_filepos < (fill_seek s).fill_limit ∧
    (cache_fill s d rd).request ≠ none ∧
    (∃ r : Int, (cache_fill s d rd).request = some r ∧ 1 ≤ r ∧
      (cache_fill s d rd).ret = rd r) := by
  have hk := fill_seek_consts s
  have hB0 : 0 ≤ s.buffer_size := by omega
  have hbk2 : s.back_size = s.buffer_size / 2 := by
    rw [hbk]; exact Int.tdiv_eq_ediv hB0 (by decide)
  have hnb := fill_newb_eq (fill_seek s) s.read_filepos
  have hbb := fill_back_eq (fill_seek s) s.read_filepos
  rw [hk.2.2.1] at hbb
  have hmaxle : (fill_seek s).max_filepos ≤ s.read_filepos := by
    cases hf : fill_flushes s
    · rw [fill_seek_of_not_flush hf]
      have hnf : ¬ ((s.read_filepos < s.min_filepos ∨ s.read_filepos > s.max_filepos) ∧
          (s.read_filepos < s.min_filepos ∨
            s.read_filepos ≥ s.max_filepos + s.seek_limit)) := by
        unfold fill_flushes at hf
        simpa using hf
      rcases hst with h | h
      · exact h
      · exact absurd ⟨Or.inl h, Or.inl h⟩ hnf
    · have := (fill_after_flush (by omega) (by omega) hf).2.1
      omega
  have hfull : ¬ fill_space0 (fill_seek s) s.read_filepos < (fill_seek s).fill_limit := by
    unfold fill_space0
    rw [hk.1, hk.2.2.2.1]
    omega
  have hs0 : (fill_seek s).fill_limit ≤ fill_space0 (fill_seek s) s.read_filepos := by omega
  rw [hk.2.2.2.1] at hs0
  have h1 : 1 ≤ fill_space (fill_seek s) s.read_filepos := by
    have hs1 : 1 ≤ fill_space1 (fill_seek s) s.read_filepos := by
      unfold fill_space1
      rw [hk.2.1]
      split_ifs <;> omega
    have hc : 1 ≤ fill_chunk (fill_seek s) := by
      unfold fill_chunk
      rw [hk.2.2.2.2.2.2.2, hk.2.1]
      split_ifs <;> omega
    unfold fill_space
    omega
  refine ⟨hfull, ?_, fill_space (fill_seek s) s.read_filepos, ?_, h1, ?_⟩
  · rw [cache_fill_eq, if_neg hfull]; simp
  · rw [cache_fill_eq, if_neg hfull]
  · rw [cache_fill_eq, if_neg hfull]

/-- Witness of C29: on the fresh cache of the spec scenario, where the Reader
stands at the end of the empty window, `cache_fill` asks the source for 8192
bytes. -/
theorem C29_no_stall_witness :
    ∃ r : Int, (cache_fill ex_fresh ex_medium ex_full).request = some r ∧ 1 ≤ r ∧
      (cache_fill ex_fresh ex_medium ex_full).ret = ex_full r :=
  (C29_no_stall ex_fresh ex_medium ex_full (by decide) (by decide) (by decide) (by decide)
    (by decide) (Or.inl (by decide))).2.2

/-- The `switch` of `cache_execute_control` on a code it lists: the code is
forwarded to the source and the result code stored. -/
theorem exec_switch_forwarded (k : cache_consts) (s : cache_vars_t) (e : exec_env)
    (hc : s.control ∈ exec_labels k) :
    ∃ a : ctrl_arg,
      (exec_switch k s e).control_res = (e.control s.stream s.control a).1 ∧
      (exec_switch k s e).stream = (e.control s.stream s.control a).2.2 := by
  simp only [exec_labels, List.mem_cons, List.mem_singleton, List.not_mem_nil, or_false] at hc
  unfold exec_switch
  simp only []
  split_ifs
  all_goals first
    | exact ⟨_, rfl, rfl⟩
    | (exfalso; tauto)

/-- The wait of `cache_control` ends when the slot is free. -/
theorem cache_control_wait_free (k : cache_consts) (d : Int → Nat) (s : cache_vars_t)
    (env : List control_wait) (h : s.control = -1) :
    cache_control_wait k d s env = some (false, s) := by
  cases env with
  | nil => unfold cache_control_wait; rw [if_neg (by simp [h])]
  | cons w env => unfold cache_control_wait; rw [if_neg (by simp [h])]

/-- C30. Every posted request is answered in one Filler step.  For every posted
code other than -1, whenever `cache_execute_control` returns 1 the control slot
is free again, and `control_res` holds: for a source with a control callback,
the result code the source returns for the code when the `switch` lists the
code, and `STREAM_UNSUPPORTED` when it does not; for a source without control
callback, `STREAM_UNSUPPORTED`.  When the code is the quit code -2, or the source
has no control callback, `control_res` is `STREAM_UNSUPPORTED`, the slot is
freed, and the cached length and position are 0 and `MP_NOPTS_VALUE`.  And a call
of `cache_control` for a posted command returns once an iteration of the Filler
has returned 1 during its first sleep. -/
theorem C30_request_answered (k : cache_consts) (s : cache_vars_t) (e : exec_env) :
    (s.control ≠ -1 → (cache_execute_control k s e).1 = 1 →
      (cache_execute_control k s e).2.control = -1 ∧
      (s.stream.control = true → s.control ∈ exec_labels k →
        ∃ a : ctrl_arg,
          (cache_execute_control k s e).2.control_res =
            (e.control (exec_refreshed k s e).stream s.control a).1 ∧
          (cache_execute_control k s e).2.stream =
            (e.control (exec_refreshed k s e).stream s.control a).2.2) ∧
      (s.stream.control = true → s.control ∉ exec_labels k →
        (cache_execute_control k s e).2.control_res = k.STREAM_UNSUPPORTED) ∧
      (s.stream.control = false →
        (cache_execute_control k s e).2.control_res = k.STREAM_UNSUPPORTED)) ∧
    (s.control = -2 ∨ s.stream.control = false →
      (cache_execute_control k s e).2.control_res = k.STREAM_UNSUPPORTED ∧
      (cache_execute_control k s e).2.control = -1 ∧
      (cache_execute_control k s e).2.stream_time_length = 0 ∧
      (cache_execute_control k s e).2.stream_time_pos = k.MP_NOPTS_VALUE ∧
      (cache_execute_control k s e).1 = (if s.control = -2 then 0 else 1)) ∧
    (∀ (d : Int → Nat) (cmd : Int) (arg : ctrl_arg) (it : filler_iter)
      (rest : List control_wait) (s1 : cache_vars_t),
      consts_ok k → cmd ∈ posted_labels k → control_posted k s cmd arg = some s1 →
      (cache_mainloop_iter k d s1 it).1 = 1 →
      ∃ r, cache_control k d s cmd arg (⟨[it], false⟩ :: rest) = some r ∧
        r.2.2.control = -1 ∧
        r.1 = (cache_mainloop_iter k d s1 it).2.control_res) := by
  have hrf := exec_refreshed_fields k s e
  have hfl := exec_flush_control_res k (exec_switch k (exec_refreshed k s e) e)
    (exec_needs_flush k (exec_refreshed k s e))
  refine ⟨fun hne h1 => ?_, fun hq => ?_, ?_⟩
  · have hfree := cache_execute_control_frees k s e h1
    have hret := cache_execute_control_ret k s e
    rw [h1] at hret
    have hnq : s.control ≠ -2 := by
      intro hq
      rw [if_pos (Or.inl hq)] at hret
      exact absurd hret (by decide)
    refine ⟨hfree, fun hh hl => ?_, fun hh hl => ?_, fun hh => ?_⟩
    · have c1 : ¬ (decide (s.control = -2) = true ∨ s.stream.control = false) := by
        simp [hnq, hh]
      have c2 : ¬ (decide (e.now - s.last > refresh_threshold) = true ∧
          (exec_times k s e).ppid ≠ e.ppid) := by
        intro c2
        have h0 : cache_execute_control k s e = (0, exec_times k s e) := by
          rw [cache_execute_control_eq, if_neg c1, if_pos c2]
        rw [h0] at h1
        have h01 : (0 : Int) = 1 := h1
        exact absurd h01 (by decide)
      have c3 : ¬ (exec_refreshed k s e).control = -1 := by
        rw [hrf.2.2.2.2.2.2.2.2.2.2.2]; exact hne
      obtain ⟨a, ha1, ha2⟩ := exec_switch_forwarded k (exec_refreshed k s e) e
        (by rw [hrf.2.2.2.2.2.2.2.2.2.2.2]; exact hl)
      rw [hrf.2.2.2.2.2.2.2.2.2.2.2] at ha1 ha2
      refine ⟨a, ?_, ?_⟩
      · rw [cache_execute_control_eq, if_neg c1, if_neg c2, if_neg c3]
        exact hfl.1.trans ha1
      · rw [cache_execute_control_eq, if_neg c1, if_neg c2, if_neg c3]
        exact hfl.2.trans ha2
    · have c1 : ¬ (decide (s.control = -2) = true ∨ s.stream.control = false) := by
        simp [hnq, hh]
      have c2 : ¬ (decide (e.now - s.last > refresh_threshold) = true ∧
          (exec_times k s e).ppid ≠ e.ppid) := by
        intro c2
        have h0 : cache_execute_control k s e = (0, exec_times k s e) := by
          rw [cache_execute_control_eq, if_neg c1, if_pos c2]
        rw [h0] at h1
        have h01 : (0 : Int) = 1 := h1
        exact absurd h01 (by decide)
      have c3 : ¬ (exec_refreshed k s e).control = -1 := by
        rw [hrf.2.2.2.2.2.2.2.2.2.2.2]; exact hne
      have hsw := exec_switch_default k (exec_refreshed k s e) e
        (by rw [hrf.2.2.2.2.2.2.2.2.2.2.2]; exact hl)
      rw [cache_execute_control_eq, if_neg c1, if_neg c2, if_neg c3]
      show (exec_flush k (exec_switch k (exec_refreshed k s e) e)
        (exec_needs_flush k (exec_refreshed k s e))).control_res = k.STREAM_UNSUPPORTED
      rw [hfl.1, hsw.1]
    · rw [cache_execute_control_eq, if_pos (Or.inr hh)]
  · have c1 : decide (s.control = -2) = true ∨ s.stream.control = false := by
      rcases hq with h | h
      · exact Or.inl (by simpa using h)
      · exact Or.inr h
    rw [cache_execute_control_eq, if_pos c1]
    refine ⟨rfl, rfl, rfl, rfl, ?_⟩
    by_cases h2 : s.control = -2 <;> simp [h2]
  · intro d cmd arg it rest s1 hk hc hp hone
    have hna := posted_not_answered hk hc
    have hfree : (cache_mainloop_iter k d s1 it).2.control = -1 := by
      rw [cache_mainloop_iter_eq] at hone ⊢
      exact cache_execute_control_frees k _ _ hone
    obtain ⟨s1', hs1', hctl, _⟩ := control_posted_some k s cmd arg hc
    rw [hp] at hs1'
    simp only [Option.some.injEq] at hs1'
    subst hs1'
    have hne : s1.control ≠ -1 := by
      rw [hctl]
      intro h
      apply hk.2.1
      rw [← h]
      unfold control_labels
      exact List.mem_append_right _ hc
    have hml : cache_mainloop k d s1 [it] = (true, (cache_mainloop_iter k d s1 it).2) := by
      show (if (cache_mainloop_iter k d s1 it).1 = 0 then
          (false, (cache_mainloop_iter k d s1 it).2)
        else cache_mainloop k d (cache_mainloop_iter k d s1 it).2 []) = _
      rw [if_neg (by rw [hone]; decide)]
      rfl
    have hw : cache_control_wait k d s1 (⟨[it], false⟩ :: rest) =
        some (false, (cache_mainloop_iter k d s1 it).2) := by
      conv_lhs => unfold cache_control_wait
      rw [if_pos hne]
      simp only []
      rw [if_neg (by decide), hml]
      exact cache_control_wait_free k d _ rest hfree
    rw [cache_control_not_answered k d s cmd arg _ hna, hp,
      control_answer_answered k d cmd arg _ s1 s _ hw]
    split_ifs with hres
    · exact ⟨_, rfl, hfree, rfl⟩
    · refine ⟨_, rfl, ?_, ?_⟩
      · show (control_adopt k (cache_mainloop_iter k d s1 it).2 cmd).control = -1
        unfold control_adopt
        split_ifs
        · exact hfree
        · exact hfree
      · show (control_adopt k (cache_mainloop_iter k d s1 it).2 cmd).control_res = _
        unfold control_adopt
        split_ifs
        · rfl
        · rfl

/-- Witness of C30: over a source that answers `STREAM_OK`, the Filler answers the
posted `STREAM_CTRL_SEEK_TO_TIME` of `ex_seek_posted` in one call and frees the
slot. -/
theorem C30_request_answered_witness :
    (cache_execute_control ex_consts ex_seek_posted ex_exec_env).2.control = -1 ∧
    (∃ a : ctrl_arg,
      (cache_execute_control ex_consts ex_seek_posted ex_exec_env).2.control_res =
        (ex_exec_env.control (exec_refreshed ex_consts ex_seek_posted ex_exec_env).stream
          ex_seek_posted.control a).1 ∧
      (cache_execute_control ex_consts ex_seek_posted ex_exec_env).2.stream =
        (ex_exec_env.control (exec_refreshed ex_consts ex_seek_posted ex_exec_env).stream
          ex_seek_posted.control a).2.2) :=
  ⟨((C30_request_answered ex_consts ex_seek_posted ex_exec_env).1 (by decide)
      ex_seek_posted_exec.2.2.2.2).1,
    ((C30_request_answered ex_consts ex_seek_posted ex_exec_env).1 (by decide)
      ex_seek_posted_exec.2.2.2.2).2.1 rfl (by decide)⟩

/-- A command answered through the `unsigned` argument is none of the commands
answered through the `double` argument. -/
theorem seek_uint_code_ne {k : cache_consts} (hk : consts_ok k) {c : Int}
    (hc : c = k.STREAM_CTRL_SEEK_TO_CHAPTER ∨ c = k.STREAM_CTRL_SET_ANGLE) :
    ¬ (c = k.STREAM_CTRL_SEEK_TO_TIME ∨ c = k.STREAM_CTRL_GET_CURRENT_TIME ∨
      c = k.STREAM_CTRL_GET_ASPECT_RATIO ∨ c = k.STREAM_CTRL_GET_START_TIME ∨
      c = k.STREAM_CTRL_GET_CHAPTER_TIME) := by
  have len : (control_labels k).length = 22 := rfl
  have hn : ∀ (i j : Nat) (hi : i < 22) (hj : j < 22), i ≠ j →
      (control_labels k).get ⟨i, by rw [len]; exact hi⟩ ≠
        (control_labels k).get ⟨j, by rw [len]; exact hj⟩ :=
    fun i j hi hj hij h => hij (Fin.mk.inj ((List.Nodup.get_inj_iff hk.1).1 h))
  have a1 : k.STREAM_CTRL_SEEK_TO_CHAPTER ≠ k.STREAM_CTRL_SEEK_TO_TIME :=
    hn 7 6 (by decide) (by decide) (by decide)
  have a2 : k.STREAM_CTRL_SEEK_TO_CHAPTER ≠ k.STREAM_CTRL_GET_CURRENT_TIME :=
    hn 7 4 (by decide) (by decide) (by decide)
  have a3 : k.STREAM_CTRL_SEEK_TO_CHAPTER ≠ k.STREAM_CTRL_GET_ASPECT_RATIO :=
    hn 7 16 (by decide) (by decide) (by decide)
  have a4 : k.STREAM_CTRL_SEEK_TO_CHAPTER ≠ k.STREAM_CTRL_GET_START_TIME :=
    hn 7 5 (by decide) (by decide) (by decide)
  have a5 : k.STREAM_CTRL_SEEK_TO_CHAPTER ≠ k.STREAM_CTRL_GET_CHAPTER_TIME :=
    hn 7 9 (by decide) (by decide) (by decide)
  have b1 : k.STREAM_CTRL_SET_ANGLE ≠ k.STREAM_CTRL_SEEK_TO_TIME :=
    hn 8 6 (by decide) (by decide) (by decide)
  have b2 : k.STREAM_CTRL_SET_ANGLE ≠ k.STREAM_CTRL_GET_CURRENT_TIME :=
    hn 8 4 (by decide) (by decide) (by decide)
  have b3 : k.STREAM_CTRL_SET_ANGLE ≠ k.STREAM_CTRL_GET_ASPECT_RATIO :=
    hn 8 16 (by decide) (by decide) (by decide)
  have b4 : k.STREAM_CTRL_SET_ANGLE ≠ k.STREAM_CTRL_GET_START_TIME :=
    hn 8 5 (by decide) (by decide) (by decide)
  have b5 : k.STREAM_CTRL_SET_ANGLE ≠ k.STREAM_CTRL_GET_CHAPTER_TIME :=
    hn 8 9 (by decide) (by decide) (by decide)
  rcases hc with h | h <;> subst h <;> tauto

/-- What `cache_execute_control` does with a posted command that changes the
position, in a call that reaches the `switch`: the source is asked with the
posted code and argument, its result code and the stream as it leaves it are
stored, and when the result code is `STREAM_OK` the cache is flushed to the
source's position. -/
theorem cache_execute_control_seek (k : cache_consts) (s : cache_vars_t) (e : exec_env)
    (hk : consts_ok k) (hh : s.stream.control = true)
    (hp : ¬ (e.now - s.last > refresh_threshold ∧ s.ppid ≠ e.ppid))
    (r : Int × ctrl_arg × stream_t)
    (hr : (s.control = k.STREAM_CTRL_SEEK_TO_TIME ∧
          r = e.control (exec_refreshed k s e).stream s.control
            { dbl := s.control_double_arg, uint := 0, lang := 0, dvd_info := 0 }) ∨
        ((s.control = k.STREAM_CTRL_SEEK_TO_CHAPTER ∨ s.control = k.STREAM_CTRL_SET_ANGLE) ∧
          r = e.control (exec_refreshed k s e).stream s.control
            { dbl := 0, uint := s.control_uint_arg % 2 ^ 32, lang := 0, dvd_info := 0 })) :
    (cache_execute_control k s e).2.control_res = r.1 ∧
    (cache_execute_control k s e).2.stream = r.2.2 ∧
    (r.1 = k.STREAM_OK →
      (cache_execute_control k s e).2.read_filepos = r.2.2.pos ∧
      (cache_execute_control k s e).2.eof = r.2.2.eof ∧
      (cache_execute_control k s e).2.offset = r.2.2.pos ∧
      (cache_execute_control k s e).2.min_filepos = r.2.2.pos ∧
      (cache_execute_control k s e).2.max_filepos = r.2.2.pos) := by
  have htp := exec_times_ppid k s e
  have hf := exec_refreshed_fields k s e
  have hq := (exec_refreshed_request k s e).2
  have hc : s.control = k.STREAM_CTRL_SEEK_TO_TIME ∨ s.control = k.STREAM_CTRL_SEEK_TO_CHAPTER ∨
      s.control = k.STREAM_CTRL_SET_ANGLE := by
    rcases hr with h | h
    · exact Or.inl h.1
    · exact Or.inr h.1
  obtain ⟨hq2, h1, -⟩ := pos_change_code_ne hk hc
  have c1 : ¬ (decide (s.control = -2) = true ∨ s.stream.control = false) := by
    simp [hq2, hh]
  have c2 : ¬ (decide (e.now - s.last > refresh_threshold) = true ∧
      (exec_times k s e).ppid ≠ e.ppid) := by
    rw [htp.1]; simpa using hp
  have c3 : ¬ (exec_refreshed k s e).control = -1 := by
    rw [hf.2.2.2.2.2.2.2.2.2.2.2]; exact h1
  have hnf : exec_needs_flush k (exec_refreshed k s e) = true := by
    unfold exec_needs_flush; rw [hf.2.2.2.2.2.2.2.2.2.2.2]; simpa using hc
  have hsw : (exec_switch k (exec_refreshed k s e) e).control_res = r.1 ∧
      (exec_switch k (exec_refreshed k s e) e).stream = r.2.2 := by
    obtain ⟨q1, q2, q3, -, -⟩ := hq
    rcases hr with ⟨h, hr⟩ | ⟨h, hr⟩
    · unfold exec_switch
      simp only []
      rw [if_pos (Or.inl (q1.trans h)), q1, q3, hr]
      exact ⟨rfl, rfl⟩
    · have hn := seek_uint_code_ne hk h
      unfold exec_switch
      simp only []
      rw [q1, if_neg hn, if_pos h, q2, hr]
      exact ⟨rfl, rfl⟩
  rw [cache_execute_control_eq, if_neg c1, if_neg c2, if_neg c3, hnf]
  unfold exec_flush
  refine ⟨?_, ?_, fun hok => ?_⟩
  · show (if _ then _ else _ : cache_vars_t).control_res = r.1
    split_ifs
    · exact hsw.1
    · exact hsw.1
  · show (if _ then _ else _ : cache_vars_t).stream = r.2.2
    split_ifs
    · exact hsw.2
    · exact hsw.2
  · simp only []
    rw [if_pos ⟨hsw.1.trans hok, trivial⟩, hsw.2]
    exact ⟨rfl, rfl, rfl, rfl, rfl⟩

/-- C12. Filler side of a position-changing control.  Let `cache_execute_control`
run with a posted `STREAM_CTRL_SEEK_TO_TIME`, `STREAM_CTRL_SEEK_TO_CHAPTER` or
`STREAM_CTRL_SET_ANGLE` over a source with a control callback, in a call that
does not end at the parent check, and let `r` be what the source's control
callback returns when called on the source stream (as the time refresh left it)
with the posted code and the posted argument (`control_double_arg` for
`STREAM_CTRL_SEEK_TO_TIME`, `control_uint_arg` as a 32-bit `unsigned` for the
other two).  Then `control_res` is the result code of `r` and the source stream
of the state is the stream of `r`; and when the result code of `r` is
`STREAM_OK`, the resulting state has `read_filepos` equal to the position of that
stream, `eof` equal to its `eof` flag, and `offset`, `min_filepos` and
`max_filepos` equal to that position.  For every other posted code, and whenever
the result stored in `control_res` is not `STREAM_OK`, `min_filepos`,
`max_filepos`, `offset`, `read_filepos` and `eof` are unchanged. -/
theorem C12_filler_position_change (k : cache_consts) (s : cache_vars_t) (e : exec_env)
    (hk : consts_ok k) :
    (s.stream.control = true → ¬ (e.now - s.last > refresh_threshold ∧ s.ppid ≠ e.ppid) →
      ∀ r : Int × ctrl_arg × stream_t,
      ((s.control = k.STREAM_CTRL_SEEK_TO_TIME ∧
          r = e.control (exec_refreshed k s e).stream s.control
            { dbl := s.control_double_arg, uint := 0, lang := 0, dvd_info := 0 }) ∨
        ((s.control = k.STREAM_CTRL_SEEK_TO_CHAPTER ∨ s.control = k.STREAM_CTRL_SET_ANGLE) ∧
          r = e.control (exec_refreshed k s e).stream s.control
            { dbl := 0, uint := s.control_uint_arg % 2 ^ 32, lang := 0, dvd_info := 0 })) →
      (cache_execute_control k s e).2.control_res = r.1 ∧
      (cache_execute_control k s e).2.stream = r.2.2 ∧
      (r.1 = k.STREAM_OK →
        (cache_execute_control k s e).2.read_filepos = r.2.2.pos ∧
        (cache_execute_control k s e).2.eof = r.2.2.eof ∧
        (cache_execute_control k s e).2.offset = r.2.2.pos ∧
        (cache_execute_control k s e).2.min_filepos = r.2.2.pos ∧
        (cache_execute_control k s e).2.max_filepos = r.2.2.pos)) ∧
    ((¬ (s.control = k.STREAM_CTRL_SEEK_TO_TIME ∨ s.control = k.STREAM_CTRL_SEEK_TO_CHAPTER ∨
          s.control = k.STREAM_CTRL_SET_ANGLE) ∨
        (cache_execute_control k s e).2.control_res ≠ k.STREAM_OK) →
      (cache_execute_control k s e).2.min_filepos = s.min_filepos ∧
      (cache_execute_control k s e).2.max_filepos = s.max_filepos ∧
      (cache_execute_control k s e).2.offset = s.offset ∧
      (cache_execute_control k s e).2.read_filepos = s.read_filepos ∧
      (cache_execute_control k s e).2.eof = s.eof) :=
  ⟨fun hh hp r hr => cache_execute_control_seek k s e hk hh hp r hr,
    (cache_execute_control_position k s e hk).2⟩

/-- Witness of C12: `STREAM_CTRL_SEEK_TO_TIME` is posted in the cache of the spec
scenario, whose window fields are 0; the source answers `STREAM_OK` and stands at
4096 afterwards; the cache is flushed to 4096. -/
theorem C12_filler_position_change_witness :
    (cache_execute_control ex_consts ex_seek_posted ex_exec_env).2.read_filepos = 4096 ∧
    (cache_execute_control ex_consts ex_seek_posted ex_exec_env).2.eof = false ∧
    (cache_execute_control ex_consts ex_seek_posted ex_exec_env).2.offset = 4096 ∧
    (cache_execute_control ex_consts ex_seek_posted ex_exec_env).2.min_filepos = 4096 ∧
    (cache_execute_control ex_consts ex_seek_posted ex_exec_env).2.max_filepos = 4096 := by
  have hd := ex_exec_not_due ex_seek_posted rfl
  have hr := (exec_refreshed_not_due ex_consts ex_seek_posted ex_exec_env hd).2
  have h := ((C12_filler_position_change ex_consts ex_seek_posted ex_exec_env
    ex_consts_ok).1 rfl (fun h => hd h.1)
    (ex_exec_env.control (exec_refreshed ex_consts ex_seek_posted ex_exec_env).stream 6
      { dbl := 0, uint := 0, lang := 0, dvd_info := 0 })
    (Or.inl ⟨rfl, rfl⟩)).2.2 rfl
  rw [hr] at h
  exact h
/-- The threshold of the refresh test lies between the `double` constant 0.099
and the `double` that follows it, and the decimal number 0.099 lies below all
three. -/
theorem refresh_threshold_bounds :
    (99 : Rat) / 1000 < DOUBLE_0_099 ∧ DOUBLE_0_099 < refresh_threshold ∧
    refresh_threshold < DOUBLE_0_099_succ ∧
    DOUBLE_0_099_succ - DOUBLE_0_099 = 1 / 2 ^ 56 ∧
    refresh_threshold = 14267403619509733 / 2 ^ 57 := by
  unfold refresh_threshold DOUBLE_0_099 DOUBLE_0_099_succ
  norm_num

/-- The refresh at the boundary.  The last refresh was at clock 0.  When the clock
shows the `double` 0.099, the difference is not greater than 0.099: the cached
position is kept and, with the parent gone, the call returns 1.  When the clock
shows the next `double`, the cached position is replaced by the 7 the source
reports and, with the parent gone, the call returns 0. -/
theorem ex_boundary_refresh :
    (cache_execute_control ex_consts ex_idle (ex_timed_env DOUBLE_0_099)).2.stream_time_pos =
      ex_idle.stream_time_pos ∧
    (cache_execute_control ex_consts ex_idle
      (ex_timed_env DOUBLE_0_099_succ)).2.stream_time_pos = 7 ∧
    (cache_execute_control ex_consts ex_idle (ex_orphan_timed_env DOUBLE_0_099)).1 = 1 ∧
    (cache_execute_control ex_consts ex_idle (ex_orphan_timed_env DOUBLE_0_099_succ)).1 = 0 := by
  have hb := refresh_threshold_bounds
  have hn : ¬ (ex_timed_env DOUBLE_0_099).now - ex_idle.last > refresh_threshold := by
    show ¬ (DOUBLE_0_099 - 0 > refresh_threshold)
    rw [sub_zero]; exact not_lt.2 (le_of_lt hb.2.1)
  have hd : (ex_timed_env DOUBLE_0_099_succ).now - ex_idle.last > refresh_threshold := by
    show DOUBLE_0_099_succ - 0 > refresh_threshold
    rw [sub_zero]; exact hb.2.2.1
  refine ⟨?_, ?_, ?_, ?_⟩
  · rw [(cache_execute_control_times ex_consts ex_idle _ rfl (by decide)).2.1,
      (exec_refreshed_not_due ex_consts ex_idle _ hn).1]
  · rw [(cache_execute_control_times ex_consts ex_idle _ rfl (by decide)).2.1]
    unfold exec_times
    simp only []
    rw [if_pos (by simpa using hd)]
    rfl
  · rw [cache_execute_control_ret, if_neg]
    rintro (h | ⟨_, h, _⟩)
    · exact absurd h (by decide)
    · exact hn h
  · rw [cache_execute_control_ret, if_pos]
    exact Or.inr ⟨rfl, hd, by decide⟩
/-- The cache `stream_cache_init` builds over a source whose sector size is `2^28`:
the fill limit is the wrapped product `-2147483648`, below the sector size. -/
theorem ex_wide_init :
    ∃ (s : cache_vars_t) (m : Int),
      stream_cache_init_vars ex_consts ex_wide_stream ex_wide_stream 65536 16384 16384
        ex_init_env = some (s, m) ∧
      0 < s.sector_size ∧ s.buffer_size = 8589934592 ∧ s.fill_limit = -2147483648 ∧
      ¬ s.sector_size ≤ s.fill_limit :=
  ⟨_, _, rfl, by decide, by decide, by decide, by decide⟩

end Cache
